import Mathlib

/-!
# WILC SDIO host-interface layer (`drivers/staging/wilc/wilc_sdio.c`)

A shallow embedding of the SDIO bus transport of the WILC WiFi driver.

* Machine integers are natural numbers / integers with explicit truncation:
  `u32` values are reduced modulo `2^32`, bit-fields modulo `2^width`,
  `int` values are obtained through `s32`.
* The kernel SDIO core (`sdio_claim_host`, `sdio_writeb`, `sdio_readb`,
  `sdio_memcpy_toio`, ...) is not part of the repository: it is the parameter
  `Host σ`, a record of state-passing primitives over an arbitrary state `σ`.
* Every call of `wilc_sdio_cmd52` / `wilc_sdio_cmd53` appends the request it was
  given, with the error code it returned, to a specification-only log
  (`Bus.log`), so that statements can speak about the transactions issued.
* A `u8 *` buffer is a function from byte offsets to byte values; a pointer
  into it is the offset from its base.
-/

namespace WilcSdio

/-! ## Machine arithmetic -/

/-- Truncation of a natural number to an unsigned 32-bit value (`u32`). -/
def u32 (n : Nat) : Nat := n % 2 ^ 32

/-- Conversion of an unsigned 32-bit value to `int` (32-bit two's complement). -/
def s32 (n : Nat) : Int :=
  if n % 2 ^ 32 < 2 ^ 31 then ((n % 2 ^ 32 : Nat) : Int)
  else ((n % 2 ^ 32 : Nat) : Int) - 2 ^ 32

/-- Conversion of an `int` to an unsigned 32-bit value. -/
def int_to_u32 (i : Int) : Nat := (i % 2 ^ 32).toNat

/-- Modelled from the spec: the kernel macro `BIT(nr)` (`linux/bits.h`, not part
of this repository) is `1UL << nr`, the word with only bit `nr` set (the spec
speaks of "bit positions"). -/
def BIT (nr : Nat) : Nat := 2 ^ nr

/-! ## Constants of `wilc_wlan.h` and `wilc_sdio.c` -/

def WILC_SDIO_BLOCK_SIZE : Nat := 512
def IRG_FLAGS_OFFSET : Nat := 16
def MAX_NUM_INT : Nat := 5
def SEL_VMM_TBL0 : Nat := BIT 6
def SEL_VMM_TBL1 : Nat := BIT 7
def EN_VMM : Nat := BIT 8

/-- The chip generations, `enum wilc_chip_type`. -/
inductive wilc_chip_type where
  | WILC_1000
  | WILC_3000
  deriving DecidableEq, Repr

/-! ## Data model -/

/-- The private bus data, `struct wilc_sdio` (the back pointer `wl` is left out). -/
structure wilc_sdio where
  irq_gpio : Bool
  block_size : Nat
  nint : Int
  is_init : Bool
  deriving DecidableEq, Repr

/-- The fields of `struct wilc` that the SDIO layer uses. -/
structure wilc where
  chip : wilc_chip_type
  io_type : Nat
  bus_data : wilc_sdio
  deriving DecidableEq, Repr

/-- The single-byte request, `struct sdio_cmd52`: bit-fields of width
1, 3, 1, 17 and 8. -/
structure sdio_cmd52 where
  read_write : Nat
  function : Nat
  raw : Nat
  address : Nat
  data : Nat
  deriving DecidableEq, Repr

/-- The block request, `struct sdio_cmd53`: bit-fields of width 1, 3, 1, 1, 17
and 9, the buffer pointer (as an offset into the caller's buffer) and the block
size. -/
structure sdio_cmd53 where
  read_write : Nat
  function : Nat
  block_mode : Nat
  increment : Nat
  address : Nat
  count : Nat
  buffer : Nat
  block_size : Nat
  deriving DecidableEq, Repr

/-- A byte buffer addressed by offset. -/
abbrev Buf := Nat → Nat

/-- A request handed to the command encoder. -/
inductive Req where
  | cmd52 (cmd : sdio_cmd52)
  | cmd53 (cmd : sdio_cmd53)
  deriving DecidableEq, Repr

/-- One executed transaction: the request as it was passed to
`wilc_sdio_cmd52` / `wilc_sdio_cmd53` and the error code that call returned
(`0` is success). -/
structure Txn where
  req : Req
  ret : Int
  deriving DecidableEq, Repr

/-- The kernel SDIO core as seen by the driver. Each primitive takes the state
of the bus and device and returns the new state with its results; the `int`
written through `err_ret` resp. returned is the last component.

* `sdio_writeb s num b addr`
* `sdio_readb s num addr` returns the byte read
* `sdio_memcpy_toio s num cur_blksize addr src count`
* `sdio_memcpy_fromio s num cur_blksize dst addr count` is given the present
  contents of the destination and returns its new contents. -/
structure Host (σ : Type) where
  sdio_claim_host : σ → σ
  sdio_release_host : σ → σ
  sdio_writeb : σ → Nat → Nat → Nat → σ × Int
  sdio_readb : σ → Nat → Nat → σ × Nat × Int
  sdio_memcpy_toio : σ → Nat → Nat → Nat → Buf → Int → σ × Int
  sdio_memcpy_fromio : σ → Nat → Nat → Buf → Nat → Int → σ × Buf × Int

/-- The bus: the state of the SDIO core and device, and the log of the
transactions executed so far. -/
structure Bus (σ : Type) where
  host : σ
  log : List Txn

/-! ## Command encoder -/

/-- `wilc_sdio_cmd52`: one single-byte transaction. Returns the bus, the error
code and the request with its `data` field updated by a read. -/
def wilc_sdio_cmd52 {σ : Type} (H : Host σ) (b : Bus σ) (cmd : sdio_cmd52) :
    Bus σ × Int × sdio_cmd52 :=
  let s := H.sdio_claim_host b.host
  let r : σ × Int × sdio_cmd52 :=
    if cmd.read_write ≠ 0 then
      if cmd.raw ≠ 0 then
        let w := H.sdio_writeb s cmd.function cmd.data cmd.address
        let rd := H.sdio_readb w.1 cmd.function cmd.address
        (rd.1, rd.2.2, { cmd with data := rd.2.1 % 256 })
      else
        let w := H.sdio_writeb s cmd.function cmd.data cmd.address
        (w.1, w.2, cmd)
    else
      let rd := H.sdio_readb s cmd.function cmd.address
      (rd.1, rd.2.2, { cmd with data := rd.2.1 % 256 })
  let s := H.sdio_release_host r.1
  ({ host := s, log := b.log ++ [⟨Req.cmd52 cmd, r.2.1⟩] }, r.2.1, r.2.2)

/-- `wilc_sdio_cmd53`: one block transaction on the caller's buffer `buf`.
Returns the bus, the error code and the buffer (changed by a read). -/
def wilc_sdio_cmd53 {σ : Type} (H : Host σ) (b : Bus σ) (cmd : sdio_cmd53) (buf : Buf) :
    Bus σ × Int × Buf :=
  let s := H.sdio_claim_host b.host
  let size : Int :=
    if cmd.block_mode ≠ 0 then s32 (u32 (cmd.count * cmd.block_size))
    else s32 cmd.count
  let r : σ × Int × Buf :=
    if cmd.read_write ≠ 0 then
      let w := H.sdio_memcpy_toio s cmd.function cmd.block_size cmd.address
        (fun i => buf (cmd.buffer + i)) size
      (w.1, w.2, buf)
    else
      let rd := H.sdio_memcpy_fromio s cmd.function cmd.block_size
        (fun i => buf (cmd.buffer + i)) cmd.address size
      (rd.1, rd.2.2, fun j => if cmd.buffer ≤ j then rd.2.1 (j - cmd.buffer) else buf j)
  let s := H.sdio_release_host r.1
  ({ host := s, log := b.log ++ [⟨Req.cmd53 cmd, r.2.1⟩] }, r.2.1, r.2.2)

/-! ## Address window -/

/-- `wilc_sdio_set_func0_csa_address`: returns `1` on success, `0` on failure. -/
def wilc_sdio_set_func0_csa_address {σ : Type} (H : Host σ) (b : Bus σ) (adr : Nat) :
    Bus σ × Int :=
  let cmd : sdio_cmd52 :=
    { read_write := 1, function := 0, raw := 0, address := 0x10c, data := adr % 256 }
  let r := wilc_sdio_cmd52 H b cmd
  if r.2.1 ≠ 0 then (r.1, 0) else
  let cmd : sdio_cmd52 := { r.2.2 with address := 0x10d, data := (adr >>> 8) % 256 }
  let r := wilc_sdio_cmd52 H r.1 cmd
  if r.2.1 ≠ 0 then (r.1, 0) else
  let cmd : sdio_cmd52 := { r.2.2 with address := 0x10e, data := (adr >>> 16) % 256 }
  let r := wilc_sdio_cmd52 H r.1 cmd
  if r.2.1 ≠ 0 then (r.1, 0) else
  (r.1, 1)

/-! ## Block transfer engine -/

/-- The word alignment that `wilc_sdio_write` and `wilc_sdio_read` apply to
`size` in both branches: `if (size & 0x3) { size += 4; size &= ~0x3; }`. -/
def word_align (size : Nat) : Nat :=
  if size &&& 0x3 ≠ 0 then u32 (size + 4) &&& 0xFFFFFFFC else size

/-- The state of `wilc_sdio_write` / `wilc_sdio_read` after the block-mode
phase: whether it jumped to `fail`, and the local variables `addr`, `buf`
(as an offset) and the caller's buffer contents. -/
structure Phase (σ : Type) where
  bus : Bus σ
  failed : Bool
  addr : Nat
  off : Nat
  buf : Buf

/-- `wilc_sdio_write`. `none` is the division by a zero block size; otherwise
the bus and the return value (`1` success, `0` failure). -/
def wilc_sdio_write {σ : Type} (H : Host σ) (wl : wilc) (b : Bus σ) (addr : Nat) (buf : Buf)
    (size : Nat) : Option (Bus σ × Int) :=
  let block_size := wl.bus_data.block_size
  let size := if addr > 0 then word_align size else word_align size
  let function := if addr > 0 then 0 else 1
  let address := if addr > 0 then 0x10f else 0
  if block_size = 0 then none else
  let nblk : Int := s32 (size / block_size)
  let nleft : Int := s32 (size % block_size)
  let p : Phase σ :=
    if nblk > 0 then
      let cmd : sdio_cmd53 :=
        { read_write := 1, function := function, address := address, block_mode := 1,
          increment := 1, count := (nblk % 512).toNat, buffer := 0,
          block_size := block_size }
      let w := if addr > 0 then wilc_sdio_set_func0_csa_address H b addr else (b, 1)
      if w.2 = 0 then ⟨w.1, true, addr, 0, buf⟩ else
      let r := wilc_sdio_cmd53 H w.1 cmd buf
      if r.2.1 ≠ 0 then ⟨r.1, true, addr, 0, buf⟩ else
      ⟨r.1, false,
        if addr > 0 then u32 (addr + u32 (int_to_u32 nblk * block_size)) else addr,
        u32 (int_to_u32 nblk * block_size), r.2.2⟩
    else ⟨b, false, addr, 0, buf⟩
  if p.failed then some (p.bus, 0) else
  if nleft > 0 then
    let cmd : sdio_cmd53 :=
      { read_write := 1, function := function, address := address, block_mode := 0,
        increment := 1, count := (nleft % 512).toNat, buffer := p.off,
        block_size := block_size }
    let w := if p.addr > 0 then wilc_sdio_set_func0_csa_address H p.bus p.addr else (p.bus, 1)
    if w.2 = 0 then some (w.1, 0) else
    let r := wilc_sdio_cmd53 H w.1 cmd p.buf
    if r.2.1 ≠ 0 then some (r.1, 0) else
    some (r.1, 1)
  else some (p.bus, 1)

/-- `wilc_sdio_read`. `none` is the division by a zero block size; otherwise
the bus, the return value (`1` success, `0` failure) and the caller's buffer. -/
def wilc_sdio_read {σ : Type} (H : Host σ) (wl : wilc) (b : Bus σ) (addr : Nat) (buf : Buf)
    (size : Nat) : Option (Bus σ × Int × Buf) :=
  let block_size := wl.bus_data.block_size
  let size := if addr > 0 then word_align size else word_align size
  let function := if addr > 0 then 0 else 1
  let address := if addr > 0 then 0x10f else 0
  if block_size = 0 then none else
  let nblk : Int := s32 (size / block_size)
  let nleft : Int := s32 (size % block_size)
  let p : Phase σ :=
    if nblk > 0 then
      let cmd : sdio_cmd53 :=
        { read_write := 0, function := function, address := address, block_mode := 1,
          increment := 1, count := (nblk % 512).toNat, buffer := 0,
          block_size := block_size }
      let w := if addr > 0 then wilc_sdio_set_func0_csa_address H b addr else (b, 1)
      if w.2 = 0 then ⟨w.1, true, addr, 0, buf⟩ else
      let r := wilc_sdio_cmd53 H w.1 cmd buf
      if r.2.1 ≠ 0 then ⟨r.1, true, addr, 0, r.2.2⟩ else
      ⟨r.1, false,
        if addr > 0 then u32 (addr + u32 (int_to_u32 nblk * block_size)) else addr,
        u32 (int_to_u32 nblk * block_size), r.2.2⟩
    else ⟨b, false, addr, 0, buf⟩
  if p.failed then some (p.bus, 0, p.buf) else
  if nleft > 0 then
    let cmd : sdio_cmd53 :=
      { read_write := 0, function := function, address := address, block_mode := 0,
        increment := 1, count := (nleft % 512).toNat, buffer := p.off,
        block_size := block_size }
    let w := if p.addr > 0 then wilc_sdio_set_func0_csa_address H p.bus p.addr else (p.bus, 1)
    if w.2 = 0 then some (w.1, 0, p.buf) else
    let r := wilc_sdio_cmd53 H w.1 cmd p.buf
    if r.2.1 ≠ 0 then some (r.1, 0, r.2.2) else
    some (r.1, 1, r.2.2)
  else some (p.bus, 1, p.buf)

/-! ## Interrupt acknowledgement -/

/-- `wilc_sdio_clear_int_ext`: returns `1` on success, `0` on failure. -/
def wilc_sdio_clear_int_ext {σ : Type} (H : Host σ) (wl : wilc) (b : Bus σ) (val : Nat) :
    Bus σ × Int :=
  let reg : Nat := 0
  if wl.chip = wilc_chip_type.WILC_1000 then
    let reg := if wl.bus_data.irq_gpio then val &&& (BIT MAX_NUM_INT - 1) else reg
    let reg := if val &&& SEL_VMM_TBL0 ≠ 0 then reg ||| BIT 5 else reg
    let reg := if val &&& SEL_VMM_TBL1 ≠ 0 then reg ||| BIT 6 else reg
    let reg := if val &&& EN_VMM ≠ 0 then reg ||| BIT 7 else reg
    if reg ≠ 0 then
      let cmd : sdio_cmd52 :=
        { read_write := 1, function := 0, raw := 0, address := 0xf8, data := reg % 256 }
      let r := wilc_sdio_cmd52 H b cmd
      if r.2.1 ≠ 0 then (r.1, 0) else (r.1, 1)
    else (b, 1)
  else
    let g : Bus σ × Bool × Nat :=
      if wl.bus_data.irq_gpio then
        let reg := val &&& (BIT MAX_NUM_INT - 1)
        if reg ≠ 0 then
          let cmd : sdio_cmd52 :=
            { read_write := 1, function := 0, raw := 0, address := 0xfe, data := reg % 256 }
          let r := wilc_sdio_cmd52 H b cmd
          if r.2.1 ≠ 0 then (r.1, true, reg) else (r.1, false, reg)
        else (b, false, reg)
      else (b, false, reg)
    if g.2.1 then (g.1, 0) else
    let reg := g.2.2
    let reg := if val &&& SEL_VMM_TBL0 ≠ 0 then reg ||| BIT 0 else reg
    let reg := if val &&& SEL_VMM_TBL1 ≠ 0 then reg ||| BIT 1 else reg
    let reg := if val &&& EN_VMM ≠ 0 then reg ||| BIT 2 else reg
    if reg ≠ 0 then
      let cmd : sdio_cmd52 :=
        { read_write := 1, function := 0, raw := 0, address := 0xf1, data := reg % 256 }
      let r := wilc_sdio_cmd52 H g.1 cmd
      if r.2.1 ≠ 0 then (r.1, 0) else (r.1, 1)
    else (g.1, 1)

/-! ## Interrupt status -/

def INT_0 : Nat := BIT IRG_FLAGS_OFFSET
def INT_1 : Nat := BIT (IRG_FLAGS_OFFSET + 1)
def INT_2 : Nat := BIT (IRG_FLAGS_OFFSET + 2)
def INT_3 : Nat := BIT (IRG_FLAGS_OFFSET + 3)
def INT_4 : Nat := BIT (IRG_FLAGS_OFFSET + 4)

/-- `wilc_sdio_read_size`: the bus, the return value (always `1`) and the value
stored through `size`. The results of the two `wilc_sdio_cmd52` calls are not
looked at. -/
def wilc_sdio_read_size {σ : Type} (H : Host σ) (b : Bus σ) : Bus σ × Int × Nat :=
  let cmd : sdio_cmd52 :=
    { read_write := 0, function := 0, raw := 0, address := 0xf2, data := 0 }
  let r := wilc_sdio_cmd52 H b cmd
  let tmp := r.2.2.data
  let cmd : sdio_cmd52 := { r.2.2 with address := 0xf3, data := 0 }
  let r := wilc_sdio_cmd52 H r.1 cmd
  let tmp := tmp ||| (r.2.2.data <<< 8)
  (r.1, 1, tmp)

/-- The diagnostic loop of `wilc_sdio_read_int`,
`for (i = nint; i < MAX_NUM_INT; i++) if ((tmp >> (IRG_FLAGS_OFFSET + i)) & 0x1)`:
whether the "Unexpected interrupt" message is logged. The loop changes no
variable that is used afterwards. (A shift count below 0, for `nint < -16`, is
taken as 0.) -/
def unexpected_interrupt (tmp : Nat) (nint : Int) : Bool :=
  (List.range ((MAX_NUM_INT : Int) - nint).toNat).any
    (fun k => (tmp >>> ((IRG_FLAGS_OFFSET : Int) + (nint + (k : Int))).toNat) &&& 0x1 ≠ 0)

/-- `wilc_sdio_read_int`: the bus, the return value (always `1`), the value
stored through `int_status`, and whether the "Unexpected interrupt" message is
logged. `cmd0` is the indeterminate initial contents of the local `cmd`, of
which the status-register branch leaves the field `raw` unassigned. -/
def wilc_sdio_read_int {σ : Type} (H : Host σ) (wl : wilc) (b : Bus σ) (cmd0 : sdio_cmd52) :
    Bus σ × Int × Nat × Bool :=
  if wl.bus_data.irq_gpio then
    let s := wilc_sdio_read_size H b
    let tmp := s.2.2
    let cmd : sdio_cmd52 := { cmd0 with read_write := 0, function := 1, raw := 0, data := 0 }
    let f : Bus σ × Nat :=
      if wl.chip = wilc_chip_type.WILC_1000 then
        let cmd : sdio_cmd52 := { cmd with address := 0xf7 }
        let r := wilc_sdio_cmd52 H s.1 cmd
        (r.1, r.2.2.data &&& 0x1f)
      else
        let cmd : sdio_cmd52 := { cmd with address := 0xfe }
        let r := wilc_sdio_cmd52 H s.1 cmd
        (r.1, r.2.2.data &&& 0x0f)
    let irq_flags := f.2
    let tmp := tmp ||| ((irq_flags >>> 0) <<< IRG_FLAGS_OFFSET)
    (f.1, 1, tmp, false)
  else
    let s := wilc_sdio_read_size H b
    let tmp := s.2.2
    let cmd : sdio_cmd52 :=
      { cmd0 with read_write := 0, function := 1, address := 0x04, data := 0 }
    let r := wilc_sdio_cmd52 H s.1 cmd
    let data := r.2.2.data
    let tmp := if data &&& BIT 0 ≠ 0 then tmp ||| INT_0 else tmp
    let tmp := if data &&& BIT 2 ≠ 0 then tmp ||| INT_1 else tmp
    let tmp := if data &&& BIT 3 ≠ 0 then tmp ||| INT_2 else tmp
    let tmp := if data &&& BIT 4 ≠ 0 then tmp ||| INT_3 else tmp
    let tmp := if data &&& BIT 5 ≠ 0 then tmp ||| INT_4 else tmp
    (r.1, 1, tmp, unexpected_interrupt tmp wl.bus_data.nint)

/-! ## Bus lifecycle -/

/-- `is_wilc1000` of `wilc_wlan.h`. -/
def is_wilc1000 (id : Nat) : Bool := decide ((id &&& 0xfffff000) = 0x100000)

/-- `is_wilc3000` of `wilc_wlan.h`. -/
def is_wilc3000 (id : Nat) : Bool := decide ((id &&& 0xfffff000) = 0x300000)

/-- The parts of the driver that `wilc_sdio_init` uses and that are not in the
repository's sources: the value of the constant `WILC_HIF_SDIO_GPIO_IRQ`
(only compared with `io_type`), and `wilc_get_chipid(wilc, true)`, which is
given the handle and the bus and returns the bus and the 32-bit chip
identifier. -/
structure Ext (σ : Type) where
  WILC_HIF_SDIO_GPIO_IRQ : Nat
  wilc_get_chipid : wilc → Bus σ → Bus σ × Nat

/-- `wilc_sdio_set_func0_block_size`: returns `1` on success, `0` on failure. -/
def wilc_sdio_set_func0_block_size {σ : Type} (H : Host σ) (b : Bus σ) (block_size : Nat) :
    Bus σ × Int :=
  let cmd : sdio_cmd52 :=
    { read_write := 1, function := 0, raw := 0, address := 0x10, data := block_size % 256 }
  let r := wilc_sdio_cmd52 H b cmd
  if r.2.1 ≠ 0 then (r.1, 0) else
  let cmd : sdio_cmd52 := { r.2.2 with address := 0x11, data := (block_size >>> 8) % 256 }
  let r := wilc_sdio_cmd52 H r.1 cmd
  if r.2.1 ≠ 0 then (r.1, 0) else
  (r.1, 1)

/-- `wilc_sdio_set_func1_block_size`: returns `1` on success, `0` on failure. -/
def wilc_sdio_set_func1_block_size {σ : Type} (H : Host σ) (b : Bus σ) (block_size : Nat) :
    Bus σ × Int :=
  let cmd : sdio_cmd52 :=
    { read_write := 1, function := 0, raw := 0, address := 0x110, data := block_size % 256 }
  let r := wilc_sdio_cmd52 H b cmd
  if r.2.1 ≠ 0 then (r.1, 0) else
  let cmd : sdio_cmd52 := { r.2.2 with address := 0x111, data := (block_size >>> 8) % 256 }
  let r := wilc_sdio_cmd52 H r.1 cmd
  if r.2.1 ≠ 0 then (r.1, 0) else
  (r.1, 1)

/-- The state of `wilc_sdio_init` when it leaves its polling loop: the bus,
whether it left through `goto fail` (a failed transaction), and the variables
`loop` and `cmd`. -/
structure IorPoll (σ : Type) where
  bus : Bus σ
  failed : Bool
  loop : Int
  cmd : sdio_cmd52

/-- The polling loop of `wilc_sdio_init`, entered with `loop` (not negative):
`do { cmd.data = 0; ret = wilc_sdio_cmd52(wilc, &cmd); if (ret) goto fail;
if (cmd.data == 0x2) break; } while (loop--);` -/
def ior_poll {σ : Type} (H : Host σ) : Nat → Bus σ → sdio_cmd52 → IorPoll σ
  | 0, b, cmd =>
    let cmd : sdio_cmd52 := { cmd with data := 0 }
    let r := wilc_sdio_cmd52 H b cmd
    if r.2.1 ≠ 0 then ⟨r.1, true, 0, r.2.2⟩ else
    if r.2.2.data = 0x2 then ⟨r.1, false, 0, r.2.2⟩ else
    ⟨r.1, false, -1, r.2.2⟩
  | loop + 1, b, cmd =>
    let cmd : sdio_cmd52 := { cmd with data := 0 }
    let r := wilc_sdio_cmd52 H b cmd
    if r.2.1 ≠ 0 then ⟨r.1, true, ((loop + 1 : Nat) : Int), r.2.2⟩ else
    if r.2.2.data = 0x2 then ⟨r.1, false, ((loop + 1 : Nat) : Int), r.2.2⟩ else
    ior_poll H loop r.1 r.2.2

/-- `wilc_sdio_init`: the bus, the return value (`1` success, `0` failure) and
the handle. -/
def wilc_sdio_init {σ : Type} (E : Ext σ) (H : Host σ) (wl : wilc) (b : Bus σ)
    (resume : Bool) : Bus σ × Int × wilc :=
  let wl : wilc :=
    { wl with bus_data :=
        { wl.bus_data with irq_gpio := decide (wl.io_type = E.WILC_HIF_SDIO_GPIO_IRQ) } }
  let cmd : sdio_cmd52 :=
    { read_write := 1, function := 0, raw := 1, address := 0x100, data := 0x80 }
  let r := wilc_sdio_cmd52 H b cmd
  if r.2.1 ≠ 0 then (r.1, 0, wl) else
  let s := wilc_sdio_set_func0_block_size H r.1 WILC_SDIO_BLOCK_SIZE
  if s.2 = 0 then (s.1, 0, wl) else
  let wl : wilc :=
    { wl with bus_data := { wl.bus_data with block_size := WILC_SDIO_BLOCK_SIZE } }
  let cmd : sdio_cmd52 :=
    { read_write := 1, function := 0, raw := 1, address := 0x2, data := 0x2 }
  let r := wilc_sdio_cmd52 H s.1 cmd
  if r.2.1 ≠ 0 then (r.1, 0, wl) else
  let cmd : sdio_cmd52 := { r.2.2 with read_write := 0, function := 0, raw := 0, address := 0x3 }
  let p := ior_poll H 3 r.1 cmd
  if p.failed then (p.bus, 0, wl) else
  if p.loop ≤ 0 then (p.bus, 0, wl) else
  let s := wilc_sdio_set_func1_block_size H p.bus WILC_SDIO_BLOCK_SIZE
  if s.2 = 0 then (s.1, 0, wl) else
  let cmd : sdio_cmd52 :=
    { read_write := 1, function := 0, raw := 1, address := 0x4, data := 0x3 }
  let r := wilc_sdio_cmd52 H s.1 cmd
  if r.2.1 ≠ 0 then (r.1, 0, wl) else
  if !resume then
    let g := E.wilc_get_chipid wl r.1
    let chipid := g.2
    if is_wilc3000 chipid then
      (g.1, 1, { wl with chip := wilc_chip_type.WILC_3000,
                         bus_data := { wl.bus_data with is_init := true } })
    else if is_wilc1000 chipid then
      (g.1, 1, { wl with chip := wilc_chip_type.WILC_1000,
                         bus_data := { wl.bus_data with is_init := true } })
    else (g.1, 0, wl)
  else
    (r.1, 1, { wl with bus_data := { wl.bus_data with is_init := true } })

/-- `wilc_sdio_is_init`. -/
def wilc_sdio_is_init (wl : wilc) : Bool := wl.bus_data.is_init

/-! ## Register access -/

def WILC_PERIPH_REG_BASE : Nat := 0x1000
def WILC_PIN_MUX_0 : Nat := WILC_PERIPH_REG_BASE + 0x408
def WILC_MISC : Nat := WILC_PERIPH_REG_BASE + 0x428
def WILC_INTR_REG_BASE : Nat := WILC_PERIPH_REG_BASE + 0xa00
def WILC_INTR_ENABLE : Nat := WILC_INTR_REG_BASE
def WILC_INTR2_ENABLE : Nat := WILC_INTR_REG_BASE + 4

/-- The 32-bit word with the four bytes of `v` in reverse order. -/
def swab32 (v : Nat) : Nat :=
  (v % 256) * 2 ^ 24 + (v / 2 ^ 8 % 256) * 2 ^ 16 + (v / 2 ^ 16 % 256) * 2 ^ 8 +
    (v / 2 ^ 24 % 256)

/-- Modelled from the spec: the kernel macros `cpu_to_le32s` and `le32_to_cpus`
(`linux/byteorder/generic.h`, not part of this repository) convert a 32-bit
word in place between the byte order of the CPU and little-endian (the spec
says "byte order on multi-byte register fields is little-endian"): the
identity on a little-endian CPU, a byte swap on a big-endian one. `be` tells
whether the CPU is big-endian. -/
def cpu_to_le32 (be : Bool) (v : Nat) : Nat := if be then swab32 v else v

/-- Modelled from the spec: the kernel macro `le32_to_cpus`
(`linux/byteorder/generic.h`, not part of this repository), the conversion of a
little-endian 32-bit word to the byte order of the CPU; see `cpu_to_le32`. -/
def le32_to_cpu (be : Bool) (v : Nat) : Nat := if be then swab32 v else v

/-- The four bytes of a `u32` object holding `v` as they lie in memory, i.e. as
seen through `(u8 *)&data`, on a CPU of the given byte order. -/
def u32_bytes (be : Bool) (v : Nat) : Buf := fun i =>
  if i = 0 then (if be then v / 2 ^ 24 % 256 else v % 256)
  else if i = 1 then (if be then v / 2 ^ 16 % 256 else v / 2 ^ 8 % 256)
  else if i = 2 then (if be then v / 2 ^ 8 % 256 else v / 2 ^ 16 % 256)
  else if i = 3 then (if be then v % 256 else v / 2 ^ 24 % 256)
  else 0

/-- The value of a `u32` object whose four bytes in memory are `buf 0 .. buf 3`. -/
def u32_of_bytes (be : Bool) (buf : Buf) : Nat :=
  if be then
    (buf 0 % 256) * 2 ^ 24 + (buf 1 % 256) * 2 ^ 16 + (buf 2 % 256) * 2 ^ 8 + buf 3 % 256
  else
    buf 0 % 256 + (buf 1 % 256) * 2 ^ 8 + (buf 2 % 256) * 2 ^ 16 + (buf 3 % 256) * 2 ^ 24

/-- `wilc_sdio_write_reg`: returns `1` on success, `0` on failure. -/
def wilc_sdio_write_reg {σ : Type} (be : Bool) (H : Host σ) (wl : wilc) (b : Bus σ)
    (addr data : Nat) : Bus σ × Int :=
  let data := cpu_to_le32 be data
  if addr ≥ 0xf0 ∧ addr ≤ 0xff then
    let cmd : sdio_cmd52 :=
      { read_write := 1, function := 0, raw := 0, address := addr, data := data % 256 }
    let r := wilc_sdio_cmd52 H b cmd
    if r.2.1 ≠ 0 then (r.1, 0) else (r.1, 1)
  else
    let w := wilc_sdio_set_func0_csa_address H b addr
    if w.2 = 0 then (w.1, 0) else
    let cmd : sdio_cmd53 :=
      { read_write := 1, function := 0, address := 0x10f, block_mode := 0, increment := 1,
        count := 4, buffer := 0, block_size := wl.bus_data.block_size }
    let r := wilc_sdio_cmd53 H w.1 cmd (u32_bytes be data)
    if r.2.1 ≠ 0 then (r.1, 0) else (r.1, 1)

/-- `wilc_sdio_read_reg`: the bus, the return value (`1` success, `0` failure)
and the value of `*data` afterwards. `data0` is the value of `*data` before
the call and `cmd0` the indeterminate initial contents of the local
`struct sdio_cmd52`, of which the field `data` is not assigned before the
request is issued. -/
def wilc_sdio_read_reg {σ : Type} (be : Bool) (H : Host σ) (wl : wilc) (b : Bus σ)
    (addr data0 : Nat) (cmd0 : sdio_cmd52) : Bus σ × Int × Nat :=
  if addr ≥ 0xf0 ∧ addr ≤ 0xff then
    let cmd : sdio_cmd52 :=
      { cmd0 with read_write := 0, function := 0, raw := 0, address := addr }
    let r := wilc_sdio_cmd52 H b cmd
    if r.2.1 ≠ 0 then (r.1, 0, data0) else
    (r.1, 1, le32_to_cpu be r.2.2.data)
  else
    let w := wilc_sdio_set_func0_csa_address H b addr
    if w.2 = 0 then (w.1, 0, data0) else
    let cmd : sdio_cmd53 :=
      { read_write := 0, function := 0, address := 0x10f, block_mode := 0, increment := 1,
        count := 4, buffer := 0, block_size := wl.bus_data.block_size }
    let r := wilc_sdio_cmd53 H w.1 cmd (u32_bytes be data0)
    if r.2.1 ≠ 0 then (r.1, 0, u32_of_bytes be r.2.2) else
    (r.1, 1, le32_to_cpu be (u32_of_bytes be r.2.2))

/-! ## Interrupt line synchronisation -/

/-- The loops of `wilc_sdio_sync_ext`,
`for (i = 0; (i < lim) && (nint > 0); i++, nint--) reg |= BIT(base + i);`
entered with `i`, `nint` and `reg`: the values of `reg` and `nint` when the
loop is left. The first argument bounds the number of iterations;
`lim - i` iterations always suffice. -/
def sync_loop (lim base : Nat) : Nat → Nat → Int → Nat → Nat × Int
  | 0, _, nint, reg => (reg, nint)
  | fuel + 1, i, nint, reg =>
    if i < lim ∧ nint > 0 then
      sync_loop lim base fuel (i + 1) (nint - 1) (u32 (reg ||| BIT (base + i)))
    else (reg, nint)

/-- The state of `wilc_sdio_sync_ext` after its WILC_3000 part: the bus, whether
it returned 0 there, and the variable `reg`. -/
structure SyncMisc (σ : Type) where
  bus : Bus σ
  failed : Bool
  reg : Nat

/-- `wilc_sdio_sync_ext`: the bus, the return value (`1` success, `0` failure)
and the handle. `reg0` is the indeterminate initial value of the local `reg`,
`cmd0` the indeterminate initial contents of the request of
`wilc_sdio_read_reg`. -/
def wilc_sdio_sync_ext {σ : Type} (be : Bool) (H : Host σ) (wl : wilc) (b : Bus σ)
    (nint : Int) (reg0 : Nat) (cmd0 : sdio_cmd52) : Bus σ × Int × wilc :=
  if nint > (MAX_NUM_INT : Int) then (b, 0, wl) else
  let wl : wilc := { wl with bus_data := { wl.bus_data with nint := nint } }
  let m : SyncMisc σ :=
    if wl.chip = wilc_chip_type.WILC_3000 then
      let r := wilc_sdio_read_reg be H wl b WILC_MISC reg0 cmd0
      if r.2.1 = 0 then ⟨r.1, true, r.2.2⟩ else
      let reg := r.2.2 &&& (2 ^ 32 - 1 - BIT 8)
      let w := wilc_sdio_write_reg be H wl r.1 WILC_MISC reg
      if w.2 = 0 then ⟨w.1, true, reg⟩ else ⟨w.1, false, reg⟩
    else ⟨b, false, reg0⟩
  if m.failed then (m.bus, 0, wl) else
  if wl.bus_data.irq_gpio then
    let r := wilc_sdio_read_reg be H wl m.bus WILC_PIN_MUX_0 m.reg cmd0
    if r.2.1 = 0 then (r.1, 0, wl) else
    let reg := u32 (r.2.2 ||| BIT 8)
    let w := wilc_sdio_write_reg be H wl r.1 WILC_PIN_MUX_0 reg
    if w.2 = 0 then (w.1, 0, wl) else
    let r := wilc_sdio_read_reg be H wl w.1 WILC_INTR_ENABLE reg cmd0
    if r.2.1 = 0 then (r.1, 0, wl) else
    let l := sync_loop 5 27 5 0 nint r.2.2
    let w := wilc_sdio_write_reg be H wl r.1 WILC_INTR_ENABLE l.1
    if w.2 = 0 then (w.1, 0, wl) else
    if l.2 ≠ 0 then
      let r := wilc_sdio_read_reg be H wl w.1 WILC_INTR2_ENABLE l.1 cmd0
      if r.2.1 = 0 then (r.1, 0, wl) else
      let l := sync_loop 3 0 3 0 l.2 r.2.2
      let w := wilc_sdio_write_reg be H wl r.1 WILC_INTR2_ENABLE l.1
      if w.2 = 0 then (w.1, 0, wl) else
      (w.1, 1, wl)
    else (w.1, 1, wl)
  else (m.bus, 1, wl)

/-! ## Reset and de-initialisation -/

/-- `wilc_sdio_reset`: the bus and the return value, which is the error code
of the transaction (`0` is success). The handle is not written. -/
def wilc_sdio_reset {σ : Type} (H : Host σ) (b : Bus σ) : Bus σ × Int :=
  let cmd : sdio_cmd52 :=
    { read_write := 1, function := 0, raw := 0, address := 0x6, data := 0x8 }
  let r := wilc_sdio_cmd52 H b cmd
  (r.1, r.2.1)

/-- `wilc_sdio_deinit`: the return value (always `1`) and the handle. -/
def wilc_sdio_deinit (wl : wilc) : Int × wilc :=
  (1, { wl with bus_data := { wl.bus_data with is_init := false } })

/-! ## Interrupt callback -/

/-- The states of the interrupt lock, `enum sdio_host_lock`. -/
inductive sdio_host_lock where
  | WILC_SDIO_HOST_NO_TAKEN
  | WILC_SDIO_HOST_IRQ_TAKEN
  | WILC_SDIO_HOST_DIS_TAKEN
  deriving DecidableEq, Repr

/-- What `wilc_sdio_interrupt` does besides writing the lock, in the order in
which it happens; a dispatch carries the value of the lock at that moment. -/
inductive IrqEvent where
  | release_host
  | handle_isr (lock : sdio_host_lock)
  | claim_host
  | wake_up
  deriving DecidableEq, Repr

/-- The state on which `wilc_sdio_interrupt` operates: the static variable
`sdio_intr_lock`, the state of the SDIO core and device, and a
specification-only record of the events so far. -/
structure IrqState (σ : Type) where
  sdio_intr_lock : sdio_host_lock
  host : σ
  events : List IrqEvent

/-- `wilc_sdio_interrupt` as one sequential step. `wilc_handle_isr` (declared in
`wilc_wlan.h`, defined outside the repository's sources) is a parameter acting
on the state of the core and device; `sdio_intr_lock` is static to
`wilc_sdio.c` and not visible to it. -/
def wilc_sdio_interrupt {σ : Type} (H : Host σ) (wilc_handle_isr : σ → σ) (s : IrqState σ) :
    IrqState σ :=
  if s.sdio_intr_lock = sdio_host_lock.WILC_SDIO_HOST_DIS_TAKEN then s else
  let s : IrqState σ := { s with sdio_intr_lock := sdio_host_lock.WILC_SDIO_HOST_IRQ_TAKEN }
  let s : IrqState σ :=
    { s with host := H.sdio_release_host s.host,
             events := s.events ++ [IrqEvent.release_host] }
  let s : IrqState σ :=
    { s with host := wilc_handle_isr s.host,
             events := s.events ++ [IrqEvent.handle_isr s.sdio_intr_lock] }
  let s : IrqState σ :=
    { s with host := H.sdio_claim_host s.host,
             events := s.events ++ [IrqEvent.claim_host] }
  let s : IrqState σ := { s with sdio_intr_lock := sdio_host_lock.WILC_SDIO_HOST_NO_TAKEN }
  { s with events := s.events ++ [IrqEvent.wake_up] }

/-! ## The interface `wilc_hif_sdio` -/

/-- A call of one of the operations of the function table `wilc_hif_sdio` on a
handle, with its arguments (and the indeterminate initial contents of the
locals it leaves unassigned). -/
inductive HifOp where
  | hif_init (resume : Bool)
  | hif_deinit
  | hif_reset
  | hif_is_init
  | hif_read_reg (addr data0 : Nat) (cmd0 : sdio_cmd52)
  | hif_write_reg (addr data : Nat)
  | hif_block_rx (addr : Nat) (buf : Buf) (size : Nat)
  | hif_block_tx (addr : Nat) (buf : Buf) (size : Nat)
  | hif_read_int (cmd0 : sdio_cmd52)
  | hif_read_size
  | hif_clear_int_ext (val : Nat)
  | hif_sync_ext (nint : Int) (reg0 : Nat) (cmd0 : sdio_cmd52)

/-- The handle and the bus between two interface calls. -/
structure HifState (σ : Type) where
  wl : wilc
  bus : Bus σ

/-- The handle and the bus after one interface call; `none` is the division by
a zero block size in `wilc_sdio_read` / `wilc_sdio_write`. The handle changes
only where the called function assigns to it. -/
def hif_step {σ : Type} (be : Bool) (E : Ext σ) (H : Host σ) (op : HifOp) (s : HifState σ) :
    Option (HifState σ) :=
  match op with
  | HifOp.hif_init resume =>
    some ⟨(wilc_sdio_init E H s.wl s.bus resume).2.2, (wilc_sdio_init E H s.wl s.bus resume).1⟩
  | HifOp.hif_deinit => some ⟨(wilc_sdio_deinit s.wl).2, s.bus⟩
  | HifOp.hif_reset => some ⟨s.wl, (wilc_sdio_reset H s.bus).1⟩
  | HifOp.hif_is_init => some s
  | HifOp.hif_read_reg addr data0 cmd0 =>
    some ⟨s.wl, (wilc_sdio_read_reg be H s.wl s.bus addr data0 cmd0).1⟩
  | HifOp.hif_write_reg addr data =>
    some ⟨s.wl, (wilc_sdio_write_reg be H s.wl s.bus addr data).1⟩
  | HifOp.hif_block_rx addr buf size =>
    (wilc_sdio_read H s.wl s.bus addr buf size).map (fun r => ⟨s.wl, r.1⟩)
  | HifOp.hif_block_tx addr buf size =>
    (wilc_sdio_write H s.wl s.bus addr buf size).map (fun r => ⟨s.wl, r.1⟩)
  | HifOp.hif_read_int cmd0 => some ⟨s.wl, (wilc_sdio_read_int H s.wl s.bus cmd0).1⟩
  | HifOp.hif_read_size => some ⟨s.wl, (wilc_sdio_read_size H s.bus).1⟩
  | HifOp.hif_clear_int_ext val => some ⟨s.wl, (wilc_sdio_clear_int_ext H s.wl s.bus val).1⟩
  | HifOp.hif_sync_ext nint reg0 cmd0 =>
    some ⟨(wilc_sdio_sync_ext be H s.wl s.bus nint reg0 cmd0).2.2,
          (wilc_sdio_sync_ext be H s.wl s.bus nint reg0 cmd0).1⟩

/-- A sequence of interface calls. -/
def hif_run {σ : Type} (be : Bool) (E : Ext σ) (H : Host σ) :
    List HifOp → HifState σ → Option (HifState σ)
  | [], s => some s
  | op :: ops, s =>
    match hif_step be E H op s with
    | none => none
    | some t => hif_run be E H ops t

/-! ## Hosts used to run the code on concrete inputs -/

/-- A host on which every primitive succeeds; reads return zero bytes. -/
def okHost : Host Unit where
  sdio_claim_host := fun s => s
  sdio_release_host := fun s => s
  sdio_writeb := fun s _ _ _ => (s, 0)
  sdio_readb := fun s _ _ => (s, 0, 0)
  sdio_memcpy_toio := fun s _ _ _ _ _ => (s, 0)
  sdio_memcpy_fromio := fun s _ _ dst _ _ => (s, dst, 0)

/-- A handle as `wilc_sdio_init` leaves it: block size 512, initialised. -/
def ready_wilc (chip : wilc_chip_type) (irq_gpio : Bool) : wilc :=
  { chip := chip, io_type := 0,
    bus_data := { irq_gpio := irq_gpio, block_size := WILC_SDIO_BLOCK_SIZE, nint := 0,
                  is_init := true } }

/-- The bus of `okHost` before any transaction. -/
def bus0 : Bus Unit := { host := (), log := [] }

/-- A host whose block transfers fail with `-EIO` while byte writes succeed. -/
def failHost : Host Unit where
  sdio_claim_host := fun s => s
  sdio_release_host := fun s => s
  sdio_writeb := fun s _ _ _ => (s, 0)
  sdio_readb := fun s _ _ => (s, 0, 0)
  sdio_memcpy_toio := fun s _ _ _ _ _ => (s, -5)
  sdio_memcpy_fromio := fun s _ _ dst _ _ => (s, dst, -5)

/-- The state of the mock transport of the round-trip property: the three
window bytes last written to the function-0 registers 0x10c, 0x10d, 0x10e, the
device memory reached through the window, and the address space of
function 1. -/
structure Mock where
  csa0 : Nat
  csa1 : Nat
  csa2 : Nat
  mem : Nat → Nat
  fn1 : Nat → Nat

/-- The address programmed into the window of a mock. -/
def Mock.window_address (s : Mock) : Nat := s.csa0 + 256 * s.csa1 + 65536 * s.csa2

/-- The mock transport of the round-trip property, an instance of the SDIO core:
every transaction succeeds, and the bytes of each block transaction are stored
at the location it targets: the programmed window address for function 0, the
address of the request (always 0) for function 1. -/
def mockHost : Host Mock where
  sdio_claim_host := fun s => s
  sdio_release_host := fun s => s
  sdio_writeb := fun s num byte addr =>
    if num = 0 ∧ addr = 0x10c then ({ s with csa0 := byte }, 0)
    else if num = 0 ∧ addr = 0x10d then ({ s with csa1 := byte }, 0)
    else if num = 0 ∧ addr = 0x10e then ({ s with csa2 := byte }, 0)
    else (s, 0)
  sdio_readb := fun s _ _ => (s, 0, 0)
  sdio_memcpy_toio := fun s num _ addr src count =>
    if num = 0 then
      ({ s with mem := fun a =>
          if s.window_address ≤ a ∧ a < s.window_address + count.toNat
          then src (a - s.window_address) else s.mem a }, 0)
    else
      ({ s with fn1 := fun a =>
          if addr ≤ a ∧ a < addr + count.toNat then src (a - addr) else s.fn1 a }, 0)
  sdio_memcpy_fromio := fun s num _ dst addr count =>
    if num = 0 then
      (s, fun i => if i < count.toNat then s.mem (s.window_address + i) else dst i, 0)
    else
      (s, fun i => if i < count.toNat then s.fn1 (addr + i) else dst i, 0)

/-- A mock with all memory zero. -/
def mock0 : Bus Mock :=
  { host := { csa0 := 0, csa1 := 0, csa2 := 0, mem := fun _ => 0, fn1 := fun _ => 0 }, log := [] }

/-- `wilc_sdio_write` of `data` followed by `wilc_sdio_read` into `out` with the
same address and size: the two return values and the buffer read. -/
def write_then_read {σ : Type} (H : Host σ) (wl : wilc) (b : Bus σ) (addr : Nat)
    (data out : Buf) (size : Nat) : Option (Int × Int × Buf) :=
  match wilc_sdio_write H wl b addr data size with
  | none => none
  | some (c, rw) =>
    match wilc_sdio_read H wl c addr out size with
    | none => none
    | some (_, rr, out') => some (rw, rr, out')

/-- A host with a register file: a byte read of `(function, address)` returns
`regs function address`, and every primitive returns the error code `ret`. -/
def regHost (regs : Nat → Nat → Nat) (ret : Int) : Host Unit where
  sdio_claim_host := fun s => s
  sdio_release_host := fun s => s
  sdio_writeb := fun s _ _ _ => (s, ret)
  sdio_readb := fun s num addr => (s, regs num addr, ret)
  sdio_memcpy_toio := fun s _ _ _ _ _ => (s, ret)
  sdio_memcpy_fromio := fun s _ _ dst _ _ => (s, dst, ret)

/-- The rest of the driver for runs on concrete inputs: `wilc_get_chipid`
issues no transaction and returns `id`. -/
def idExt (id : Nat) : Ext Unit where
  WILC_HIF_SDIO_GPIO_IRQ := 2
  wilc_get_chipid := fun _ b => (b, id)

/-- A freshly allocated (zeroed) handle of the given I/O type. -/
def fresh_wilc (io_type : Nat) : wilc :=
  { chip := wilc_chip_type.WILC_1000, io_type := io_type,
    bus_data := { irq_gpio := false, block_size := 0, nint := 0, is_init := false } }

/-- A host whose byte writes fail with `-EIO` while byte reads succeed and
return `0`. -/
def wfailHost : Host Unit where
  sdio_claim_host := fun s => s
  sdio_release_host := fun s => s
  sdio_writeb := fun s _ _ _ => (s, -5)
  sdio_readb := fun s _ _ => (s, 0, 0)
  sdio_memcpy_toio := fun s _ _ _ _ _ => (s, 0)
  sdio_memcpy_fromio := fun s _ _ dst _ _ => (s, dst, 0)

/-- A host whose byte write to address 0x100 fails with `-EIO` while every
other primitive succeeds; every byte read returns `0x2`. -/
def rawFailHost : Host Unit where
  sdio_claim_host := fun s => s
  sdio_release_host := fun s => s
  sdio_writeb := fun s _ _ addr => if addr = 0x100 then (s, -5) else (s, 0)
  sdio_readb := fun s _ _ => (s, 0x2, 0)
  sdio_memcpy_toio := fun s _ _ _ _ _ => (s, 0)
  sdio_memcpy_fromio := fun s _ _ dst _ _ => (s, dst, 0)

/-- A host on which every primitive succeeds and whose I/O-ready register
(function 0, address 0x3) reads 0 three times and 0x2 from the fourth read on;
the state counts the reads of that register. -/
def lateReadyHost : Host Nat where
  sdio_claim_host := fun s => s
  sdio_release_host := fun s => s
  sdio_writeb := fun s _ _ _ => (s, 0)
  sdio_readb := fun s num addr =>
    if num = 0 ∧ addr = 0x3 then (s + 1, if s < 3 then 0 else 0x2, 0) else (s, 0, 0)
  sdio_memcpy_toio := fun s _ _ _ _ _ => (s, 0)
  sdio_memcpy_fromio := fun s _ _ dst _ _ => (s, dst, 0)

/-- The rest of the driver for runs on `lateReadyHost`: `wilc_get_chipid` issues
no transaction and returns `id`. -/
def lateReadyExt (id : Nat) : Ext Nat where
  WILC_HIF_SDIO_GPIO_IRQ := 2
  wilc_get_chipid := fun _ b => (b, id)

/-- A mock whose device memory holds the little-endian words `pin` at
`WILC_PIN_MUX_0`, `en` at `WILC_INTR_ENABLE` and `en2` at `WILC_INTR2_ENABLE`,
and zero elsewhere. -/
def mock_regs (pin en en2 : Nat) : Bus Mock :=
  { host :=
      { csa0 := 0, csa1 := 0, csa2 := 0,
        mem := fun a =>
          if WILC_PIN_MUX_0 ≤ a ∧ a < WILC_PIN_MUX_0 + 4 then
            u32_bytes false pin (a - WILC_PIN_MUX_0)
          else if WILC_INTR_ENABLE ≤ a ∧ a < WILC_INTR_ENABLE + 4 then
            u32_bytes false en (a - WILC_INTR_ENABLE)
          else if WILC_INTR2_ENABLE ≤ a ∧ a < WILC_INTR2_ENABLE + 4 then
            u32_bytes false en2 (a - WILC_INTR2_ENABLE)
          else 0,
        fn1 := fun _ => 0 },
    log := [] }

/-- The little-endian word at address `a` of the device memory of a mock. -/
def Mock.word (s : Mock) (a : Nat) : Nat :=
  u32_of_bytes false (fun i => s.mem (a + i))

/-! ## Specification vocabulary -/

/-- The three window-byte requests. -/
def window (adr : Nat) : List Req :=
  [Req.cmd52 { read_write := 1, function := 0, raw := 0, address := 0x10c, data := adr % 256 },
   Req.cmd52 { read_write := 1, function := 0, raw := 0, address := 0x10d, data := (adr >>> 8) % 256 },
   Req.cmd52 { read_write := 1, function := 0, raw := 0, address := 0x10e, data := (adr >>> 16) % 256 }]

/-- A run of a plan of requests that stops at the first failing transaction:
`Run plan txns ok` says that `txns` are the transactions of the requests of
`plan` in order, each but possibly the last with error code `0`; `ok` tells
whether the whole plan was executed without a failure. -/
inductive Run : List Req → List Txn → Bool → Prop where
  | done : Run [] [] true
  | ok {r : Req} {p : List Req} {n : List Txn} {o : Bool} :
      Run p n o → Run (r :: p) (⟨r, 0⟩ :: n) o
  | fail {r : Req} {p : List Req} {ret : Int} : ret ≠ 0 → Run (r :: p) [⟨r, ret⟩] false

/-- A call that took the bus from `b` to `c` and returned `r` ran `plan`. -/
def Exec {σ : Type} (b c : Bus σ) (r : Int) (plan : List Req) : Prop :=
  ∃ n o, c.log = b.log ++ n ∧ r = (if o = true then 1 else 0) ∧ Run plan n o

/-- The requests of a transfer, as `wilc_sdio_write` (`rw = 1`) and
`wilc_sdio_read` (`rw = 0`) build them. -/
def xfer_plan (rw addr size block_size : Nat) : List Req :=
  let size := word_align size
  let function := if addr > 0 then 0 else 1
  let address := if addr > 0 then 0x10f else 0
  let nblk : Int := s32 (size / block_size)
  let nleft : Int := s32 (size % block_size)
  let addr2 := if nblk > 0 then
      (if addr > 0 then u32 (addr + u32 (int_to_u32 nblk * block_size)) else addr) else addr
  let off := if nblk > 0 then u32 (int_to_u32 nblk * block_size) else 0
  (if nblk > 0 then
      (if addr > 0 then window addr else []) ++
        [Req.cmd53 { read_write := rw, function := function, address := address,
                     block_mode := 1, increment := 1, count := (nblk % 512).toNat,
                     buffer := 0, block_size := block_size }]
    else []) ++
  (if nleft > 0 then
      (if addr2 > 0 then window addr2 else []) ++
        [Req.cmd53 { read_write := rw, function := function, address := address,
                     block_mode := 0, increment := 1, count := (nleft % 512).toNat,
                     buffer := off, block_size := block_size }]
    else [])

/-- The block count carried by the block-mode requests of a list of
transactions (`0` when there is none). -/
def block_count : List Txn → Nat
  | [] => 0
  | ⟨Req.cmd53 cmd, _⟩ :: n => (if cmd.block_mode ≠ 0 then cmd.count else 0) + block_count n
  | ⟨Req.cmd52 _, _⟩ :: n => block_count n

/-- The byte count carried by the byte-mode requests of a list of transactions
(`0` when there is none). -/
def byte_count : List Txn → Nat
  | [] => 0
  | ⟨Req.cmd53 cmd, _⟩ :: n => (if cmd.block_mode ≠ 0 then 0 else cmd.count) + byte_count n
  | ⟨Req.cmd52 _, _⟩ :: n => byte_count n

/-- The buffer offsets of the byte-mode requests of a list of transactions. -/
def byte_offsets : List Txn → List Nat
  | [] => []
  | ⟨Req.cmd53 cmd, _⟩ :: n =>
      (if cmd.block_mode ≠ 0 then [] else [cmd.buffer]) ++ byte_offsets n
  | ⟨Req.cmd52 _, _⟩ :: n => byte_offsets n

/-- The value that is to be written to register 0xf8 of a WILC_1000 for an
interrupt-clear mask: the acknowledge bits `mask & 0x1F` in GPIO mode, bit 5 iff
`SEL_VMM_TBL0`, bit 6 iff `SEL_VMM_TBL1`, bit 7 iff `EN_VMM` is in the mask. -/
def clear_reg_1000 (irq_gpio : Bool) (val : Nat) : Nat :=
  (if irq_gpio then val &&& 0x1F else 0) |||
  (if val &&& SEL_VMM_TBL0 ≠ 0 then BIT 5 else 0) |||
  (if val &&& SEL_VMM_TBL1 ≠ 0 then BIT 6 else 0) |||
  (if val &&& EN_VMM ≠ 0 then BIT 7 else 0)

/-- The transactions of a windowed transfer with block size 512 as the
specification describes them: with `blocks = roundUp4(size) / 512` and
`remainder = roundUp4(size) mod 512`, a block-mode phase (if `blocks > 0`) of
the window programmed with `address` and one block-mode request, then a
byte-mode phase (if `remainder > 0`) of the window programmed with
`address + blocks * 512` (as a `u32`) and one byte-mode request whose buffer
starts at offset `blocks * 512`; all block requests on function 0 at 0x10f. -/
def windowed_plan (rw addr size : Nat) : List Req :=
  (if 0 < word_align size / 512 then
    window addr ++
      [Req.cmd53 { read_write := rw, function := 0, address := 0x10f, block_mode := 1,
                   increment := 1, count := word_align size / 512 % 512, buffer := 0,
                   block_size := 512 }]
    else []) ++
  (if 0 < word_align size % 512 then
    window (u32 (addr + word_align size / 512 * 512)) ++
      [Req.cmd53 { read_write := rw, function := 0, address := 0x10f, block_mode := 0,
                   increment := 1, count := word_align size % 512,
                   buffer := word_align size / 512 * 512, block_size := 512 }]
    else [])

/-- The requests of steps (1) to (3) of the negotiation of `wilc_sdio_init`:
window enable, function-0 block size (low, high byte of 512), I/O enable. -/
def init_pre : List Req :=
  [Req.cmd52 { read_write := 1, function := 0, raw := 1, address := 0x100, data := 0x80 },
   Req.cmd52 { read_write := 1, function := 0, raw := 0, address := 0x10, data := 0x00 },
   Req.cmd52 { read_write := 1, function := 0, raw := 0, address := 0x11, data := 0x02 },
   Req.cmd52 { read_write := 1, function := 0, raw := 1, address := 0x2, data := 0x2 }]

/-- The request of one poll of the I/O-ready register. -/
def init_poll : Req :=
  Req.cmd52 { read_write := 0, function := 0, raw := 0, address := 0x3, data := 0 }

/-- The requests of steps (5) and (6): function-1 block size (low, high byte of
512), interrupt enable. -/
def init_post : List Req :=
  [Req.cmd52 { read_write := 1, function := 0, raw := 0, address := 0x110, data := 0x00 },
   Req.cmd52 { read_write := 1, function := 0, raw := 0, address := 0x111, data := 0x02 },
   Req.cmd52 { read_write := 1, function := 0, raw := 1, address := 0x4, data := 0x3 }]

/-- The requests of the negotiation steps (1) to (6) with `k` polls of the
I/O-ready register. -/
def init_plan (k : Nat) : List Req := init_pre ++ List.replicate k init_poll ++ init_post

/-- The handle during `wilc_sdio_init` after `irq_gpio` has been set. -/
def init_wl0 {σ : Type} (E : Ext σ) (wl : wilc) : wilc :=
  { wl with bus_data :=
      { wl.bus_data with irq_gpio := decide (wl.io_type = E.WILC_HIF_SDIO_GPIO_IRQ) } }

/-- The handle during `wilc_sdio_init` after the block size has been stored. -/
def init_wl1 {σ : Type} (E : Ext σ) (wl : wilc) : wilc :=
  { wl with bus_data :=
      { wl.bus_data with irq_gpio := decide (wl.io_type = E.WILC_HIF_SDIO_GPIO_IRQ),
                         block_size := WILC_SDIO_BLOCK_SIZE } }

/-- Step (7) of `wilc_sdio_init`, the `if (!resume)` block and what follows it:
read the chip identifier and classify it; on a match set the variant and the
initialised flag and return 1, otherwise return 0 and leave the handle as it
is. -/
def identify {σ : Type} (E : Ext σ) (wl : wilc) (b : Bus σ) : Bus σ × Int × wilc :=
  if is_wilc3000 (E.wilc_get_chipid wl b).2 then
    ((E.wilc_get_chipid wl b).1, 1,
      { wl with chip := wilc_chip_type.WILC_3000,
                bus_data := { wl.bus_data with is_init := true } })
  else if is_wilc1000 (E.wilc_get_chipid wl b).2 then
    ((E.wilc_get_chipid wl b).1, 1,
      { wl with chip := wilc_chip_type.WILC_1000,
                bus_data := { wl.bus_data with is_init := true } })
  else ((E.wilc_get_chipid wl b).1, 0, wl)

/-- The requests of a register access through the window, as
`wilc_sdio_write_reg` (`rw = 1`) and `wilc_sdio_read_reg` (`rw = 0`) build them
for an address outside `0xf0 .. 0xff`: the three window bytes and one
byte-mode block request of 4 bytes on function 0 at 0x10f. -/
def reg_xfer (rw addr block_size : Nat) : List Req :=
  window addr ++
    [Req.cmd53 { read_write := rw, function := 0, address := 0x10f, block_mode := 0,
                 increment := 1, count := 4, buffer := 0, block_size := block_size }]

/-- The word with exactly the bits `27 .. 27 + n - 1` set. -/
def line_bits (n : Nat) : Nat := (2 ^ n - 1) <<< 27

/-- A read-modify-write of the register `addr`: `wilc_sdio_read_reg`, then
`wilc_sdio_write_reg` of `f` applied to the value read. The bus afterwards and
the value written. -/
def rmw {σ : Type} (be : Bool) (H : Host σ) (wl : wilc) (b : Bus σ) (addr data0 : Nat)
    (cmd0 : sdio_cmd52) (f : Nat → Nat) : Bus σ × Nat :=
  ((wilc_sdio_write_reg be H wl (wilc_sdio_read_reg be H wl b addr data0 cmd0).1 addr
      (f (wilc_sdio_read_reg be H wl b addr data0 cmd0).2.2)).1,
    f (wilc_sdio_read_reg be H wl b addr data0 cmd0).2.2)

/-- The requests of `wilc_sdio_sync_ext` for a line count `0 .. 5` in GPIO mode:
for a WILC_3000 a read and a write of `WILC_MISC`, then a read and a write of
`WILC_PIN_MUX_0` and of `WILC_INTR_ENABLE`. -/
def sync_plan (chip : wilc_chip_type) (block_size : Nat) : List Req :=
  (if chip = wilc_chip_type.WILC_3000 then
      reg_xfer 0 WILC_MISC block_size ++ reg_xfer 1 WILC_MISC block_size
    else []) ++
  reg_xfer 0 WILC_PIN_MUX_0 block_size ++ reg_xfer 1 WILC_PIN_MUX_0 block_size ++
  reg_xfer 0 WILC_INTR_ENABLE block_size ++ reg_xfer 1 WILC_INTR_ENABLE block_size

/-- The effect of `wilc_sdio_sync_ext` for a line count `n` of `0 .. 5` in GPIO
mode as the specification describes it, a sequence of read-modify-write
updates: for a WILC_3000 bit 8 of `WILC_MISC` is cleared; bit 8 of
`WILC_PIN_MUX_0` is set; the bits `27 .. 27 + n - 1` of `WILC_INTR_ENABLE` are
set; `n` is stored as the line count and the call succeeds. -/
def sync_ext_rmw {σ : Type} (be : Bool) (H : Host σ) (wl : wilc) (b : Bus σ) (n : Nat)
    (reg0 : Nat) (cmd0 : sdio_cmd52) : Bus σ × Int × wilc :=
  let wl : wilc := { wl with bus_data := { wl.bus_data with nint := (n : Int) } }
  let m : Bus σ × Nat :=
    if wl.chip = wilc_chip_type.WILC_3000 then
      rmw be H wl b WILC_MISC reg0 cmd0 (fun v => v &&& (2 ^ 32 - 1 - BIT 8))
    else (b, reg0)
  let p := rmw be H wl m.1 WILC_PIN_MUX_0 m.2 cmd0 (fun v => v ||| BIT 8)
  let e := rmw be H wl p.1 WILC_INTR_ENABLE p.2 cmd0 (fun v => v ||| line_bits n)
  (e.1, 1, wl)

/-- The invariant of the handle: an initialised handle has the block size 512. -/
def hif_inv (wl : wilc) : Prop :=
  wl.bus_data.is_init = true → wl.bus_data.block_size = WILC_SDIO_BLOCK_SIZE

/-- A request with the direction bit of a block request set to `rw`; a
single-byte request is left as it is. -/
def Req.dir (rw : Nat) : Req → Req
  | Req.cmd52 cmd => Req.cmd52 cmd
  | Req.cmd53 cmd => Req.cmd53 { cmd with read_write := rw }

/-- The four bytes of a 32-bit word in little-endian order, least significant
byte first, as a buffer. -/
def le_bytes (v : Nat) : Buf := fun i => if i < 4 then v / 2 ^ (8 * i) % 256 else 0

/-- The 32-bit word whose bytes in little-endian order are the first four bytes
of a buffer. -/
def le_word (buf : Buf) : Nat :=
  buf 0 % 256 + 2 ^ 8 * (buf 1 % 256) + 2 ^ 16 * (buf 2 % 256) + 2 ^ 24 * (buf 3 % 256)

/-- The block request of a register access through the window. -/
def reg_cmd53 (rw block_size : Nat) : sdio_cmd53 :=
  { read_write := rw, function := 0, address := 0x10f, block_mode := 0, increment := 1,
    count := 4, buffer := 0, block_size := block_size }

/-- The least multiple of 4 that is at or above `size`. -/
def round_up4 (size : Nat) : Nat := 4 * ((size + 3) / 4)

/-- The requests of a transfer whose block/remainder split is taken of the
effective size `eff`: if `eff / block_size > 0`, a block phase (the window
programmed with the address when it is not 0, then one block-mode request
carrying the number of blocks), and if `eff % block_size > 0`, a byte phase
(the window programmed with the advanced address, then one byte-mode request
carrying the remainder, its buffer starting behind the blocks). Numbers are
those of the machine: the two quotients as `int`, the counts in 9 bits. -/
def split_plan (rw addr eff block_size : Nat) : List Req :=
  let function := if addr > 0 then 0 else 1
  let address := if addr > 0 then 0x10f else 0
  let nblk : Int := s32 (eff / block_size)
  let nleft : Int := s32 (eff % block_size)
  let addr2 := if nblk > 0 then
      (if addr > 0 then u32 (addr + u32 (int_to_u32 nblk * block_size)) else addr) else addr
  let off := if nblk > 0 then u32 (int_to_u32 nblk * block_size) else 0
  (if nblk > 0 then
      (if addr > 0 then window addr else []) ++
        [Req.cmd53 { read_write := rw, function := function, address := address,
                     block_mode := 1, increment := 1, count := (nblk % 512).toNat,
                     buffer := 0, block_size := block_size }]
    else []) ++
  (if nleft > 0 then
      (if addr2 > 0 then window addr2 else []) ++
        [Req.cmd53 { read_write := rw, function := function, address := address,
                     block_mode := 0, increment := 1, count := (nleft % 512).toNat,
                     buffer := off, block_size := block_size }]
    else [])

/-! ## Lemmas: runs -/

theorem Run.single (r : Req) (ret : Int) : Run [r] [⟨r, ret⟩] (decide (ret = 0)) := by
  by_cases h : ret = 0
  · subst h; simpa using Run.ok Run.done
  · simpa [h] using @Run.fail r [] ret h

theorem Run.append_true {p1 p2 : List Req} {n1 n2 : List Txn} {o : Bool}
    (h1 : Run p1 n1 true) (h2 : Run p2 n2 o) : Run (p1 ++ p2) (n1 ++ n2) o := by
  generalize ht : true = t at h1
  induction h1 with
  | done => simpa using h2
  | ok _ ih => exact Run.ok (ih ht)
  | fail _ => cases ht

theorem Run.append_false {p1 : List Req} (p2 : List Req) {n1 : List Txn}
    (h1 : Run p1 n1 false) : Run (p1 ++ p2) n1 false := by
  generalize ht : false = t at h1
  induction h1 with
  | done => cases ht
  | ok _ ih => exact Run.ok (ih ht)
  | fail h => exact Run.fail h

theorem Run.reqs_le {p : List Req} {n : List Txn} {o : Bool} (h : Run p n o) :
    n.map Txn.req <+: p := by
  induction h with
  | done => simp
  | ok _ ih => simpa using ih
  | fail _ => simp

theorem Run.true_eq {p : List Req} {n : List Txn} (h : Run p n true) :
    n = p.map (fun r => ⟨r, 0⟩) := by
  generalize ht : true = t at h
  induction h with
  | done => rfl
  | ok _ ih => simp [ih ht]
  | fail _ => cases ht

theorem Run.ok_iff {p : List Req} {n : List Txn} {o : Bool} (h : Run p n o) :
    o = true ↔ ∀ t ∈ n, t.ret = 0 := by
  induction h with
  | done => simp
  | ok _ ih => simpa using ih
  | fail h => simpa using h

theorem Run.init_ok {p : List Req} {n : List Txn} {o : Bool} (h : Run p n o) :
    ∀ t ∈ n.dropLast, t.ret = 0 := by
  induction h with
  | done => simp
  | @ok r p n o h ih =>
    cases n with
    | nil => simp
    | cons a n =>
      intro t ht
      simp only [List.dropLast_cons₂, List.mem_cons] at ht
      rcases ht with rfl | ht
      · rfl
      · exact ih t ht
  | fail _ => simp

theorem cmd52_log {σ : Type} (H : Host σ) (b : Bus σ) (cmd : sdio_cmd52) :
    (wilc_sdio_cmd52 H b cmd).1.log = b.log ++ [⟨Req.cmd52 cmd, (wilc_sdio_cmd52 H b cmd).2.1⟩] := rfl

theorem cmd52_write_cmd {σ : Type} (H : Host σ) (b : Bus σ) (cmd : sdio_cmd52)
    (hw : cmd.read_write ≠ 0) (hr : cmd.raw = 0) : (wilc_sdio_cmd52 H b cmd).2.2 = cmd := by
  simp [wilc_sdio_cmd52, hw, hr]

theorem cmd53_log {σ : Type} (H : Host σ) (b : Bus σ) (cmd : sdio_cmd53) (buf : Buf) :
    (wilc_sdio_cmd53 H b cmd buf).1.log =
      b.log ++ [⟨Req.cmd53 cmd, (wilc_sdio_cmd53 H b cmd buf).2.1⟩] := rfl

theorem set_csa_exec {σ : Type} (H : Host σ) (b : Bus σ) (adr : Nat) :
    Exec b (wilc_sdio_set_func0_csa_address H b adr).1
      (wilc_sdio_set_func0_csa_address H b adr).2 (window adr) := by
  unfold wilc_sdio_set_func0_csa_address
  simp only [cmd52_write_cmd, ne_eq, one_ne_zero, not_false_eq_true]
  split_ifs with h1 h2 h3
  · refine ⟨_, true, ?_, rfl, Run.ok (Run.ok (Run.ok Run.done))⟩
    simp only [cmd52_log, List.append_assoc, List.singleton_append]
    simp [h1, h2, h3]
  · refine ⟨_, false, ?_, rfl, Run.ok (Run.ok (Run.fail h3))⟩
    simp only [cmd52_log, List.append_assoc, List.singleton_append]
    simp [h1, h2]
  · refine ⟨_, false, ?_, rfl, Run.ok (Run.fail h2)⟩
    simp only [cmd52_log, List.append_assoc, List.singleton_append]
    simp [h1]
  · exact ⟨_, false, cmd52_log _ _ _, rfl, Run.fail h1⟩

theorem Exec.refl {σ : Type} (b : Bus σ) : Exec b b 1 [] :=
  ⟨[], true, by simp, rfl, Run.done⟩

theorem Exec.seq {σ : Type} {b c d : Bus σ} {r : Int} {p1 p2 : List Req}
    (h1 : Exec b c 1 p1) (h2 : Exec c d r p2) : Exec b d r (p1 ++ p2) := by
  obtain ⟨n1, o1, hl1, hr1, hrun1⟩ := h1
  obtain ⟨n2, o2, hl2, hr2, hrun2⟩ := h2
  cases o1 with
  | false => simp at hr1
  | true => exact ⟨n1 ++ n2, o2, by rw [hl2, hl1, List.append_assoc], hr2, hrun1.append_true hrun2⟩

theorem Exec.seq_fail {σ : Type} {b c : Bus σ} {p1 : List Req} (p2 : List Req)
    (h1 : Exec b c 0 p1) : Exec b c 0 (p1 ++ p2) := by
  obtain ⟨n1, o1, hl1, hr1, hrun1⟩ := h1
  cases o1 with
  | true => simp at hr1
  | false => exact ⟨n1, false, hl1, rfl, hrun1.append_false p2⟩

theorem Exec.zero_or_one {σ : Type} {b c : Bus σ} {r : Int} {p : List Req}
    (h : Exec b c r p) : r = 0 ∨ r = 1 := by
  obtain ⟨n, o, -, hr, -⟩ := h
  cases o <;> simp [hr]

theorem cmd53_exec {σ : Type} (H : Host σ) (b : Bus σ) (cmd : sdio_cmd53) (buf : Buf) :
    Exec b (wilc_sdio_cmd53 H b cmd buf).1
      (if (wilc_sdio_cmd53 H b cmd buf).2.1 ≠ 0 then 0 else 1) [Req.cmd53 cmd] := by
  refine ⟨_, decide ((wilc_sdio_cmd53 H b cmd buf).2.1 = 0), cmd53_log H b cmd buf, ?_,
    Run.single _ _⟩
  by_cases h : (wilc_sdio_cmd53 H b cmd buf).2.1 = 0 <;> simp [h]

theorem cmd52_exec {σ : Type} (H : Host σ) (b : Bus σ) (cmd : sdio_cmd52) :
    Exec b (wilc_sdio_cmd52 H b cmd).1
      (if (wilc_sdio_cmd52 H b cmd).2.1 ≠ 0 then 0 else 1) [Req.cmd52 cmd] := by
  refine ⟨_, decide ((wilc_sdio_cmd52 H b cmd).2.1 = 0), cmd52_log H b cmd, ?_,
    Run.single _ _⟩
  by_cases h : (wilc_sdio_cmd52 H b cmd).2.1 = 0 <;> simp [h]

/-- The optional window programming in front of a phase. -/
theorem opt_window_exec {σ : Type} (H : Host σ) (b : Bus σ) (addr : Nat) :
    Exec b (if addr > 0 then wilc_sdio_set_func0_csa_address H b addr else (b, 1)).1
      (if addr > 0 then wilc_sdio_set_func0_csa_address H b addr else (b, 1)).2
      (if addr > 0 then window addr else []) := by
  split_ifs
  · exact set_csa_exec H b addr
  · exact Exec.refl b

theorem Exec.of_eq {σ : Type} {b c : Bus σ} {r r' : Int} {p : List Req}
    (h : Exec b c r p) (e : r = r') : Exec b c r' p := e ▸ h

theorem write_exec {σ : Type} (H : Host σ) (wl : wilc) (b : Bus σ) (addr : Nat) (buf : Buf)
    (size : Nat) (hbs : wl.bus_data.block_size ≠ 0) :
    ∃ c r, wilc_sdio_write H wl b addr buf size = some (c, r) ∧
      Exec b c r (xfer_plan 1 addr size wl.bus_data.block_size) := by
  unfold wilc_sdio_write xfer_plan
  simp only [hbs, if_false, ite_self]
  by_cases hn : s32 (word_align size / wl.bus_data.block_size) > 0
  · simp only [hn, if_true]
    have hw := opt_window_exec H b addr
    generalize (if addr > 0 then wilc_sdio_set_func0_csa_address H b addr else (b, 1)) = w at hw ⊢
    by_cases hw0 : w.2 = 0
    · simp only [hw0, if_true]
      exact ⟨_, _, rfl, Exec.seq_fail _ (Exec.seq_fail _ (hw.of_eq hw0))⟩
    · simp only [hw0, if_false]
      have hw1 : w.2 = 1 := hw.zero_or_one.resolve_left hw0
      have hc := cmd53_exec H w.1
        { read_write := 1, function := if addr > 0 then 0 else 1, block_mode := 1, increment := 1,
          address := if addr > 0 then 271 else 0,
          count := (s32 (word_align size / wl.bus_data.block_size) % 512).toNat,
          buffer := 0, block_size := wl.bus_data.block_size } buf
      generalize wilc_sdio_cmd53 H w.1 _ buf = r at hc ⊢
      by_cases hr : r.2.1 = 0
      · simp only [hr, ne_eq, not_true_eq_false, if_false, Bool.false_eq_true] at hc ⊢
        have h1 : Exec b r.1 1 _ := (hw.of_eq hw1).seq hc
        by_cases hl : s32 (word_align size % wl.bus_data.block_size) > 0
        · simp only [hl, if_true]
          have hw2 := opt_window_exec H r.1 (if addr > 0 then
            u32 (addr + u32 (int_to_u32 (s32 (word_align size / wl.bus_data.block_size)) *
              wl.bus_data.block_size)) else addr)
          generalize (if (if addr > 0 then
            u32 (addr + u32 (int_to_u32 (s32 (word_align size / wl.bus_data.block_size)) *
              wl.bus_data.block_size)) else addr) > 0 then _ else (r.1, (1 : Int))) = w2 at hw2 ⊢
          by_cases hw20 : w2.2 = 0
          · simp only [hw20, if_true]
            exact ⟨_, _, rfl, h1.seq (Exec.seq_fail _ (hw2.of_eq hw20))⟩
          · simp only [hw20, if_false]
            have hw21 : w2.2 = 1 := hw2.zero_or_one.resolve_left hw20
            have hc2 := cmd53_exec H w2.1
              { read_write := 1, function := if addr > 0 then 0 else 1, block_mode := 0,
                increment := 1, address := if addr > 0 then 271 else 0,
                count := (s32 (word_align size % wl.bus_data.block_size) % 512).toNat,
                buffer := u32 (int_to_u32 (s32 (word_align size / wl.bus_data.block_size)) *
                  wl.bus_data.block_size),
                block_size := wl.bus_data.block_size } r.2.2
            generalize wilc_sdio_cmd53 H w2.1 _ r.2.2 = r2 at hc2 ⊢
            by_cases hr2 : r2.2.1 = 0
            · simp only [hr2, ne_eq, not_true_eq_false, if_false] at hc2 ⊢
              exact ⟨_, _, rfl, h1.seq ((hw2.of_eq hw21).seq hc2)⟩
            · simp only [hr2, ne_eq, not_false_eq_true, if_true] at hc2 ⊢
              exact ⟨_, _, rfl, h1.seq ((hw2.of_eq hw21).seq hc2)⟩
        · simp only [hl, if_false]
          exact ⟨_, _, rfl, by simpa using h1⟩
      · simp only [hr, ne_eq, not_false_eq_true, if_true] at hc ⊢
        exact ⟨_, _, rfl, Exec.seq_fail _ ((hw.of_eq hw1).seq hc)⟩
  · simp only [hn, if_false, Bool.false_eq_true, List.nil_append]
    by_cases hl : s32 (word_align size % wl.bus_data.block_size) > 0
    · simp only [hl, if_true]
      have hw2 := opt_window_exec H b addr
      generalize (if addr > 0 then wilc_sdio_set_func0_csa_address H b addr else (b, 1)) = w2 at hw2 ⊢
      by_cases hw20 : w2.2 = 0
      · simp only [hw20, if_true]
        exact ⟨_, _, rfl, Exec.seq_fail _ (hw2.of_eq hw20)⟩
      · simp only [hw20, if_false]
        have hw21 : w2.2 = 1 := hw2.zero_or_one.resolve_left hw20
        have hc2 := cmd53_exec H w2.1
          { read_write := 1, function := if addr > 0 then 0 else 1, block_mode := 0,
            increment := 1, address := if addr > 0 then 271 else 0,
            count := (s32 (word_align size % wl.bus_data.block_size) % 512).toNat,
            buffer := 0, block_size := wl.bus_data.block_size } buf
        generalize wilc_sdio_cmd53 H w2.1 _ buf = r2 at hc2 ⊢
        by_cases hr2 : r2.2.1 = 0
        · simp only [hr2, ne_eq, not_true_eq_false, if_false] at hc2 ⊢
          exact ⟨_, _, rfl, (hw2.of_eq hw21).seq hc2⟩
        · simp only [hr2, ne_eq, not_false_eq_true, if_true] at hc2 ⊢
          exact ⟨_, _, rfl, (hw2.of_eq hw21).seq hc2⟩
    · simp only [hl, if_false]
      exact ⟨_, _, rfl, Exec.refl b⟩

theorem read_exec {σ : Type} (H : Host σ) (wl : wilc) (b : Bus σ) (addr : Nat) (buf : Buf)
    (size : Nat) (hbs : wl.bus_data.block_size ≠ 0) :
    ∃ c r out, wilc_sdio_read H wl b addr buf size = some (c, r, out) ∧
      Exec b c r (xfer_plan 0 addr size wl.bus_data.block_size) := by
  unfold wilc_sdio_read xfer_plan
  simp only [hbs, if_false, ite_self]
  by_cases hn : s32 (word_align size / wl.bus_data.block_size) > 0
  · simp only [hn, if_true]
    have hw := opt_window_exec H b addr
    generalize (if addr > 0 then wilc_sdio_set_func0_csa_address H b addr else (b, 1)) = w at hw ⊢
    by_cases hw0 : w.2 = 0
    · simp only [hw0, if_true]
      exact ⟨_, _, _, rfl, Exec.seq_fail _ (Exec.seq_fail _ (hw.of_eq hw0))⟩
    · simp only [hw0, if_false]
      have hw1 : w.2 = 1 := hw.zero_or_one.resolve_left hw0
      have hc := cmd53_exec H w.1
        { read_write := 0, function := if addr > 0 then 0 else 1, block_mode := 1, increment := 1,
          address := if addr > 0 then 271 else 0,
          count := (s32 (word_align size / wl.bus_data.block_size) % 512).toNat,
          buffer := 0, block_size := wl.bus_data.block_size } buf
      generalize wilc_sdio_cmd53 H w.1 _ buf = r at hc ⊢
      by_cases hr : r.2.1 = 0
      · simp only [hr, ne_eq, not_true_eq_false, if_false, Bool.false_eq_true] at hc ⊢
        have h1 : Exec b r.1 1 _ := (hw.of_eq hw1).seq hc
        by_cases hl : s32 (word_align size % wl.bus_data.block_size) > 0
        · simp only [hl, if_true]
          have hw2 := opt_window_exec H r.1 (if addr > 0 then
            u32 (addr + u32 (int_to_u32 (s32 (word_align size / wl.bus_data.block_size)) *
              wl.bus_data.block_size)) else addr)
          generalize (if (if addr > 0 then
            u32 (addr + u32 (int_to_u32 (s32 (word_align size / wl.bus_data.block_size)) *
              wl.bus_data.block_size)) else addr) > 0 then _ else (r.1, (1 : Int))) = w2 at hw2 ⊢
          by_cases hw20 : w2.2 = 0
          · simp only [hw20, if_true]
            exact ⟨_, _, _, rfl, h1.seq (Exec.seq_fail _ (hw2.of_eq hw20))⟩
          · simp only [hw20, if_false]
            have hw21 : w2.2 = 1 := hw2.zero_or_one.resolve_left hw20
            have hc2 := cmd53_exec H w2.1
              { read_write := 0, function := if addr > 0 then 0 else 1, block_mode := 0,
                increment := 1, address := if addr > 0 then 271 else 0,
                count := (s32 (word_align size % wl.bus_data.block_size) % 512).toNat,
                buffer := u32 (int_to_u32 (s32 (word_align size / wl.bus_data.block_size)) *
                  wl.bus_data.block_size),
                block_size := wl.bus_data.block_size } r.2.2
            generalize wilc_sdio_cmd53 H w2.1 _ r.2.2 = r2 at hc2 ⊢
            by_cases hr2 : r2.2.1 = 0
            · simp only [hr2, ne_eq, not_true_eq_false, if_false] at hc2 ⊢
              exact ⟨_, _, _, rfl, h1.seq ((hw2.of_eq hw21).seq hc2)⟩
            · simp only [hr2, ne_eq, not_false_eq_true, if_true] at hc2 ⊢
              exact ⟨_, _, _, rfl, h1.seq ((hw2.of_eq hw21).seq hc2)⟩
        · simp only [hl, if_false]
          exact ⟨_, _, _, rfl, by simpa using h1⟩
      · simp only [hr, ne_eq, not_false_eq_true, if_true] at hc ⊢
        exact ⟨_, _, _, rfl, Exec.seq_fail _ ((hw.of_eq hw1).seq hc)⟩
  · simp only [hn, if_false, Bool.false_eq_true, List.nil_append]
    by_cases hl : s32 (word_align size % wl.bus_data.block_size) > 0
    · simp only [hl, if_true]
      have hw2 := opt_window_exec H b addr
      generalize (if addr > 0 then wilc_sdio_set_func0_csa_address H b addr else (b, 1)) = w2 at hw2 ⊢
      by_cases hw20 : w2.2 = 0
      · simp only [hw20, if_true]
        exact ⟨_, _, _, rfl, Exec.seq_fail _ (hw2.of_eq hw20)⟩
      · simp only [hw20, if_false]
        have hw21 : w2.2 = 1 := hw2.zero_or_one.resolve_left hw20
        have hc2 := cmd53_exec H w2.1
          { read_write := 0, function := if addr > 0 then 0 else 1, block_mode := 0,
            increment := 1, address := if addr > 0 then 271 else 0,
            count := (s32 (word_align size % wl.bus_data.block_size) % 512).toNat,
            buffer := 0, block_size := wl.bus_data.block_size } buf
        generalize wilc_sdio_cmd53 H w2.1 _ buf = r2 at hc2 ⊢
        by_cases hr2 : r2.2.1 = 0
        · simp only [hr2, ne_eq, not_true_eq_false, if_false] at hc2 ⊢
          exact ⟨_, _, _, rfl, (hw2.of_eq hw21).seq hc2⟩
        · simp only [hr2, ne_eq, not_false_eq_true, if_true] at hc2 ⊢
          exact ⟨_, _, _, rfl, (hw2.of_eq hw21).seq hc2⟩
    · simp only [hl, if_false]
      exact ⟨_, _, _, rfl, Exec.refl b⟩

/-! ## Arithmetic lemmas -/

theorem and_fffffffc (x : Nat) : x &&& 0xFFFFFFFC = 4 * ((x / 4) % 2 ^ 30) := by
  have h1 : (x &&& 0xFFFFFFFC) / 2 / 2 = (x / 2 / 2) &&& (2 ^ 30 - 1) := by
    rw [Nat.and_div_two, Nat.and_div_two]
    norm_num
  have h2 : (x &&& 0xFFFFFFFC) % 4 = 0 := by
    have := Nat.and_pow_two_sub_one_eq_mod (x &&& 0xFFFFFFFC) 2
    rw [Nat.and_assoc] at this
    have e : (0xFFFFFFFC : Nat) &&& (2 ^ 2 - 1) = 0 := by decide
    rw [e, Nat.and_zero] at this
    simpa using this.symm
  rw [Nat.and_pow_two_sub_one_eq_mod] at h1
  omega

theorem and_3 (x : Nat) : x &&& 0x3 = x % 4 := by
  simpa using Nat.and_pow_two_sub_one_eq_mod x 2

theorem word_align_eq (size : Nat) :
    word_align size =
      if size % 4 ≠ 0 then 4 * ((((size + 4) % 2 ^ 32) / 4) % 2 ^ 30) else size := by
  unfold word_align u32
  rw [and_3, and_fffffffc]

theorem word_align_of_le {size : Nat} (h : size ≤ 0xFFFFFFFC) :
    word_align size = 4 * ((size + 3) / 4) := by
  rw [word_align_eq]
  split_ifs <;> omega

theorem word_align_lt {size : Nat} (h : size < 2 ^ 32) : word_align size < 2 ^ 32 := by
  rw [word_align_eq]
  split_ifs <;> omega

theorem word_align_mod (size : Nat) : word_align size % 4 = 0 := by
  rw [word_align_eq]
  split_ifs <;> omega

theorem word_align_idem (size : Nat) : word_align (word_align size) = word_align size := by
  have h := word_align_mod size
  generalize word_align size = m at h
  rw [word_align_eq]; simp [h]

theorem s32_of_lt {n : Nat} (h : n < 2 ^ 31) : s32 n = (n : Int) := by
  unfold s32
  have : n % 2 ^ 32 = n := Nat.mod_eq_of_lt (by omega)
  rw [this, if_pos h]

theorem int_to_u32_natCast {n : Nat} (h : n < 2 ^ 32) : int_to_u32 (n : Int) = n := by
  unfold int_to_u32
  omega

theorem u32_of_lt {n : Nat} (h : n < 2 ^ 32) : u32 n = n := Nat.mod_eq_of_lt h

theorem window_value (a : Nat) :
    a % 256 + 256 * ((a >>> 8) % 256) + 65536 * ((a >>> 16) % 256) = a % 2 ^ 24 := by
  rw [Nat.shiftRight_eq_div_pow, Nat.shiftRight_eq_div_pow]
  omega

/-! ## Address window -/

/-- C4: for every 24-bit address `A`, on a host whose byte writes succeed,
`wilc_sdio_set_func0_csa_address` reports success (returns 1) and issues
exactly three non-raw single-byte writes on function 0, in this order:
register 0x10c with `A & 0xff`, register 0x10d with `(A >> 8) & 0xff`, register
0x10e with `(A >> 16) & 0xff`; the three bytes recombine to `A`. -/
theorem set_func0_csa_address_writes_window {σ : Type} (H : Host σ) (b : Bus σ) (A : Nat)
    (hA : A < 2 ^ 24) (hok : ∀ s num byte addr, (H.sdio_writeb s num byte addr).2 = 0) :
    (wilc_sdio_set_func0_csa_address H b A).2 = 1 ∧
    (wilc_sdio_set_func0_csa_address H b A).1.log = b.log ++
      [⟨Req.cmd52 { read_write := 1, function := 0, raw := 0, address := 0x10c,
                    data := A &&& 0xff }, 0⟩,
       ⟨Req.cmd52 { read_write := 1, function := 0, raw := 0, address := 0x10d,
                    data := (A >>> 8) &&& 0xff }, 0⟩,
       ⟨Req.cmd52 { read_write := 1, function := 0, raw := 0, address := 0x10e,
                    data := (A >>> 16) &&& 0xff }, 0⟩] ∧
    (A &&& 0xff) + 256 * ((A >>> 8) &&& 0xff) + 65536 * ((A >>> 16) &&& 0xff) = A := by
  have e : ∀ x : Nat, x &&& 0xff = x % 256 := fun x => by
    simpa using Nat.and_pow_two_sub_one_eq_mod x 8
  refine ⟨?_, ?_, ?_⟩
  · simp [wilc_sdio_set_func0_csa_address, wilc_sdio_cmd52, hok]
  · simp [wilc_sdio_set_func0_csa_address, wilc_sdio_cmd52, hok, e]
  · rw [e, e, e, window_value]; omega

theorem set_func0_csa_address_writes_window_witness :
    (wilc_sdio_set_func0_csa_address okHost bus0 0x30000).2 = 1 ∧
    (wilc_sdio_set_func0_csa_address okHost bus0 0x30000).1.log = bus0.log ++
      [⟨Req.cmd52 { read_write := 1, function := 0, raw := 0, address := 0x10c,
                    data := 0x30000 &&& 0xff }, 0⟩,
       ⟨Req.cmd52 { read_write := 1, function := 0, raw := 0, address := 0x10d,
                    data := (0x30000 >>> 8) &&& 0xff }, 0⟩,
       ⟨Req.cmd52 { read_write := 1, function := 0, raw := 0, address := 0x10e,
                    data := (0x30000 >>> 16) &&& 0xff }, 0⟩] ∧
    (0x30000 &&& 0xff) + 256 * ((0x30000 >>> 8) &&& 0xff) + 65536 * ((0x30000 >>> 16) &&& 0xff)
      = 0x30000 :=
  set_func0_csa_address_writes_window okHost bus0 0x30000 (by decide) (fun _ _ _ _ => rfl)

/-! ## Interrupt acknowledgement -/

theorem ack_bits_lt (val : Nat) : val &&& (BIT MAX_NUM_INT - 1) < 2 ^ 5 :=
  Nat.and_lt_two_pow _ (by decide)

theorem ack_bits_eq (val : Nat) : val &&& (BIT MAX_NUM_INT - 1) = val &&& 0x1F := rfl

theorem clear_reg_1000_lt (g : Bool) (val : Nat) : clear_reg_1000 g val < 2 ^ 8 := by
  unfold clear_reg_1000
  have h : val &&& 0x1F < 2 ^ 8 := Nat.and_lt_two_pow _ (by decide)
  refine Nat.or_lt_two_pow (Nat.or_lt_two_pow (Nat.or_lt_two_pow ?_ ?_) ?_) ?_
  · split_ifs
    · exact h
    · decide
  all_goals (split_ifs <;> decide)

/-- C9: on a WILC_1000, `wilc_sdio_clear_int_ext` computes the register value
`(mask & 0x1F if GPIO mode else 0) | (bit 5 iff SEL_VMM_TBL0) | (bit 6 iff
SEL_VMM_TBL1) | (bit 7 iff EN_VMM)`. If it is zero the call changes nothing
(no transaction) and returns 1; otherwise it issues exactly one transaction, a
non-raw single-byte write of that value on function 0 to register 0xf8, and
returns 1 iff that write succeeded (0 otherwise). -/
theorem clear_int_ext_wilc1000 {σ : Type} (H : Host σ) (wl : wilc) (b : Bus σ) (val : Nat)
    (hchip : wl.chip = wilc_chip_type.WILC_1000) :
    (clear_reg_1000 wl.bus_data.irq_gpio val = 0 →
      wilc_sdio_clear_int_ext H wl b val = (b, 1)) ∧
    (clear_reg_1000 wl.bus_data.irq_gpio val ≠ 0 →
      ∃ ret : Int,
        (wilc_sdio_clear_int_ext H wl b val).1.log = b.log ++
          [⟨Req.cmd52 { read_write := 1, function := 0, raw := 0, address := 0xf8,
                        data := clear_reg_1000 wl.bus_data.irq_gpio val }, ret⟩] ∧
        ((wilc_sdio_clear_int_ext H wl b val).2 = 1 ↔ ret = 0) ∧
        ((wilc_sdio_clear_int_ext H wl b val).2 = 0 ↔ ret ≠ 0)) := by
  have hreg : (if val &&& EN_VMM ≠ 0 then
      (if val &&& SEL_VMM_TBL1 ≠ 0 then
        (if val &&& SEL_VMM_TBL0 ≠ 0 then
          (if wl.bus_data.irq_gpio = true then val &&& (BIT MAX_NUM_INT - 1) else 0) ||| BIT 5
          else (if wl.bus_data.irq_gpio = true then val &&& (BIT MAX_NUM_INT - 1) else 0))
          ||| BIT 6
        else (if val &&& SEL_VMM_TBL0 ≠ 0 then
          (if wl.bus_data.irq_gpio = true then val &&& (BIT MAX_NUM_INT - 1) else 0) ||| BIT 5
          else (if wl.bus_data.irq_gpio = true then val &&& (BIT MAX_NUM_INT - 1) else 0)))
        ||| BIT 7
      else (if val &&& SEL_VMM_TBL1 ≠ 0 then
        (if val &&& SEL_VMM_TBL0 ≠ 0 then
          (if wl.bus_data.irq_gpio = true then val &&& (BIT MAX_NUM_INT - 1) else 0) ||| BIT 5
          else (if wl.bus_data.irq_gpio = true then val &&& (BIT MAX_NUM_INT - 1) else 0))
          ||| BIT 6
        else (if val &&& SEL_VMM_TBL0 ≠ 0 then
          (if wl.bus_data.irq_gpio = true then val &&& (BIT MAX_NUM_INT - 1) else 0) ||| BIT 5
          else (if wl.bus_data.irq_gpio = true then val &&& (BIT MAX_NUM_INT - 1) else 0))))
      = clear_reg_1000 wl.bus_data.irq_gpio val := by
    unfold clear_reg_1000
    rw [ack_bits_eq]
    split_ifs <;> simp
  have hmod : clear_reg_1000 wl.bus_data.irq_gpio val % 256 =
      clear_reg_1000 wl.bus_data.irq_gpio val :=
    Nat.mod_eq_of_lt (clear_reg_1000_lt wl.bus_data.irq_gpio val)
  unfold wilc_sdio_clear_int_ext
  simp only [hchip, if_true, hreg]
  constructor
  · intro h0
    simp [h0]
  · intro h0
    simp only [h0, ne_eq, not_false_eq_true, if_true, hmod]
    have hc := cmd52_log H b
      { read_write := 1, function := 0, raw := 0, address := 0xf8,
        data := clear_reg_1000 wl.bus_data.irq_gpio val }
    generalize wilc_sdio_cmd52 H b _ = r at hc ⊢
    refine ⟨r.2.1, ?_, ?_, ?_⟩
    · split_ifs <;> exact hc
    · split_ifs with h <;> simp [h]
    · split_ifs with h <;> simp [h]

theorem clear_int_ext_wilc1000_witness :
    (clear_reg_1000 (ready_wilc wilc_chip_type.WILC_1000 true).bus_data.irq_gpio 0x1ff = 0 →
      wilc_sdio_clear_int_ext okHost (ready_wilc wilc_chip_type.WILC_1000 true) bus0 0x1ff
        = (bus0, 1)) ∧
    (clear_reg_1000 (ready_wilc wilc_chip_type.WILC_1000 true).bus_data.irq_gpio 0x1ff ≠ 0 →
      ∃ ret : Int,
        (wilc_sdio_clear_int_ext okHost (ready_wilc wilc_chip_type.WILC_1000 true) bus0
            0x1ff).1.log = bus0.log ++
          [⟨Req.cmd52 { read_write := 1, function := 0, raw := 0, address := 0xf8,
                        data := clear_reg_1000
                          (ready_wilc wilc_chip_type.WILC_1000 true).bus_data.irq_gpio 0x1ff },
            ret⟩] ∧
        ((wilc_sdio_clear_int_ext okHost (ready_wilc wilc_chip_type.WILC_1000 true) bus0
            0x1ff).2 = 1 ↔ ret = 0) ∧
        ((wilc_sdio_clear_int_ext okHost (ready_wilc wilc_chip_type.WILC_1000 true) bus0
            0x1ff).2 = 0 ↔ ret ≠ 0)) :=
  clear_int_ext_wilc1000 okHost (ready_wilc wilc_chip_type.WILC_1000 true) bus0 0x1ff rfl

/-- C10: for each chip variant and each IRQ routing mode,
`wilc_sdio_clear_int_ext` with mask 0 leaves the bus untouched (zero
transactions) and returns 1; the same holds for every mask whose VMM bits 6, 7
and 8 are clear and, in GPIO mode, whose acknowledge bits 0-4 are clear. -/
theorem clear_int_ext_noop {σ : Type} (H : Host σ) (wl : wilc) (b : Bus σ) :
    wilc_sdio_clear_int_ext H wl b 0 = (b, 1) ∧
    ∀ val : Nat, (wl.bus_data.irq_gpio = true → val &&& 0x1F = 0) →
      val &&& SEL_VMM_TBL0 = 0 → val &&& SEL_VMM_TBL1 = 0 → val &&& EN_VMM = 0 →
      wilc_sdio_clear_int_ext H wl b val = (b, 1) := by
  have key : ∀ val : Nat, (wl.bus_data.irq_gpio = true → val &&& 0x1F = 0) →
      val &&& SEL_VMM_TBL0 = 0 → val &&& SEL_VMM_TBL1 = 0 → val &&& EN_VMM = 0 →
      wilc_sdio_clear_int_ext H wl b val = (b, 1) := by
    intro val hack h6 h7 h8
    unfold wilc_sdio_clear_int_ext
    simp only [h6, h7, h8, ack_bits_eq, ne_eq,
      not_true_eq_false, if_false]
    by_cases hg : wl.bus_data.irq_gpio = true
    · simp [hg, hack hg]
    · simp [hg]
  exact ⟨key 0 (fun _ => by simp) (by simp) (by simp) (by simp), key⟩

theorem clear_int_ext_noop_witness :
    wilc_sdio_clear_int_ext okHost (ready_wilc wilc_chip_type.WILC_3000 true) bus0 0x20
      = (bus0, 1) :=
  (clear_int_ext_noop okHost (ready_wilc wilc_chip_type.WILC_3000 true) bus0).2 0x20
    (fun _ => by decide) (by decide) (by decide) (by decide)

/-- C8 (the code at the failing input): on a WILC_3000 in GPIO mode the mask
`CLR_INT0 = 0x1`, which requests no VMM bit, makes `wilc_sdio_clear_int_ext`
write 1 to register 0xfe and then, `reg` not being cleared in between, write
the same acknowledge bit to register 0xf1. -/
theorem clear_int_ext_wilc3000_gpio_ack_leaks :
    0x1 &&& SEL_VMM_TBL0 = 0 ∧ 0x1 &&& SEL_VMM_TBL1 = 0 ∧ 0x1 &&& EN_VMM = 0 ∧
    wilc_sdio_clear_int_ext okHost (ready_wilc wilc_chip_type.WILC_3000 true) bus0 0x1 =
      ({ host := (),
         log := [⟨Req.cmd52 { read_write := 1, function := 0, raw := 0, address := 0xfe,
                              data := 1 }, 0⟩,
                 ⟨Req.cmd52 { read_write := 1, function := 0, raw := 0, address := 0xf1,
                              data := 1 }, 0⟩] }, 1) := by
  refine ⟨by decide, by decide, by decide, ?_⟩
  rfl

/-! ## Block transfer engine -/

/-- The plan of a transfer with block size 512, in plain arithmetic. -/
theorem xfer_plan_512 (rw addr size : Nat) (hs : size < 2 ^ 32) :
    xfer_plan rw addr size 512 =
      (if 0 < word_align size / 512 then
        (if addr > 0 then window addr else []) ++
          [Req.cmd53 { read_write := rw, function := if addr > 0 then 0 else 1,
                       address := if addr > 0 then 0x10f else 0, block_mode := 1,
                       increment := 1, count := word_align size / 512 % 512, buffer := 0,
                       block_size := 512 }]
        else []) ++
      (if 0 < word_align size % 512 then
        (if (if 0 < word_align size / 512 ∧ addr > 0
              then u32 (addr + word_align size / 512 * 512) else addr) > 0
          then window (if 0 < word_align size / 512 ∧ addr > 0
              then u32 (addr + word_align size / 512 * 512) else addr)
          else []) ++
          [Req.cmd53 { read_write := rw, function := if addr > 0 then 0 else 1,
                       address := if addr > 0 then 0x10f else 0, block_mode := 0,
                       increment := 1, count := word_align size % 512,
                       buffer := word_align size / 512 * 512, block_size := 512 }]
        else []) := by
  have hlt := word_align_lt hs
  unfold xfer_plan
  simp only []
  generalize word_align size = es at hlt ⊢
  have h1 : s32 (es / 512) = ((es / 512 : Nat) : Int) := s32_of_lt (by omega)
  have h2 : s32 (es % 512) = ((es % 512 : Nat) : Int) := s32_of_lt (by omega)
  have h3 : int_to_u32 ((es / 512 : Nat) : Int) = es / 512 := int_to_u32_natCast (by omega)
  have h4 : u32 (es / 512 * 512) = es / 512 * 512 := u32_of_lt (by omega)
  have h5 : (((es / 512 : Nat) : Int) % 512).toNat = es / 512 % 512 := by omega
  have h6 : (((es % 512 : Nat) : Int) % 512).toNat = es % 512 := by omega
  simp only [h1, h2, h3, h4, h5, h6, gt_iff_lt, Nat.cast_pos]
  by_cases hn : 0 < es / 512
  · by_cases ha : 0 < addr <;> simp [hn, ha]
  · have : es / 512 * 512 = 0 := by omega
    simp [hn, this]

theorem Exec.outcome {σ : Type} {b c : Bus σ} {r : Int} {p : List Req} (h : Exec b c r p) :
    ∃ n, c.log = b.log ++ n ∧ (r = 0 ∨ r = 1) ∧ (r = 1 ↔ ∀ t ∈ n, t.ret = 0) ∧
      (∀ t ∈ n.dropLast, t.ret = 0) ∧ n.map Txn.req <+: p ∧
      (r = 1 → n = p.map (fun q => ⟨q, 0⟩)) := by
  obtain ⟨n, o, hl, hr, hrun⟩ := h
  refine ⟨n, hl, ?_, ?_, hrun.init_ok, hrun.reqs_le, ?_⟩
  · cases o <;> simp [hr]
  · rw [← hrun.ok_iff, hr]; cases o <;> simp
  · intro h1
    cases o with
    | true => exact hrun.true_eq
    | false => simp [hr] at h1

/-- C6: `wilc_sdio_write` and `wilc_sdio_read` (on a handle with a non-zero
block size) return 0 or 1; they return 1 exactly when every transaction they
issued (window byte writes, block-mode and byte-mode transfers) succeeded, and
every transaction but the last one issued succeeded, so that a failing
transaction is the last one issued and makes the call return 0. -/
theorem write_read_abort_on_failure {σ : Type} (H : Host σ) (wl : wilc) (b : Bus σ)
    (addr : Nat) (buf : Buf) (size : Nat) (hbs : wl.bus_data.block_size ≠ 0) :
    (∃ c r n, wilc_sdio_write H wl b addr buf size = some (c, r) ∧ c.log = b.log ++ n ∧
      (r = 0 ∨ r = 1) ∧ (r = 1 ↔ ∀ t ∈ n, t.ret = 0) ∧ (∀ t ∈ n.dropLast, t.ret = 0)) ∧
    (∃ c r out n, wilc_sdio_read H wl b addr buf size = some (c, r, out) ∧ c.log = b.log ++ n ∧
      (r = 0 ∨ r = 1) ∧ (r = 1 ↔ ∀ t ∈ n, t.ret = 0) ∧ (∀ t ∈ n.dropLast, t.ret = 0)) := by
  constructor
  · obtain ⟨c, r, hw, hx⟩ := write_exec H wl b addr buf size hbs
    obtain ⟨n, h1, h2, h3, h4, -, -⟩ := hx.outcome
    exact ⟨c, r, n, hw, h1, h2, h3, h4⟩
  · obtain ⟨c, r, out, hw, hx⟩ := read_exec H wl b addr buf size hbs
    obtain ⟨n, h1, h2, h3, h4, -, -⟩ := hx.outcome
    exact ⟨c, r, out, n, hw, h1, h2, h3, h4⟩

theorem write_read_abort_on_failure_witness :
    (∃ c r n, wilc_sdio_write failHost (ready_wilc wilc_chip_type.WILC_1000 false) bus0 0x30000
        (fun _ => 0) 2000 = some (c, r) ∧ c.log = bus0.log ++ n ∧
      (r = 0 ∨ r = 1) ∧ (r = 1 ↔ ∀ t ∈ n, t.ret = 0) ∧ (∀ t ∈ n.dropLast, t.ret = 0)) ∧
    (∃ c r out n, wilc_sdio_read failHost (ready_wilc wilc_chip_type.WILC_1000 false) bus0
        0x30000 (fun _ => 0) 2000 = some (c, r, out) ∧ c.log = bus0.log ++ n ∧
      (r = 0 ∨ r = 1) ∧ (r = 1 ↔ ∀ t ∈ n, t.ret = 0) ∧ (∀ t ∈ n.dropLast, t.ret = 0)) :=
  write_read_abort_on_failure failHost (ready_wilc wilc_chip_type.WILC_1000 false) bus0 0x30000
    (fun _ => 0) 2000 (by decide)

theorem xfer_plan_direct (rw size bs : Nat) :
    ∀ q ∈ xfer_plan rw 0 size bs,
      ∃ cmd, q = Req.cmd53 cmd ∧ cmd.function = 1 ∧ cmd.address = 0 := by
  intro q hq
  unfold xfer_plan at hq
  simp only [gt_iff_lt, lt_self_iff_false, if_false, ite_self, List.nil_append,
    List.mem_append] at hq
  rcases hq with hq | hq <;> split_ifs at hq <;>
    first
    | (simp only [List.mem_singleton] at hq; exact ⟨_, hq, rfl, rfl⟩)
    | simp at hq

theorem Exec.all_of_plan {σ : Type} {b c : Bus σ} {r : Int} {p : List Req} (h : Exec b c r p)
    (P : Req → Prop) (hp : ∀ q ∈ p, P q) : ∃ n, c.log = b.log ++ n ∧ ∀ t ∈ n, P t.req := by
  obtain ⟨n, hl, -, -, -, hpre, -⟩ := h.outcome
  refine ⟨n, hl, fun t ht => hp _ ?_⟩
  exact hpre.subset (List.mem_map_of_mem _ ht)

/-- C5: for address 0 and every size, every transaction `wilc_sdio_write` /
`wilc_sdio_read` issue is a block transaction on function 1 at address 0 (so no
single-byte window write is ever issued); with block size 512 and size 2000 the
call runs the plan "one block-mode request of 3 blocks of 512 bytes from buffer
offset 0, then one byte-mode request of 464 bytes from buffer offset 1536",
stopping at the first failure and returning 1 iff both succeeded. -/
theorem direct_transfer_function1 {σ : Type} (H : Host σ) (wl : wilc) (b : Bus σ) (buf : Buf) :
    (∀ size c r, wilc_sdio_write H wl b 0 buf size = some (c, r) →
      ∃ n, c.log = b.log ++ n ∧
        ∀ t ∈ n, ∃ cmd, t.req = Req.cmd53 cmd ∧ cmd.function = 1 ∧ cmd.address = 0) ∧
    (∀ size c r out, wilc_sdio_read H wl b 0 buf size = some (c, r, out) →
      ∃ n, c.log = b.log ++ n ∧
        ∀ t ∈ n, ∃ cmd, t.req = Req.cmd53 cmd ∧ cmd.function = 1 ∧ cmd.address = 0) ∧
    (wl.bus_data.block_size = 512 →
      (∃ c r, wilc_sdio_write H wl b 0 buf 2000 = some (c, r) ∧
        Exec b c r
          [Req.cmd53 { read_write := 1, function := 1, address := 0, block_mode := 1,
                       increment := 1, count := 3, buffer := 0, block_size := 512 },
           Req.cmd53 { read_write := 1, function := 1, address := 0, block_mode := 0,
                       increment := 1, count := 464, buffer := 1536, block_size := 512 }]) ∧
      (∃ c r out, wilc_sdio_read H wl b 0 buf 2000 = some (c, r, out) ∧
        Exec b c r
          [Req.cmd53 { read_write := 0, function := 1, address := 0, block_mode := 1,
                       increment := 1, count := 3, buffer := 0, block_size := 512 },
           Req.cmd53 { read_write := 0, function := 1, address := 0, block_mode := 0,
                       increment := 1, count := 464, buffer := 1536, block_size := 512 }])) := by
  refine ⟨?_, ?_, ?_⟩
  · intro size c r h
    by_cases hbs : wl.bus_data.block_size = 0
    · simp [wilc_sdio_write, hbs] at h
    · obtain ⟨c', r', hw, hx⟩ := write_exec H wl b 0 buf size hbs
      rw [hw] at h
      obtain ⟨rfl, rfl⟩ := Prod.mk.inj (Option.some.inj h)
      exact hx.all_of_plan _ (xfer_plan_direct 1 size _)
  · intro size c r out h
    by_cases hbs : wl.bus_data.block_size = 0
    · simp [wilc_sdio_read, hbs] at h
    · obtain ⟨c', r', out', hw, hx⟩ := read_exec H wl b 0 buf size hbs
      rw [hw] at h
      obtain ⟨rfl, h2⟩ := Prod.mk.inj (Option.some.inj h)
      obtain ⟨rfl, rfl⟩ := Prod.mk.inj h2
      exact hx.all_of_plan _ (xfer_plan_direct 0 size _)
  · intro hbs
    have e : ∀ rw, xfer_plan rw 0 2000 512 =
        [Req.cmd53 { read_write := rw, function := 1, address := 0, block_mode := 1,
                     increment := 1, count := 3, buffer := 0, block_size := 512 },
         Req.cmd53 { read_write := rw, function := 1, address := 0, block_mode := 0,
                     increment := 1, count := 464, buffer := 1536, block_size := 512 }] := by
      intro rw
      rw [xfer_plan_512 rw 0 2000 (by norm_num)]
      have : word_align 2000 = 2000 := by decide
      simp [this]
    constructor
    · obtain ⟨c, r, hw, hx⟩ := write_exec H wl b 0 buf 2000 (by rw [hbs]; decide)
      rw [hbs, e] at hx
      exact ⟨c, r, hw, hx⟩
    · obtain ⟨c, r, out, hw, hx⟩ := read_exec H wl b 0 buf 2000 (by rw [hbs]; decide)
      rw [hbs, e] at hx
      exact ⟨c, r, out, hw, hx⟩

theorem direct_transfer_function1_witness :
    (∃ c r, wilc_sdio_write okHost (ready_wilc wilc_chip_type.WILC_1000 false) bus0 0
        (fun _ => 0) 2000 = some (c, r) ∧
      Exec bus0 c r
        [Req.cmd53 { read_write := 1, function := 1, address := 0, block_mode := 1,
                     increment := 1, count := 3, buffer := 0, block_size := 512 },
         Req.cmd53 { read_write := 1, function := 1, address := 0, block_mode := 0,
                     increment := 1, count := 464, buffer := 1536, block_size := 512 }]) :=
  ((direct_transfer_function1 okHost (ready_wilc wilc_chip_type.WILC_1000 false) bus0
    (fun _ => 0)).2.2 rfl).1

/-- C7 (counterexample): for the 32-bit size 0xFFFFFFFD the addition `size += 4`
wraps, the effective size is 0 and not a value at or above the size, and both
the windowed and the direct branch of `wilc_sdio_write` issue no transaction. -/
theorem word_align_wraps :
    word_align 0xFFFFFFFD = 0 ∧ ¬ (0xFFFFFFFD ≤ word_align 0xFFFFFFFD) ∧
    wilc_sdio_write okHost (ready_wilc wilc_chip_type.WILC_1000 false) bus0 0x30000
      (fun _ => 0) 0xFFFFFFFD = some (bus0, 1) ∧
    wilc_sdio_write okHost (ready_wilc wilc_chip_type.WILC_1000 false) bus0 0
      (fun _ => 0) 0xFFFFFFFD = some (bus0, 1) := by
  refine ⟨by decide, by decide, rfl, rfl⟩

/-- C1 (counterexample): with block size 512 and size 262144 = 512 * 512 the
block count 512 does not fit the 9-bit `count` field: the only request issued
is a block-mode request carrying count 0, so the counts carried by the requests
add up to 0 bytes and not to the aligned size 262144. -/
theorem block_count_field_truncates :
    wilc_sdio_write okHost (ready_wilc wilc_chip_type.WILC_1000 false) bus0 0 (fun _ => 0)
        262144 =
      some ({ host := (),
              log := [⟨Req.cmd53 { read_write := 1, function := 1, address := 0,
                                   block_mode := 1, increment := 1, count := 0, buffer := 0,
                                   block_size := 512 }, 0⟩] }, 1) ∧
    word_align 262144 = 262144 ∧
    block_count [⟨Req.cmd53 { read_write := 1, function := 1, address := 0,
                              block_mode := 1, increment := 1, count := 0, buffer := 0,
                              block_size := 512 }, 0⟩] * 512 +
      byte_count [⟨Req.cmd53 { read_write := 1, function := 1, address := 0,
                               block_mode := 1, increment := 1, count := 0, buffer := 0,
                               block_size := 512 }, 0⟩] ≠ word_align 262144 := by
  refine ⟨rfl, by decide, by decide⟩

theorem counts_of_plan (rw fn ad es : Nat) (w1 w2 : List Req)
    (h1 : ∀ q ∈ w1, ∃ c, q = Req.cmd52 c) (h2 : ∀ q ∈ w2, ∃ c, q = Req.cmd52 c) :
    ∀ n : List Txn, n = List.map (fun q => (⟨q, 0⟩ : Txn))
      ((if 0 < es / 512 then
        w1 ++ [Req.cmd53 { read_write := rw, function := fn, address := ad, block_mode := 1,
                           increment := 1, count := es / 512 % 512, buffer := 0,
                           block_size := 512 }]
        else []) ++
      (if 0 < es % 512 then
        w2 ++ [Req.cmd53 { read_write := rw, function := fn, address := ad, block_mode := 0,
                           increment := 1, count := es % 512,
                           buffer := es / 512 * 512, block_size := 512 }]
        else [])) →
    block_count n = es / 512 % 512 ∧ byte_count n = es % 512 ∧
      ∀ o ∈ byte_offsets n, o = es / 512 * 512 := by
  have b52 : ∀ (w : List Req), (∀ q ∈ w, ∃ c, q = Req.cmd52 c) → ∀ rest : List Txn,
      block_count (List.map (fun q => (⟨q, 0⟩ : Txn)) w ++ rest) = block_count rest ∧
      byte_count (List.map (fun q => (⟨q, 0⟩ : Txn)) w ++ rest) = byte_count rest ∧
      byte_offsets (List.map (fun q => (⟨q, 0⟩ : Txn)) w ++ rest) = byte_offsets rest := by
    intro w
    induction w with
    | nil => intro _ rest; simp
    | cons a w ih =>
      intro hw rest
      obtain ⟨c, rfl⟩ := hw a (List.mem_cons_self _ _)
      have := ih (fun q hq => hw q (List.mem_cons_of_mem _ hq)) rest
      simpa [block_count, byte_count, byte_offsets] using this
  intro n hn
  subst hn
  by_cases hb : 0 < es / 512 <;> by_cases hl : 0 < es % 512 <;>
    simp only [hb, hl, if_true, if_false, List.map_append, List.append_assoc, List.map_nil,
      List.append_nil, List.nil_append, List.map_cons] <;>
    simp [b52 w1 h1, b52 w2 h2, block_count, byte_count, byte_offsets] <;> omega

theorem window_cmd52 (a : Nat) : ∀ q ∈ window a, ∃ c, q = Req.cmd52 c := by
  intro q hq
  simp only [window, List.mem_cons, List.mem_singleton, List.not_mem_nil, or_false] at hq
  rcases hq with rfl | rfl | rfl <;> exact ⟨_, rfl⟩

theorem opt_window_cmd52 (p : Prop) [Decidable p] (a : Nat) :
    ∀ q ∈ (if p then window a else []), ∃ c, q = Req.cmd52 c := by
  intro q hq
  split_ifs at hq
  · exact window_cmd52 a q hq
  · simp at hq

theorem counts_of_exec {σ : Type} {b c : Bus σ} {addr size : Nat} (rw : Nat)
    (hsz : size ≤ 262140) (hx : Exec b c 1 (xfer_plan rw addr size 512)) :
    ∃ n, c.log = b.log ++ n ∧ block_count n * 512 + byte_count n = word_align size ∧
      (∀ o ∈ byte_offsets n, o = block_count n * 512) ∧
      block_count n = word_align size / 512 ∧ byte_count n = word_align size % 512 := by
  obtain ⟨n, hl, -, -, -, -, hn⟩ := hx.outcome
  have hn := hn rfl
  rw [xfer_plan_512 rw addr size (by omega)] at hn
  obtain ⟨h1, h2, h3⟩ := counts_of_plan rw _ _ (word_align size) _ _
    (opt_window_cmd52 _ _) (opt_window_cmd52 _ _) n hn
  have e := word_align_of_le (show size ≤ 0xFFFFFFFC by omega)
  have hlt : word_align size / 512 % 512 = word_align size / 512 := by omega
  rw [hlt] at h1
  refine ⟨n, hl, by rw [h1, h2]; omega, ?_, h1, h2⟩
  intro o ho
  rw [h1]
  exact h3 o ho

/-- C1 (amended): with block size 512, for every size whose aligned value is
below 512 * 512 = 262144 (`size ≤ 262140`, so that the block count fits the
9-bit `count` field), `wilc_sdio_write` and `wilc_sdio_read` return a result,
and whenever they return success the counts carried by the requests issued
satisfy `blocks * 512 + remainder = roundUp4(size)` with
`blocks = roundUp4(size) / 512` and `remainder = roundUp4(size) mod 512`, and
the byte-mode request's buffer starts at offset `blocks * 512`. -/
theorem transfer_covers_aligned_size {σ : Type} (H : Host σ) (wl : wilc) (b : Bus σ)
    (addr : Nat) (buf : Buf) (size : Nat) (hbs : wl.bus_data.block_size = 512)
    (hsz : size ≤ 262140) :
    (∃ c r, wilc_sdio_write H wl b addr buf size = some (c, r)) ∧
    (∃ c r out, wilc_sdio_read H wl b addr buf size = some (c, r, out)) ∧
    (∀ c, wilc_sdio_write H wl b addr buf size = some (c, 1) →
      ∃ n, c.log = b.log ++ n ∧ block_count n * 512 + byte_count n = word_align size ∧
        (∀ o ∈ byte_offsets n, o = block_count n * 512) ∧
        block_count n = word_align size / 512 ∧ byte_count n = word_align size % 512) ∧
    (∀ c out, wilc_sdio_read H wl b addr buf size = some (c, 1, out) →
      ∃ n, c.log = b.log ++ n ∧ block_count n * 512 + byte_count n = word_align size ∧
        (∀ o ∈ byte_offsets n, o = block_count n * 512) ∧
        block_count n = word_align size / 512 ∧ byte_count n = word_align size % 512) := by
  have hbs0 : wl.bus_data.block_size ≠ 0 := by rw [hbs]; decide
  obtain ⟨c1, r1, hw, hx1⟩ := write_exec H wl b addr buf size hbs0
  obtain ⟨c2, r2, out2, hr, hx2⟩ := read_exec H wl b addr buf size hbs0
  rw [hbs] at hx1 hx2
  refine ⟨⟨c1, r1, hw⟩, ⟨c2, r2, out2, hr⟩, ?_, ?_⟩
  · intro c h
    rw [hw] at h
    obtain ⟨rfl, rfl⟩ := Prod.mk.inj (Option.some.inj h)
    exact counts_of_exec 1 hsz hx1
  · intro c out h
    rw [hr] at h
    obtain ⟨rfl, h2⟩ := Prod.mk.inj (Option.some.inj h)
    obtain ⟨rfl, rfl⟩ := Prod.mk.inj h2
    exact counts_of_exec 0 hsz hx2

theorem transfer_covers_aligned_size_witness :
    ∃ n, (⟨(), [⟨Req.cmd53 { read_write := 1, function := 1, address := 0, block_mode := 1,
                             increment := 1, count := 3, buffer := 0, block_size := 512 }, 0⟩,
                ⟨Req.cmd53 { read_write := 1, function := 1, address := 0, block_mode := 0,
                             increment := 1, count := 464, buffer := 1536,
                             block_size := 512 }, 0⟩]⟩ : Bus Unit).log = bus0.log ++ n ∧
      block_count n * 512 + byte_count n = word_align 2000 ∧
      (∀ o ∈ byte_offsets n, o = block_count n * 512) ∧
      block_count n = word_align 2000 / 512 ∧ byte_count n = word_align 2000 % 512 :=
  (transfer_covers_aligned_size okHost (ready_wilc wilc_chip_type.WILC_1000 false) bus0 0
    (fun _ => 0) 2000 rfl (by decide)).2.2.1 _ rfl

theorem xfer_plan_windowed (rw addr size : Nat) (ha0 : 0 < addr) (ha : addr < 2 ^ 32)
    (hs : size < 2 ^ 32) (hw : u32 (addr + word_align size / 512 * 512) ≠ 0) :
    xfer_plan rw addr size 512 = windowed_plan rw addr size := by
  rw [xfer_plan_512 rw addr size hs]
  unfold windowed_plan
  have hw' : 0 < u32 (addr + word_align size / 512 * 512) := Nat.pos_of_ne_zero hw
  by_cases hn : 0 < word_align size / 512
  · simp [hn, ha0, hw']
  · have h0 : word_align size / 512 = 0 := by omega
    simp [h0, ha0, u32_of_lt ha]

/-- C3 (counterexample): with block size 512, address 0xFFFFFE00 and size 516
the address advanced by the 512 bytes of the block-mode phase wraps to 0 in 32
bits, the second `addr > 0` test fails, and the byte-mode transaction is issued
directly after the block-mode transaction, with no window programmed before it;
the specification has the window programmed with `address + 1 * 512` in
between. -/
theorem window_skipped_when_address_wraps :
    wilc_sdio_write okHost (ready_wilc wilc_chip_type.WILC_1000 false) bus0 0xFFFFFE00
        (fun _ => 0) 516 =
      some ({ host := (),
              log := [⟨Req.cmd52 { read_write := 1, function := 0, raw := 0, address := 0x10c,
                                   data := 0x00 }, 0⟩,
                      ⟨Req.cmd52 { read_write := 1, function := 0, raw := 0, address := 0x10d,
                                   data := 0xfe }, 0⟩,
                      ⟨Req.cmd52 { read_write := 1, function := 0, raw := 0, address := 0x10e,
                                   data := 0xff }, 0⟩,
                      ⟨Req.cmd53 { read_write := 1, function := 0, address := 0x10f,
                                   block_mode := 1, increment := 1, count := 1, buffer := 0,
                                   block_size := 512 }, 0⟩,
                      ⟨Req.cmd53 { read_write := 1, function := 0, address := 0x10f,
                                   block_mode := 0, increment := 1, count := 4, buffer := 512,
                                   block_size := 512 }, 0⟩] }, 1) ∧
    (window 0xFFFFFE00 ++
      [Req.cmd53 { read_write := 1, function := 0, address := 0x10f,
                   block_mode := 1, increment := 1, count := 1, buffer := 0,
                   block_size := 512 },
       Req.cmd53 { read_write := 1, function := 0, address := 0x10f,
                   block_mode := 0, increment := 1, count := 4, buffer := 512,
                   block_size := 512 }]) ≠
      window 0xFFFFFE00 ++
        [Req.cmd53 { read_write := 1, function := 0, address := 0x10f,
                     block_mode := 1, increment := 1, count := 1, buffer := 0,
                     block_size := 512 }] ++
        window (0xFFFFFE00 + 1 * 512) ++
        [Req.cmd53 { read_write := 1, function := 0, address := 0x10f,
                     block_mode := 0, increment := 1, count := 4, buffer := 512,
                     block_size := 512 }] := by
  refine ⟨rfl, by decide⟩

/-- C3 (amended): with block size 512, for every 32-bit address > 0 and size
for which the advanced address `address + blocks * 512` is not 0 modulo 2^32
(`blocks = roundUp4(size) / 512`), `wilc_sdio_write` and `wilc_sdio_read` run
`windowed_plan`: every block request is on function 0 at 0x10f and directly
follows the three window-byte writes, which program `address` before the first
phase and `address + blocks * 512` before a byte-mode phase that follows a
block-mode phase; the run stops at the first failing transaction and the call
returns 1 iff the whole plan succeeded. For address 0x30000 and size 10 the plan
is the window for 0x30000 followed by one byte-mode request of 12 bytes. -/
theorem windowed_transfer_programs_window {σ : Type} (H : Host σ) (wl : wilc) (b : Bus σ)
    (addr : Nat) (buf : Buf) (size : Nat) (hbs : wl.bus_data.block_size = 512)
    (ha0 : 0 < addr) (ha : addr < 2 ^ 32) (hs : size < 2 ^ 32)
    (hw : u32 (addr + word_align size / 512 * 512) ≠ 0) :
    (∃ c r, wilc_sdio_write H wl b addr buf size = some (c, r) ∧
      Exec b c r (windowed_plan 1 addr size)) ∧
    (∃ c r out, wilc_sdio_read H wl b addr buf size = some (c, r, out) ∧
      Exec b c r (windowed_plan 0 addr size)) ∧
    (∀ rw, windowed_plan rw 0x30000 10 =
      window 0x30000 ++
        [Req.cmd53 { read_write := rw, function := 0, address := 0x10f, block_mode := 0,
                     increment := 1, count := 12, buffer := 0, block_size := 512 }]) := by
  have hbs0 : wl.bus_data.block_size ≠ 0 := by rw [hbs]; decide
  obtain ⟨c1, r1, hw1, hx1⟩ := write_exec H wl b addr buf size hbs0
  obtain ⟨c2, r2, out2, hr, hx2⟩ := read_exec H wl b addr buf size hbs0
  rw [hbs, xfer_plan_windowed _ addr size ha0 ha hs hw] at hx1 hx2
  refine ⟨⟨c1, r1, hw1, hx1⟩, ⟨c2, r2, out2, hr, hx2⟩, ?_⟩
  intro rw
  have e : word_align 10 = 12 := by decide
  simp [windowed_plan, e, u32]

theorem windowed_transfer_programs_window_witness :
    (∃ c r, wilc_sdio_write okHost (ready_wilc wilc_chip_type.WILC_1000 false) bus0 0x30000
        (fun _ => 0) 10 = some (c, r) ∧
      Exec bus0 c r (windowed_plan 1 0x30000 10)) ∧
    (∃ c r out, wilc_sdio_read okHost (ready_wilc wilc_chip_type.WILC_1000 false) bus0 0x30000
        (fun _ => 0) 10 = some (c, r, out) ∧
      Exec bus0 c r (windowed_plan 0 0x30000 10)) ∧
    (∀ rw, windowed_plan rw 0x30000 10 =
      window 0x30000 ++
        [Req.cmd53 { read_write := rw, function := 0, address := 0x10f, block_mode := 0,
                     increment := 1, count := 12, buffer := 0, block_size := 512 }]) :=
  windowed_transfer_programs_window okHost (ready_wilc wilc_chip_type.WILC_1000 false) bus0
    0x30000 (fun _ => 0) 10 rfl (by decide) (by decide) (by decide) (by decide)

/-! ## Round trip over the mock transport -/

theorem mock_csa (b : Bus Mock) (a : Nat) :
    wilc_sdio_set_func0_csa_address mockHost b a =
      ({ host := { b.host with csa0 := a % 256, csa1 := (a >>> 8) % 256,
                               csa2 := (a >>> 16) % 256 },
         log := b.log ++ (window a).map (fun q => ⟨q, 0⟩) }, 1) := by
  simp [wilc_sdio_set_func0_csa_address, wilc_sdio_cmd52, mockHost, window]

/-- C2 (counterexample): over the mock transport, with block size 512, address
0 and size 516, the byte-mode phase stores its 4 bytes at function-1 address 0,
over the first bytes of the block-mode phase: both calls succeed, yet the first
byte read back is `data 512 = 1` and not `data 0 = 0`. -/
theorem roundtrip_fails_at_address_zero :
    (write_then_read mockHost (ready_wilc wilc_chip_type.WILC_1000 false) mock0 0
        (fun i => i / 512) (fun _ => 0) 516).map (fun r => (r.1, r.2.1, r.2.2 0)) =
      some (1, 1, 1) ∧
    (fun i => i / 512 : Buf) 0 = 0 ∧ 0 < word_align 516 := by
  refine ⟨by rfl, rfl, by decide⟩

/-- C2 (amended): over the mock transport, with block size 512, for every
32-bit address and every size whose aligned value is below 512 * 512, provided
the transfer has a single phase or the address is > 0 and the address advanced
over the block-mode phase is not 0 modulo 2^32, `wilc_sdio_write` followed by
`wilc_sdio_read` both succeed and the buffer read equals the data written on
the first `roundUp4(size)` bytes. -/
theorem write_read_roundtrip (wl : wilc) (b : Bus Mock) (addr : Nat) (data out : Buf)
    (size : Nat) (hbs : wl.bus_data.block_size = 512) (ha : addr < 2 ^ 32)
    (hsz : size ≤ 262140)
    (hc : word_align size / 512 = 0 ∨ word_align size % 512 = 0 ∨
      (0 < addr ∧ u32 (addr + word_align size / 512 * 512) ≠ 0)) :
    ∃ out', write_then_read mockHost wl b addr data out size = some (1, 1, out') ∧
      ∀ i < word_align size, out' i = data i := by
  have hlt : word_align size < 262144 := by
    have := word_align_of_le (show size ≤ 0xFFFFFFFC by omega)
    omega
  unfold write_then_read wilc_sdio_write wilc_sdio_read
  simp only [hbs, ite_self]
  generalize word_align size = es at hlt hc ⊢
  have h1 : s32 (es / 512) = ((es / 512 : Nat) : Int) := s32_of_lt (by omega)
  have h2 : s32 (es % 512) = ((es % 512 : Nat) : Int) := s32_of_lt (by omega)
  have h3 : int_to_u32 ((es / 512 : Nat) : Int) = es / 512 := int_to_u32_natCast (by omega)
  have h4 : u32 (es / 512 * 512) = es / 512 * 512 := u32_of_lt (by omega)
  have h5 : (((es / 512 : Nat) : Int) % 512).toNat = es / 512 := by omega
  have h6 : (((es % 512 : Nat) : Int) % 512).toNat = es % 512 := by omega
  have h7 : s32 (u32 (es / 512 * 512)) = ((es / 512 * 512 : Nat) : Int) := by
    rw [h4]; exact s32_of_lt (by omega)
  have h8 : s32 (es / 512 * 512) = ((es / 512 * 512 : Nat) : Int) := s32_of_lt (by omega)
  simp only [h1, h2, h3, h4, h5, h6, gt_iff_lt, Nat.cast_pos, mock_csa,
    wilc_sdio_cmd53, h7, Int.toNat_ofNat]
  by_cases hn : 0 < es / 512
  · by_cases hl : 0 < es % 512
    · have hc' : 0 < addr ∧ u32 (addr + es / 512 * 512) ≠ 0 := by
        rcases hc with h | h | h
        · omega
        · omega
        · exact h
      obtain ⟨ha0, hw⟩ := hc'
      have hw' : 0 < u32 (addr + es / 512 * 512) := Nat.pos_of_ne_zero hw
      simp [hn, hl, ha0, hw', mockHost, Mock.window_address, window_value, h8]
      intro i hi
      unfold u32 at hw ⊢
      split_ifs <;> first | rfl | (congr 1; omega)
    · have hz : es % 512 = 0 := by omega
      by_cases ha0 : 0 < addr
      · simp [hn, hl, hz, ha0, mockHost, Mock.window_address, window_value, h8]
        intro i hi
        split_ifs <;> first | rfl | omega
      · have ha1 : addr = 0 := by omega
        subst ha1
        simp [hn, hl, hz, mockHost, Mock.window_address, window_value, h8]
        intro i hi
        split_ifs <;> first | rfl | omega
  · by_cases hl : 0 < es % 512
    · by_cases ha0 : 0 < addr
      · simp [hn, hl, ha0, mockHost, Mock.window_address, window_value]
        intro i hi
        have : (i : Int) < (es : Int) % 512 := by omega
        simp [this]
      · have ha1 : addr = 0 := by omega
        subst ha1
        simp [hn, hl, mockHost, Mock.window_address, window_value]
        intro i hi
        have : (i : Int) < (es : Int) % 512 := by omega
        simp [this]
    · simp [hn, hl]
      omega

theorem write_read_roundtrip_witness :
    ∃ out', write_then_read mockHost (ready_wilc wilc_chip_type.WILC_1000 false) mock0 0x30000
        (fun i => i % 251) (fun _ => 0) 2000 = some (1, 1, out') ∧
      ∀ i < word_align 2000, out' i = (fun i => i % 251 : Buf) i :=
  write_read_roundtrip (ready_wilc wilc_chip_type.WILC_1000 false) mock0 0x30000
    (fun i => i % 251) (fun _ => 0) 2000 rfl (by decide) (by decide)
    (Or.inr (Or.inr ⟨by decide, by decide⟩))

/-! ## Interrupt status -/

theorem cmd52_read_data {σ : Type} (H : Host σ) (b : Bus σ) (cmd : sdio_cmd52) (v : Nat)
    (hr : cmd.read_write = 0) (hv : ∀ s, (H.sdio_readb s cmd.function cmd.address).2.1 = v) :
    (wilc_sdio_cmd52 H b cmd).2.2.data = v % 256 := by
  simp [wilc_sdio_cmd52, hr, hv]

theorem or_pow_mod (t n : Nat) (h : 16 ≤ n) : (t ||| 2 ^ n) % 2 ^ 16 = t % 2 ^ 16 := by
  apply Nat.eq_of_testBit_eq
  intro j
  simp only [Nat.testBit_mod_two_pow, Nat.testBit_or, Nat.testBit_two_pow]
  by_cases hj : j < 16
  · have : ¬ n = j := by omega
    simp [hj, this]
  · simp [hj]

theorem or_shift_mod (t m : Nat) : (t ||| (m <<< 16)) % 2 ^ 16 = t % 2 ^ 16 := by
  apply Nat.eq_of_testBit_eq
  intro j
  simp only [Nat.testBit_mod_two_pow, Nat.testBit_or, Nat.testBit_shiftLeft]
  by_cases hj : j < 16
  · have : ¬ j ≥ 16 := by omega
    simp [hj, this]
  · simp [hj]

theorem and_bit_ne_zero (d j : Nat) : (d &&& BIT j ≠ 0) ↔ d.testBit j = true := by
  unfold BIT
  rw [Nat.and_two_pow]
  cases d.testBit j <;> simp

theorem read_size_lt {σ : Type} (H : Host σ) (b : Bus σ) :
    (wilc_sdio_read_size H b).2.2 < 2 ^ 16 := by
  unfold wilc_sdio_read_size
  simp only [wilc_sdio_cmd52]
  simp only [if_neg (show ¬ ((0 : Nat) ≠ 0) by simp)]
  apply Nat.or_lt_two_pow
  · exact lt_of_lt_of_le (Nat.mod_lt _ (by norm_num)) (by norm_num)
  · rw [Nat.shiftLeft_eq]
    have : ∀ x : Nat, x % 256 * 2 ^ 8 < 2 ^ 16 := fun x => by omega
    exact this _

theorem or_shift8 (lo hi : Nat) (h : lo < 256) : lo ||| (hi <<< 8) = lo + 256 * hi := by
  rw [Nat.or_comm, Nat.shiftLeft_eq, Nat.mul_comm hi (2 ^ 8),
    ← Nat.mul_add_lt_is_or (show lo < 2 ^ 8 by omega) hi]
  omega

theorem read_size_value {σ : Type} (H : Host σ) (b : Bus σ) (lo hi : Nat)
    (hlo : lo < 256) (hhi : hi < 256)
    (h1 : ∀ s, (H.sdio_readb s 0 0xf2).2.1 = lo)
    (h2 : ∀ s, (H.sdio_readb s 0 0xf3).2.1 = hi) :
    (wilc_sdio_read_size H b).2.2 = lo + 256 * hi := by
  unfold wilc_sdio_read_size
  simp only []
  rw [cmd52_read_data H _ _ lo rfl h1, cmd52_read_data H _ _ hi rfl h2,
    Nat.mod_eq_of_lt hlo, Nat.mod_eq_of_lt hhi, or_shift8 lo hi hlo]

theorem ite_or_pow_mod (p : Prop) [Decidable p] (t n : Nat) (h : 16 ≤ n) :
    (if p then t ||| BIT n else t) % 2 ^ 16 = t % 2 ^ 16 := by
  unfold BIT
  split_ifs
  · exact or_pow_mod t n h
  · rfl

theorem read_int_low16 {σ : Type} (H : Host σ) (wl : wilc) (b : Bus σ) (cmd0 : sdio_cmd52) :
    (wilc_sdio_read_int H wl b cmd0).2.2.1 % 2 ^ 16 = (wilc_sdio_read_size H b).2.2 := by
  have hc := read_size_lt H b
  unfold wilc_sdio_read_int
  by_cases hg : wl.bus_data.irq_gpio = true
  · simp only [hg, if_true, IRG_FLAGS_OFFSET]
    rw [or_shift_mod]
    exact Nat.mod_eq_of_lt hc
  · simp only [hg, if_false, INT_0, INT_1, INT_2, INT_3, INT_4, IRG_FLAGS_OFFSET,
      Bool.false_eq_true]
    rw [ite_or_pow_mod _ _ _ (by norm_num), ite_or_pow_mod _ _ _ (by norm_num),
      ite_or_pow_mod _ _ _ (by norm_num), ite_or_pow_mod _ _ _ (by norm_num),
      ite_or_pow_mod _ _ _ (by norm_num)]
    exact Nat.mod_eq_of_lt hc

theorem read_int_no_flag {σ : Type} (H : Host σ) (wl : wilc) (b : Bus σ) (cmd0 : sdio_cmd52)
    (h0 : ∀ s addr, (H.sdio_readb s 1 addr).2.1 = 0) :
    (wilc_sdio_read_int H wl b cmd0).2.2.1 = (wilc_sdio_read_size H b).2.2 := by
  unfold wilc_sdio_read_int
  by_cases hg : wl.bus_data.irq_gpio = true
  · by_cases hchip : wl.chip = wilc_chip_type.WILC_1000
    · simp only [hg, hchip, if_true]
      rw [cmd52_read_data H _ _ 0 rfl (fun s => h0 s _)]
      simp
    · simp only [hg, hchip, if_true, if_false]
      rw [cmd52_read_data H _ _ 0 rfl (fun s => h0 s _)]
      simp
  · simp only [hg, if_false, Bool.false_eq_true]
    rw [cmd52_read_data H _ _ 0 rfl (fun s => h0 s _)]
    simp

theorem cmd52_read_cmd {σ : Type} (H : Host σ) (b : Bus σ) (cmd : sdio_cmd52)
    (hr : cmd.read_write = 0) :
    (wilc_sdio_cmd52 H b cmd).2.2 = { cmd with data := (wilc_sdio_cmd52 H b cmd).2.2.data } := by
  simp [wilc_sdio_cmd52, hr]

theorem read_size_log {σ : Type} (H : Host σ) (b : Bus σ) :
    ∃ ret1 ret2 : Int, (wilc_sdio_read_size H b).1.log = b.log ++
      [⟨Req.cmd52 { read_write := 0, function := 0, raw := 0, address := 0xf2, data := 0 },
        ret1⟩,
       ⟨Req.cmd52 { read_write := 0, function := 0, raw := 0, address := 0xf3, data := 0 },
        ret2⟩] := by
  unfold wilc_sdio_read_size
  simp only []
  rw [cmd52_read_cmd H b _ rfl]
  simp only [cmd52_log, List.append_assoc, List.singleton_append]
  exact ⟨_, _, rfl⟩

/-- C13: if the single-byte reads of the function-0 registers 0xf2 and 0xf3
return the bytes `lo` and `hi`, `wilc_sdio_read_size` issues exactly these two
reads, returns 1 and stores `lo + 256 * hi` (little-endian, below 65536), and
the low 16 bits of the status of `wilc_sdio_read_int` are the same value, in
both IRQ modes and for both variants; if the function-1 flag/status register
reads 0 the status is exactly that value (no bit above 15). -/
theorem read_size_little_endian {σ : Type} (H : Host σ) (wl : wilc) (b : Bus σ)
    (cmd0 : sdio_cmd52) (lo hi : Nat) (hlo : lo < 256) (hhi : hi < 256)
    (h1 : ∀ s, (H.sdio_readb s 0 0xf2).2.1 = lo)
    (h2 : ∀ s, (H.sdio_readb s 0 0xf3).2.1 = hi) :
    (wilc_sdio_read_size H b).2 = (1, lo + 256 * hi) ∧ lo + 256 * hi < 65536 ∧
    (∃ ret1 ret2 : Int, (wilc_sdio_read_size H b).1.log = b.log ++
      [⟨Req.cmd52 { read_write := 0, function := 0, raw := 0, address := 0xf2, data := 0 },
        ret1⟩,
       ⟨Req.cmd52 { read_write := 0, function := 0, raw := 0, address := 0xf3, data := 0 },
        ret2⟩]) ∧
    (wilc_sdio_read_int H wl b cmd0).2.2.1 % 65536 = lo + 256 * hi ∧
    ((∀ s addr, (H.sdio_readb s 1 addr).2.1 = 0) →
      (wilc_sdio_read_int H wl b cmd0).2.2.1 = lo + 256 * hi) := by
  have hv := read_size_value H b lo hi hlo hhi h1 h2
  refine ⟨?_, by omega, ?_, ?_, ?_⟩
  · exact Prod.ext rfl hv
  · exact read_size_log H b
  · have := read_int_low16 H wl b cmd0
    rw [hv] at this
    exact this
  · intro h0
    rw [read_int_no_flag H wl b cmd0 h0, hv]

theorem read_size_little_endian_witness :
    (wilc_sdio_read_size (regHost (fun num addr => if num = 0 ∧ addr = 0xf2 then 0x10 else 0) 0)
      bus0).2 = (1, 0x10 + 256 * 0x00) ∧
    (wilc_sdio_read_int (regHost (fun num addr => if num = 0 ∧ addr = 0xf2 then 0x10 else 0) 0)
      (ready_wilc wilc_chip_type.WILC_1000 true) bus0
      { read_write := 0, function := 0, raw := 0, address := 0, data := 0 }).2.2.1 =
      0x10 + 256 * 0x00 :=
  ⟨(read_size_little_endian
      (regHost (fun num addr => if num = 0 ∧ addr = 0xf2 then 0x10 else 0) 0)
      (ready_wilc wilc_chip_type.WILC_1000 true) bus0
      { read_write := 0, function := 0, raw := 0, address := 0, data := 0 } 0x10 0x00
      (by decide) (by decide) (fun _ => rfl) (fun _ => rfl)).1,
   (read_size_little_endian
      (regHost (fun num addr => if num = 0 ∧ addr = 0xf2 then 0x10 else 0) 0)
      (ready_wilc wilc_chip_type.WILC_1000 true) bus0
      { read_write := 0, function := 0, raw := 0, address := 0, data := 0 } 0x10 0x00
      (by decide) (by decide) (fun _ => rfl) (fun _ => rfl)).2.2.2.2 (fun _ _ => rfl)⟩

theorem testBit_of_lt {x n j : Nat} (hx : x < 2 ^ n) (hj : n ≤ j) : x.testBit j = false :=
  Nat.testBit_lt_two_pow (lt_of_lt_of_le hx (Nat.pow_le_pow_right (by norm_num) hj))

theorem or_shift16_high (c m n : Nat) (hc : c < 2 ^ 16) (hm : m < 2 ^ n) :
    ∀ j, 16 + n ≤ j → (c ||| (m <<< 16)).testBit j = false := by
  intro j hj
  rw [Nat.testBit_or, Nat.testBit_shiftLeft, testBit_of_lt hc (by omega),
    testBit_of_lt hm (show n ≤ j - 16 by omega)]
  simp

/-- C12: in GPIO-routed IRQ mode, with `c` the pending count stored by the two
DMA-count reads (`wilc_sdio_read_size`) and `r` the byte read from the
variant-specific flag register, `wilc_sdio_read_int` issues after the count
reads one read of function-1 register 0xf7 (WILC_1000) resp. 0xfe (WILC_3000),
returns 1 and stores `c | ((r & 0x1F) << 16)` resp. `c | ((r & 0x0F) << 16)`;
the status has no bit above 20, and for WILC_3000 no bit above 19. -/
theorem read_int_gpio_flags {σ : Type} (H : Host σ) (wl : wilc) (b : Bus σ)
    (cmd0 : sdio_cmd52) (r : Nat) (hr : r < 256) (hg : wl.bus_data.irq_gpio = true) :
    (wl.chip = wilc_chip_type.WILC_1000 → (∀ s, (H.sdio_readb s 1 0xf7).2.1 = r) →
      (wilc_sdio_read_int H wl b cmd0).2.1 = 1 ∧
      (wilc_sdio_read_int H wl b cmd0).2.2.1 =
        (wilc_sdio_read_size H b).2.2 ||| ((r &&& 0x1F) <<< 16) ∧
      (∃ ret : Int, (wilc_sdio_read_int H wl b cmd0).1.log = (wilc_sdio_read_size H b).1.log ++
        [⟨Req.cmd52 { read_write := 0, function := 1, raw := 0, address := 0xf7, data := 0 },
          ret⟩]) ∧
      ∀ j, 20 < j → (wilc_sdio_read_int H wl b cmd0).2.2.1.testBit j = false) ∧
    (wl.chip = wilc_chip_type.WILC_3000 → (∀ s, (H.sdio_readb s 1 0xfe).2.1 = r) →
      (wilc_sdio_read_int H wl b cmd0).2.1 = 1 ∧
      (wilc_sdio_read_int H wl b cmd0).2.2.1 =
        (wilc_sdio_read_size H b).2.2 ||| ((r &&& 0x0F) <<< 16) ∧
      (∃ ret : Int, (wilc_sdio_read_int H wl b cmd0).1.log = (wilc_sdio_read_size H b).1.log ++
        [⟨Req.cmd52 { read_write := 0, function := 1, raw := 0, address := 0xfe, data := 0 },
          ret⟩]) ∧
      ∀ j, 19 < j → (wilc_sdio_read_int H wl b cmd0).2.2.1.testBit j = false) := by
  have hc := read_size_lt H b
  constructor
  · intro hchip hreg
    have hst : (wilc_sdio_read_int H wl b cmd0).2.2.1 =
        (wilc_sdio_read_size H b).2.2 ||| ((r &&& 0x1F) <<< 16) := by
      unfold wilc_sdio_read_int
      simp only [hg, hchip, if_true, IRG_FLAGS_OFFSET, Nat.shiftRight_zero]
      rw [cmd52_read_data H _ _ r rfl hreg, Nat.mod_eq_of_lt hr]
    refine ⟨?_, hst, ?_, ?_⟩
    · simp [wilc_sdio_read_int, hg]
    · refine ⟨(wilc_sdio_cmd52 H (wilc_sdio_read_size H b).1
        { read_write := 0, function := 1, raw := 0, address := 0xf7, data := 0 }).2.1, ?_⟩
      unfold wilc_sdio_read_int
      simp only [hg, hchip, if_true]
      exact cmd52_log _ _ _
    · intro j hj
      rw [hst]
      exact or_shift16_high _ _ 5 hc (Nat.and_lt_two_pow _ (by norm_num)) j (by omega)
  · intro hchip hreg
    have hne : ¬ wl.chip = wilc_chip_type.WILC_1000 := by rw [hchip]; decide
    have hst : (wilc_sdio_read_int H wl b cmd0).2.2.1 =
        (wilc_sdio_read_size H b).2.2 ||| ((r &&& 0x0F) <<< 16) := by
      unfold wilc_sdio_read_int
      simp only [hg, hne, if_true, if_false, IRG_FLAGS_OFFSET, Nat.shiftRight_zero]
      rw [cmd52_read_data H _ _ r rfl hreg, Nat.mod_eq_of_lt hr]
    refine ⟨?_, hst, ?_, ?_⟩
    · simp [wilc_sdio_read_int, hg]
    · refine ⟨(wilc_sdio_cmd52 H (wilc_sdio_read_size H b).1
        { read_write := 0, function := 1, raw := 0, address := 0xfe, data := 0 }).2.1, ?_⟩
      unfold wilc_sdio_read_int
      simp only [hg, hne, if_true, if_false]
      exact cmd52_log _ _ _
    · intro j hj
      rw [hst]
      exact or_shift16_high _ _ 4 hc (Nat.and_lt_two_pow _ (by norm_num)) j (by omega)

theorem read_int_gpio_flags_witness :
    (wilc_sdio_read_int (regHost (fun _ _ => 0xff) 0) (ready_wilc wilc_chip_type.WILC_1000 true)
      bus0 { read_write := 0, function := 0, raw := 0, address := 0, data := 0 }).2.1 = 1 ∧
    (wilc_sdio_read_int (regHost (fun _ _ => 0xff) 0) (ready_wilc wilc_chip_type.WILC_1000 true)
      bus0 { read_write := 0, function := 0, raw := 0, address := 0, data := 0 }).2.2.1 =
      (wilc_sdio_read_size (regHost (fun _ _ => 0xff) 0) bus0).2.2 |||
        ((0xff &&& 0x1F) <<< 16) :=
  ⟨((read_int_gpio_flags (regHost (fun _ _ => 0xff) 0)
      (ready_wilc wilc_chip_type.WILC_1000 true) bus0
      { read_write := 0, function := 0, raw := 0, address := 0, data := 0 } 0xff (by decide)
      rfl).1 rfl (fun _ => rfl)).1,
   ((read_int_gpio_flags (regHost (fun _ _ => 0xff) 0)
      (ready_wilc wilc_chip_type.WILC_1000 true) bus0
      { read_write := 0, function := 0, raw := 0, address := 0, data := 0 } 0xff (by decide)
      rfl).1 rfl (fun _ => rfl)).2.1⟩

theorem or_high (c k : Nat) (hc : c < 65536) (hk : k % 65536 = 0) : c ||| k = c + k := by
  have e : k = 2 ^ 16 * (k / 65536) := by omega
  rw [e, Nat.or_comm, ← Nat.mul_add_lt_is_or (show c < 2 ^ 16 by omega)]
  omega

theorem and_bit_iff (d j : Nat) : (d &&& BIT j ≠ 0) ↔ d / 2 ^ j % 2 = 1 := by
  rw [and_bit_ne_zero, Nat.testBit_to_div_mod]
  simp

/-- The status word that the status-register byte `d` decodes to on top of the
pending count `c`: bits 0, 2, 3, 4, 5 of `d` become the flags at bits
16, 17, 18, 19, 20. -/
theorem status_decode (c d : Nat) (hc : c < 65536) :
    (if d &&& BIT 5 ≠ 0 then
      (if d &&& BIT 4 ≠ 0 then
        (if d &&& BIT 3 ≠ 0 then
          (if d &&& BIT 2 ≠ 0 then
            (if d &&& BIT 0 ≠ 0 then c ||| INT_0 else c) ||| INT_1
           else (if d &&& BIT 0 ≠ 0 then c ||| INT_0 else c)) ||| INT_2
         else (if d &&& BIT 2 ≠ 0 then
            (if d &&& BIT 0 ≠ 0 then c ||| INT_0 else c) ||| INT_1
           else (if d &&& BIT 0 ≠ 0 then c ||| INT_0 else c))) ||| INT_3
       else (if d &&& BIT 3 ≠ 0 then
          (if d &&& BIT 2 ≠ 0 then
            (if d &&& BIT 0 ≠ 0 then c ||| INT_0 else c) ||| INT_1
           else (if d &&& BIT 0 ≠ 0 then c ||| INT_0 else c)) ||| INT_2
         else (if d &&& BIT 2 ≠ 0 then
            (if d &&& BIT 0 ≠ 0 then c ||| INT_0 else c) ||| INT_1
           else (if d &&& BIT 0 ≠ 0 then c ||| INT_0 else c)))) ||| INT_4
     else (if d &&& BIT 4 ≠ 0 then
        (if d &&& BIT 3 ≠ 0 then
          (if d &&& BIT 2 ≠ 0 then
            (if d &&& BIT 0 ≠ 0 then c ||| INT_0 else c) ||| INT_1
           else (if d &&& BIT 0 ≠ 0 then c ||| INT_0 else c)) ||| INT_2
         else (if d &&& BIT 2 ≠ 0 then
            (if d &&& BIT 0 ≠ 0 then c ||| INT_0 else c) ||| INT_1
           else (if d &&& BIT 0 ≠ 0 then c ||| INT_0 else c))) ||| INT_3
       else (if d &&& BIT 3 ≠ 0 then
          (if d &&& BIT 2 ≠ 0 then
            (if d &&& BIT 0 ≠ 0 then c ||| INT_0 else c) ||| INT_1
           else (if d &&& BIT 0 ≠ 0 then c ||| INT_0 else c)) ||| INT_2
         else (if d &&& BIT 2 ≠ 0 then
            (if d &&& BIT 0 ≠ 0 then c ||| INT_0 else c) ||| INT_1
           else (if d &&& BIT 0 ≠ 0 then c ||| INT_0 else c)))))
    = c + 65536 * (d % 2 + 2 * (d / 4 % 2) + 4 * (d / 8 % 2) + 8 * (d / 16 % 2) +
        16 * (d / 32 % 2)) := by
  have e0 := and_bit_iff d 0
  have e2 := and_bit_iff d 2
  have e3 := and_bit_iff d 3
  have e4 := and_bit_iff d 4
  have e5 := and_bit_iff d 5
  have p0 : d / 2 ^ 0 % 2 = d % 2 := by norm_num
  have p2 : d / 2 ^ 2 % 2 = d / 4 % 2 := by norm_num
  have p3 : d / 2 ^ 3 % 2 = d / 8 % 2 := by norm_num
  have p4 : d / 2 ^ 4 % 2 = d / 16 % 2 := by norm_num
  have p5 : d / 2 ^ 5 % 2 = d / 32 % 2 := by norm_num
  rw [p0] at e0; rw [p2] at e2; rw [p3] at e3; rw [p4] at e4; rw [p5] at e5
  simp only [e0, e2, e3, e4, e5]
  rcases Nat.mod_two_eq_zero_or_one d with h0 | h0 <;>
  rcases Nat.mod_two_eq_zero_or_one (d / 4) with h2 | h2 <;>
  rcases Nat.mod_two_eq_zero_or_one (d / 8) with h3 | h3 <;>
  rcases Nat.mod_two_eq_zero_or_one (d / 16) with h4 | h4 <;>
  rcases Nat.mod_two_eq_zero_or_one (d / 32) with h5 | h5 <;>
  simp only [h0, h2, h3, h4, h5, if_true, if_false, zero_ne_one, INT_0, INT_1, INT_2, INT_3,
    INT_4, BIT, IRG_FLAGS_OFFSET, Nat.or_assoc] <;>
  norm_num <;>
  rw [or_high c _ hc (by decide)] <;>
  rfl

theorem read_int_ret {σ : Type} (H : Host σ) (wl : wilc) (b : Bus σ) (cmd0 : sdio_cmd52) :
    (wilc_sdio_read_int H wl b cmd0).2.1 = 1 := by
  unfold wilc_sdio_read_int
  split_ifs <;> rfl

theorem read_int_status_value {σ : Type} (H : Host σ) (wl : wilc) (b : Bus σ)
    (cmd0 : sdio_cmd52) (d : Nat) (hd : d < 256) (hg : wl.bus_data.irq_gpio = false)
    (hreg : ∀ s, (H.sdio_readb s 1 0x04).2.1 = d) :
    (wilc_sdio_read_int H wl b cmd0).2.2.1 =
      (wilc_sdio_read_size H b).2.2 +
        65536 * (d % 2 + 2 * (d / 4 % 2) + 4 * (d / 8 % 2) + 8 * (d / 16 % 2) +
          16 * (d / 32 % 2)) := by
  have hc : (wilc_sdio_read_size H b).2.2 < 65536 := read_size_lt H b
  unfold wilc_sdio_read_int
  simp only [hg, Bool.false_eq_true, if_false]
  rw [cmd52_read_data H _ _ d rfl hreg, Nat.mod_eq_of_lt hd]
  exact status_decode _ d hc

theorem testBit_decode (c m k : Nat) (hc : c < 65536) :
    (c + 65536 * m).testBit (16 + k) = m.testBit k := by
  have e : c + 65536 * m = 2 ^ 16 * m ||| c := by
    rw [← Nat.mul_add_lt_is_or (show c < 2 ^ 16 by omega)]; omega
  rw [e, Nat.testBit_or, testBit_of_lt (show c < 2 ^ 16 by omega) (by omega),
    Bool.or_false, Nat.mul_comm, ← Nat.shiftLeft_eq, Nat.testBit_shiftLeft]
  simp

theorem flags_bits (x0 x2 x3 x4 x5 : Nat) (h0 : x0 < 2) (h2 : x2 < 2) (h3 : x3 < 2)
    (h4 : x4 < 2) (h5 : x5 < 2) :
    (x0 + 2 * x2 + 4 * x3 + 8 * x4 + 16 * x5) / 2 ^ 0 % 2 = x0 ∧
    (x0 + 2 * x2 + 4 * x3 + 8 * x4 + 16 * x5) / 2 ^ 1 % 2 = x2 ∧
    (x0 + 2 * x2 + 4 * x3 + 8 * x4 + 16 * x5) / 2 ^ 2 % 2 = x3 ∧
    (x0 + 2 * x2 + 4 * x3 + 8 * x4 + 16 * x5) / 2 ^ 3 % 2 = x4 ∧
    (x0 + 2 * x2 + 4 * x3 + 8 * x4 + 16 * x5) / 2 ^ 4 % 2 = x5 := by
  norm_num
  omega

theorem flags_lt (d : Nat) :
    d % 2 + 2 * (d / 4 % 2) + 4 * (d / 8 % 2) + 8 * (d / 16 % 2) + 16 * (d / 32 % 2) < 2 ^ 5 := by
  omega

theorem testBit_decode_high (c m : Nat) (hc : c < 65536) (hm : m < 2 ^ 5) (j : Nat)
    (hj : 20 < j) : (c + 65536 * m).testBit j = false := by
  obtain ⟨k, rfl⟩ : ∃ k, j = 16 + k := ⟨j - 16, by omega⟩
  rw [testBit_decode _ _ k hc]
  exact testBit_of_lt hm (by omega)

/-- C11: in status-register mode, if the read of function-1 register 0x04
returns the byte `d`, `wilc_sdio_read_int` returns 1 and a status whose bits
16, 17, 18, 19, 20 are bits 0, 2, 3, 4, 5 of `d`, whose bits above 20 are zero
and whose low 16 bits are the pending count: the status is `count + 65536 *
(d0 + 2 d2 + 4 d3 + 8 d4 + 16 d5)`, on which bits 1, 6, 7 of `d` have no effect.
The stored line count `nint` only decides whether a message is logged: for
every `nint` the bus, the return value 1 and the status are the same. -/
theorem read_int_status_register {σ : Type} (H : Host σ) (wl : wilc) (b : Bus σ)
    (cmd0 : sdio_cmd52) (d : Nat) (hd : d < 256) (hg : wl.bus_data.irq_gpio = false)
    (hreg : ∀ s, (H.sdio_readb s 1 0x04).2.1 = d) :
    (wilc_sdio_read_int H wl b cmd0).2.1 = 1 ∧
    (wilc_sdio_read_int H wl b cmd0).2.2.1.testBit 16 = d.testBit 0 ∧
    (wilc_sdio_read_int H wl b cmd0).2.2.1.testBit 17 = d.testBit 2 ∧
    (wilc_sdio_read_int H wl b cmd0).2.2.1.testBit 18 = d.testBit 3 ∧
    (wilc_sdio_read_int H wl b cmd0).2.2.1.testBit 19 = d.testBit 4 ∧
    (wilc_sdio_read_int H wl b cmd0).2.2.1.testBit 20 = d.testBit 5 ∧
    (∀ j, 20 < j → (wilc_sdio_read_int H wl b cmd0).2.2.1.testBit j = false) ∧
    (wilc_sdio_read_int H wl b cmd0).2.2.1 % 65536 = (wilc_sdio_read_size H b).2.2 ∧
    (wilc_sdio_read_int H wl b cmd0).2.2.1 =
      (wilc_sdio_read_size H b).2.2 +
        65536 * (d % 2 + 2 * (d / 4 % 2) + 4 * (d / 8 % 2) + 8 * (d / 16 % 2) +
          16 * (d / 32 % 2)) ∧
    (∀ nint : Int,
      (wilc_sdio_read_int H { wl with bus_data := { wl.bus_data with nint := nint } } b
          cmd0).1 = (wilc_sdio_read_int H wl b cmd0).1 ∧
      (wilc_sdio_read_int H { wl with bus_data := { wl.bus_data with nint := nint } } b
          cmd0).2.1 = 1 ∧
      (wilc_sdio_read_int H { wl with bus_data := { wl.bus_data with nint := nint } } b
          cmd0).2.2.1 = (wilc_sdio_read_int H wl b cmd0).2.2.1) := by
  have hc : (wilc_sdio_read_size H b).2.2 < 65536 := read_size_lt H b
  have hv := read_int_status_value H wl b cmd0 d hd hg hreg
  have hm := flags_lt d
  have bit : ∀ n k j : Nat, n = 16 + k →
      (d % 2 + 2 * (d / 4 % 2) + 4 * (d / 8 % 2) + 8 * (d / 16 % 2) +
        16 * (d / 32 % 2)) / 2 ^ k % 2 = d / 2 ^ j % 2 →
      (wilc_sdio_read_int H wl b cmd0).2.2.1.testBit n = d.testBit j := by
    intro n k j hn h
    rw [hn, hv, testBit_decode _ _ k hc, Nat.testBit_to_div_mod, Nat.testBit_to_div_mod, h]
  obtain ⟨f0, f1, f2, f3, f4⟩ := flags_bits (d % 2) (d / 4 % 2) (d / 8 % 2) (d / 16 % 2)
    (d / 32 % 2) (Nat.mod_lt _ (by norm_num)) (Nat.mod_lt _ (by norm_num))
    (Nat.mod_lt _ (by norm_num)) (Nat.mod_lt _ (by norm_num)) (Nat.mod_lt _ (by norm_num))
  have b0 := bit 16 0 0 (by norm_num) (by rw [f0]; norm_num)
  have b1 := bit 17 1 2 (by norm_num) (by rw [f1]; norm_num)
  have b2 := bit 18 2 3 (by norm_num) (by rw [f2]; norm_num)
  have b3 := bit 19 3 4 (by norm_num) (by rw [f3]; norm_num)
  have b4 := bit 20 4 5 (by norm_num) (by rw [f4]; norm_num)
  refine ⟨?_, b0, b1, b2, b3, b4, ?_, ?_, hv, ?_⟩
  · exact read_int_ret H wl b cmd0
  · intro j hj
    rw [hv]
    exact testBit_decode_high _ _ hc hm j hj
  · exact read_int_low16 H wl b cmd0
  · intro nint
    have hg' : ({ wl with bus_data := { wl.bus_data with nint := nint } } : wilc).bus_data.irq_gpio
        = false := hg
    refine ⟨?_, read_int_ret H _ b cmd0, ?_⟩
    · unfold wilc_sdio_read_int
      simp only [hg, hg', Bool.false_eq_true, if_false]
    · unfold wilc_sdio_read_int
      simp only [hg, hg', Bool.false_eq_true, if_false]

theorem read_int_status_register_witness :
    0x27 < 256 ∧
    (wilc_sdio_read_int (regHost (fun _ _ => 0x27) 0) (ready_wilc wilc_chip_type.WILC_1000 false)
      bus0 { read_write := 0, function := 0, raw := 0, address := 0, data := 0 }).2.1 = 1 ∧
    (wilc_sdio_read_int (regHost (fun _ _ => 0x27) 0) (ready_wilc wilc_chip_type.WILC_1000 false)
      bus0 { read_write := 0, function := 0, raw := 0, address := 0, data := 0 }).2.2.1.testBit 16
      = (0x27).testBit 0 :=
  ⟨by decide,
   (read_int_status_register (regHost (fun _ _ => 0x27) 0)
      (ready_wilc wilc_chip_type.WILC_1000 false) bus0
      { read_write := 0, function := 0, raw := 0, address := 0, data := 0 } 0x27 (by decide) rfl
      (fun _ => rfl)).1,
   (read_int_status_register (regHost (fun _ _ => 0x27) 0)
      (ready_wilc wilc_chip_type.WILC_1000 false) bus0
      { read_write := 0, function := 0, raw := 0, address := 0, data := 0 } 0x27 (by decide) rfl
      (fun _ => rfl)).2.1⟩

/-- C14 (divergence): on a host on which every primitive fails with `-EIO`,
the three transactions of `wilc_sdio_read_int` and the two of
`wilc_sdio_read_size` all fail, and both calls return 1 (success) with the
value 0 stored. -/
theorem read_int_ignores_failures :
    wilc_sdio_read_size (regHost (fun _ _ => 0) (-5)) bus0 =
      ({ host := (),
         log := [⟨Req.cmd52 { read_write := 0, function := 0, raw := 0, address := 0xf2,
                              data := 0 }, -5⟩,
                 ⟨Req.cmd52 { read_write := 0, function := 0, raw := 0, address := 0xf3,
                              data := 0 }, -5⟩] }, 1, 0) ∧
    wilc_sdio_read_int (regHost (fun _ _ => 0) (-5)) (ready_wilc wilc_chip_type.WILC_1000 true)
        bus0 { read_write := 0, function := 0, raw := 0, address := 0, data := 0 } =
      ({ host := (),
         log := [⟨Req.cmd52 { read_write := 0, function := 0, raw := 0, address := 0xf2,
                              data := 0 }, -5⟩,
                 ⟨Req.cmd52 { read_write := 0, function := 0, raw := 0, address := 0xf3,
                              data := 0 }, -5⟩,
                 ⟨Req.cmd52 { read_write := 0, function := 1, raw := 0, address := 0xf7,
                              data := 0 }, -5⟩] }, 1, 0, false) := by
  exact ⟨rfl, rfl⟩

/-- The return value of `wilc_sdio_read_int` and of `wilc_sdio_read_size` is 1
on every host, for every handle and every bus state: the results of the
single-byte transactions they issue are not looked at. -/
theorem read_int_read_size_always_succeed {σ : Type} (H : Host σ) (wl : wilc) (b : Bus σ)
    (cmd0 : sdio_cmd52) :
    (wilc_sdio_read_size H b).2.1 = 1 ∧ (wilc_sdio_read_int H wl b cmd0).2.1 = 1 := by
  exact ⟨rfl, read_int_ret H wl b cmd0⟩

/-! ## Bus lifecycle -/

theorem set_func0_block_size_exec {σ : Type} (H : Host σ) (b : Bus σ) (bs : Nat) :
    Exec b (wilc_sdio_set_func0_block_size H b bs).1 (wilc_sdio_set_func0_block_size H b bs).2
      [Req.cmd52 { read_write := 1, function := 0, raw := 0, address := 0x10,
                   data := bs % 256 },
       Req.cmd52 { read_write := 1, function := 0, raw := 0, address := 0x11,
                   data := (bs >>> 8) % 256 }] := by
  unfold wilc_sdio_set_func0_block_size
  simp only [cmd52_write_cmd, ne_eq, one_ne_zero, not_false_eq_true]
  split_ifs with h1 h2
  · refine ⟨_, true, ?_, rfl, Run.ok (Run.ok Run.done)⟩
    simp only [cmd52_log, List.append_assoc, List.singleton_append]
    simp [h1, h2]
  · refine ⟨_, false, ?_, rfl, Run.ok (Run.fail h2)⟩
    simp only [cmd52_log, List.append_assoc, List.singleton_append]
    simp [h1]
  · exact ⟨_, false, cmd52_log _ _ _, rfl, Run.fail h1⟩

theorem set_func1_block_size_exec {σ : Type} (H : Host σ) (b : Bus σ) (bs : Nat) :
    Exec b (wilc_sdio_set_func1_block_size H b bs).1 (wilc_sdio_set_func1_block_size H b bs).2
      [Req.cmd52 { read_write := 1, function := 0, raw := 0, address := 0x110,
                   data := bs % 256 },
       Req.cmd52 { read_write := 1, function := 0, raw := 0, address := 0x111,
                   data := (bs >>> 8) % 256 }] := by
  unfold wilc_sdio_set_func1_block_size
  simp only [cmd52_write_cmd, ne_eq, one_ne_zero, not_false_eq_true]
  split_ifs with h1 h2
  · refine ⟨_, true, ?_, rfl, Run.ok (Run.ok Run.done)⟩
    simp only [cmd52_log, List.append_assoc, List.singleton_append]
    simp [h1, h2]
  · refine ⟨_, false, ?_, rfl, Run.ok (Run.fail h2)⟩
    simp only [cmd52_log, List.append_assoc, List.singleton_append]
    simp [h1]
  · exact ⟨_, false, cmd52_log _ _ _, rfl, Run.fail h1⟩

theorem ior_poll_spec {σ : Type} (H : Host σ) :
    ∀ (loop : Nat) (b : Bus σ) (cmd : sdio_cmd52), cmd.read_write = 0 →
      ∃ k, 1 ≤ k ∧ k ≤ loop + 1 ∧
        (((ior_poll H loop b cmd).failed = true ∧
            Exec b (ior_poll H loop b cmd).bus 0
              (List.replicate k (Req.cmd52 { cmd with data := 0 }))) ∨
         ((ior_poll H loop b cmd).failed = false ∧ 0 < (ior_poll H loop b cmd).loop ∧
            Exec b (ior_poll H loop b cmd).bus 1
              (List.replicate k (Req.cmd52 { cmd with data := 0 }))) ∨
         ((ior_poll H loop b cmd).failed = false ∧ (ior_poll H loop b cmd).loop ≤ 0 ∧
            k = loop + 1 ∧
            Exec b (ior_poll H loop b cmd).bus 1
              (List.replicate k (Req.cmd52 { cmd with data := 0 })))) := by
  intro loop
  induction loop with
  | zero =>
    intro b cmd hr
    refine ⟨1, le_refl _, le_refl _, ?_⟩
    have hx := cmd52_exec H b { cmd with data := 0 }
    unfold ior_poll
    simp only []
    by_cases h1 : (wilc_sdio_cmd52 H b { cmd with data := 0 }).2.1 = 0
    · simp only [h1, ne_eq, not_true_eq_false, if_false] at hx ⊢
      by_cases h2 : (wilc_sdio_cmd52 H b { cmd with data := 0 }).2.2.data = 2
      · simp only [h2, if_true]
        exact Or.inr (Or.inr ⟨trivial, by norm_num, trivial, hx⟩)
      · simp only [h2, if_false]
        exact Or.inr (Or.inr ⟨trivial, by norm_num, trivial, hx⟩)
    · simp only [h1, ne_eq, not_false_eq_true, if_true] at hx ⊢
      exact Or.inl ⟨trivial, hx⟩
  | succ loop ih =>
    intro b cmd hr
    have hx := cmd52_exec H b { cmd with data := 0 }
    unfold ior_poll
    simp only []
    by_cases h1 : (wilc_sdio_cmd52 H b { cmd with data := 0 }).2.1 = 0
    · simp only [h1, ne_eq, not_true_eq_false, if_false] at hx ⊢
      by_cases h2 : (wilc_sdio_cmd52 H b { cmd with data := 0 }).2.2.data = 2
      · simp only [h2, if_true]
        exact ⟨1, le_refl _, by omega, Or.inr (Or.inl ⟨trivial, by omega, hx⟩)⟩
      · simp only [h2, if_false]
        have hcmd := cmd52_read_cmd H b { cmd with data := 0 } hr
        obtain ⟨k, hk1, hk2, hk⟩ := ih (wilc_sdio_cmd52 H b { cmd with data := 0 }).1
          (wilc_sdio_cmd52 H b { cmd with data := 0 }).2.2 (by rw [hcmd]; exact hr)
        have hq : ({ (wilc_sdio_cmd52 H b { cmd with data := 0 }).2.2 with data := 0 }
            : sdio_cmd52) = { cmd with data := 0 } := by rw [hcmd]
        rw [hq] at hk
        refine ⟨k + 1, by omega, by omega, ?_⟩
        rcases hk with ⟨hf, he⟩ | ⟨hf, hl, he⟩ | ⟨hf, hl, hkl, he⟩
        · exact Or.inl ⟨hf, by simpa [List.replicate_succ] using hx.seq he⟩
        · exact Or.inr (Or.inl ⟨hf, hl, by simpa [List.replicate_succ] using hx.seq he⟩)
        · exact Or.inr (Or.inr ⟨hf, hl, by omega,
            by simpa [List.replicate_succ] using hx.seq he⟩)
    · simp only [h1, ne_eq, not_false_eq_true, if_true] at hx ⊢
      exact ⟨1, le_refl _, by omega, Or.inl ⟨trivial, hx⟩⟩

theorem Exec.plan_eq {σ : Type} {b c : Bus σ} {r : Int} {p p' : List Req}
    (h : Exec b c r p) (e : p = p') : Exec b c r p' := e ▸ h

theorem Exec.fail_within {σ : Type} {b c : Bus σ} {p1 p : List Req}
    (h : Exec b c 0 p1) (hp : p1 <+: p) : Exec b c 0 p := by
  obtain ⟨t, rfl⟩ := hp
  exact Exec.seq_fail t h

theorem set_func0_block_size_512_exec {σ : Type} (H : Host σ) (b : Bus σ) :
    Exec b (wilc_sdio_set_func0_block_size H b WILC_SDIO_BLOCK_SIZE).1
      (wilc_sdio_set_func0_block_size H b WILC_SDIO_BLOCK_SIZE).2
      [Req.cmd52 { read_write := 1, function := 0, raw := 0, address := 0x10, data := 0x00 },
       Req.cmd52 { read_write := 1, function := 0, raw := 0, address := 0x11, data := 0x02 }] :=
  set_func0_block_size_exec H b 512

theorem set_func1_block_size_512_exec {σ : Type} (H : Host σ) (b : Bus σ) :
    Exec b (wilc_sdio_set_func1_block_size H b WILC_SDIO_BLOCK_SIZE).1
      (wilc_sdio_set_func1_block_size H b WILC_SDIO_BLOCK_SIZE).2
      [Req.cmd52 { read_write := 1, function := 0, raw := 0, address := 0x110, data := 0x00 },
       Req.cmd52 { read_write := 1, function := 0, raw := 0, address := 0x111, data := 0x02 }] :=
  set_func1_block_size_exec H b 512

theorem init_plan_upto (k : Nat) (t : List Req) (ht : t <+: init_post) :
    init_pre ++ List.replicate k init_poll ++ t <+: init_plan k := by
  obtain ⟨u, hu⟩ := ht
  exact ⟨u, by rw [init_plan, ← hu]; simp only [List.append_assoc]⟩

theorem init_plan_upto_poll (k j : Nat) (h : j ≤ k) :
    init_pre ++ List.replicate j init_poll <+: init_plan k := by
  refine ⟨List.replicate (k - j) init_poll ++ init_post, ?_⟩
  rw [init_plan, List.append_assoc, ← List.append_assoc (List.replicate j init_poll),
    ← List.replicate_add, ← List.append_assoc]
  congr 3
  omega

theorem init_spec {σ : Type} (E : Ext σ) (H : Host σ) (wl : wilc) (b : Bus σ) :
    ∃ (k : Nat) (b6 : Bus σ), 1 ≤ k ∧ k ≤ 4 ∧
      ((Exec b b6 0 (init_plan k) ∧
          ∃ w, (w = init_wl0 E wl ∨ w = init_wl1 E wl) ∧
            ∀ resume, wilc_sdio_init E H wl b resume = (b6, 0, w)) ∨
       (k = 4 ∧ Exec b b6 1 (init_pre ++ List.replicate 4 init_poll) ∧
          ∀ resume, wilc_sdio_init E H wl b resume = (b6, 0, init_wl1 E wl)) ∨
       (Exec b b6 1 (init_plan k) ∧
          ∀ resume, wilc_sdio_init E H wl b resume =
            if resume = true then
              (b6, 1, { init_wl1 E wl with
                          bus_data := { (init_wl1 E wl).bus_data with is_init := true } })
            else identify E (init_wl1 E wl) b6)) := by
  unfold wilc_sdio_init
  simp only []
  have hx1 := cmd52_exec H b
    { read_write := 1, function := 0, raw := 1, address := 0x100, data := 0x80 }
  generalize wilc_sdio_cmd52 H b
    { read_write := 1, function := 0, raw := 1, address := 0x100, data := 0x80 } = r1 at hx1 ⊢
  by_cases h1 : r1.2.1 = 0
  · simp only [h1, ne_eq, not_true_eq_false, if_false] at hx1 ⊢
    have hx2 := set_func0_block_size_512_exec H r1.1
    generalize wilc_sdio_set_func0_block_size H r1.1 WILC_SDIO_BLOCK_SIZE = s2 at hx2 ⊢
    by_cases h2 : s2.2 = 0
    · simp only [h2, if_true]
      refine ⟨1, s2.1, le_refl _, by norm_num, Or.inl ⟨?_, _, Or.inl rfl, fun _ => rfl⟩⟩
      exact (hx1.seq (hx2.of_eq h2)).fail_within (by decide)
    · simp only [h2, if_false]
      have h2' : s2.2 = 1 := hx2.zero_or_one.resolve_left h2
      have hx12 := hx1.seq (hx2.of_eq h2')
      have hx3 := cmd52_exec H s2.1
        { read_write := 1, function := 0, raw := 1, address := 0x2, data := 0x2 }
      generalize wilc_sdio_cmd52 H s2.1
        { read_write := 1, function := 0, raw := 1, address := 0x2, data := 0x2 } = r3 at hx3 ⊢
      by_cases h3 : r3.2.1 = 0
      · simp only [h3, ne_eq, not_true_eq_false, if_false] at hx3 ⊢
        have hpre : Exec b r3.1 1 init_pre := (hx12.seq hx3).plan_eq (by simp [init_pre])
        obtain ⟨k, hk1, hk2, hk⟩ := ior_poll_spec H 3 r3.1
          { read_write := 0, function := 0, raw := 0, address := 0x3, data := r3.2.2.data } rfl
        generalize ior_poll H 3 r3.1
          { read_write := 0, function := 0, raw := 0, address := 0x3, data := r3.2.2.data }
          = p at hk ⊢
        change (p.failed = true ∧ Exec r3.1 p.bus 0 (List.replicate k init_poll)) ∨
          (p.failed = false ∧ 0 < p.loop ∧ Exec r3.1 p.bus 1 (List.replicate k init_poll)) ∨
          (p.failed = false ∧ p.loop ≤ 0 ∧ k = 3 + 1 ∧
            Exec r3.1 p.bus 1 (List.replicate k init_poll)) at hk
        rcases hk with ⟨hf, he⟩ | ⟨hf, hl, he⟩ | ⟨hf, hl, hk4, he⟩
        · simp only [hf, if_true]
          refine ⟨k, p.bus, hk1, hk2, Or.inl ⟨?_, _, Or.inr rfl, fun _ => rfl⟩⟩
          exact (hpre.seq he).fail_within (init_plan_upto_poll k k (le_refl _))
        · have hl' : ¬ p.loop ≤ 0 := by omega
          simp only [hf, hl', Bool.false_eq_true, if_false]
          have hx4 := hpre.seq he
          have hx5 := set_func1_block_size_512_exec H p.bus
          generalize wilc_sdio_set_func1_block_size H p.bus WILC_SDIO_BLOCK_SIZE = s5 at hx5 ⊢
          by_cases h5 : s5.2 = 0
          · simp only [h5, if_true]
            refine ⟨k, s5.1, hk1, hk2, Or.inl ⟨?_, _, Or.inr rfl, fun _ => rfl⟩⟩
            exact (hx4.seq (hx5.of_eq h5)).fail_within
              (init_plan_upto k
                [Req.cmd52 { read_write := 1, function := 0, raw := 0, address := 0x110,
                             data := 0x00 },
                 Req.cmd52 { read_write := 1, function := 0, raw := 0, address := 0x111,
                             data := 0x02 }] (by decide))
          · simp only [h5, if_false]
            have h5' : s5.2 = 1 := hx5.zero_or_one.resolve_left h5
            have hx45 := hx4.seq (hx5.of_eq h5')
            have hx6 := cmd52_exec H s5.1
              { read_write := 1, function := 0, raw := 1, address := 0x4, data := 0x3 }
            generalize wilc_sdio_cmd52 H s5.1
              { read_write := 1, function := 0, raw := 1, address := 0x4, data := 0x3 }
              = r6 at hx6 ⊢
            by_cases h6 : r6.2.1 = 0
            · simp only [h6, ne_eq, not_true_eq_false, if_false] at hx6 ⊢
              have hall : Exec b r6.1 1 (init_plan k) :=
                (hx45.seq hx6).plan_eq (by simp [init_plan, init_post])
              refine ⟨k, r6.1, hk1, hk2, Or.inr (Or.inr ⟨hall, ?_⟩)⟩
              intro resume
              cases resume
              · simp only [Bool.not_false, if_true, Bool.false_eq_true, if_false, identify]
                rfl
              · simp only [Bool.not_true, Bool.false_eq_true, if_false, if_true]
                rfl
            · simp only [h6, ne_eq, not_false_eq_true, if_true] at hx6 ⊢
              refine ⟨k, r6.1, hk1, hk2, Or.inl ⟨?_, _, Or.inr rfl, fun _ => rfl⟩⟩
              exact ((hx45.seq hx6).plan_eq (by simp [init_plan, init_post])).fail_within
                (List.prefix_refl (init_plan k))
        · simp only [hf, hl, Bool.false_eq_true, if_false, if_true]
          refine ⟨4, p.bus, by norm_num, le_refl _, Or.inr (Or.inl ⟨rfl, ?_, fun _ => rfl⟩)⟩
          have := hpre.seq he
          rw [hk4] at this
          exact this
      · simp only [h3, ne_eq, not_false_eq_true, if_true] at hx3 ⊢
        refine ⟨1, r3.1, le_refl _, by norm_num, Or.inl ⟨?_, _, Or.inr rfl, fun _ => rfl⟩⟩
        exact (hx12.seq hx3).fail_within (by decide)
  · simp only [h1, ne_eq, not_false_eq_true, if_true] at hx1 ⊢
    refine ⟨1, r1.1, le_refl _, by norm_num, Or.inl ⟨?_, _, Or.inl rfl, fun _ => rfl⟩⟩
    exact hx1.fail_within (by decide)

theorem cmd52_ret_zero {σ : Type} (H : Host σ)
    (hw : ∀ s num byte addr, (H.sdio_writeb s num byte addr).2 = 0)
    (hr : ∀ s num addr, (H.sdio_readb s num addr).2.2 = 0) (b : Bus σ) (cmd : sdio_cmd52) :
    (wilc_sdio_cmd52 H b cmd).2.1 = 0 := by
  unfold wilc_sdio_cmd52
  simp only []
  split_ifs <;> simp [hw, hr]

theorem ior_poll_first_ready {σ : Type} (H : Host σ)
    (hz : ∀ b cmd, (wilc_sdio_cmd52 H b cmd).2.1 = 0)
    (hready : ∀ s, (H.sdio_readb s 0 0x3).2.1 = 2) (b : Bus σ) (cmd : sdio_cmd52)
    (hrw : cmd.read_write = 0) (hf : cmd.function = 0) (ha : cmd.address = 0x3) (n : Nat) :
    ior_poll H (n + 1) b cmd =
      ⟨(wilc_sdio_cmd52 H b { cmd with data := 0 }).1, false, ((n + 1 : Nat) : Int),
        (wilc_sdio_cmd52 H b { cmd with data := 0 }).2.2⟩ := by
  have hd : (wilc_sdio_cmd52 H b { cmd with data := 0 }).2.2.data = 2 :=
    cmd52_read_data H b { cmd with data := 0 } 2 hrw (by
      intro s
      show (H.sdio_readb s cmd.function cmd.address).2.1 = 2
      rw [hf, ha]
      exact hready s)
  rw [ior_poll]
  simp only [hz, hd, ne_eq, not_true_eq_false, if_false, if_true]

theorem init_all_ok {σ : Type} (E : Ext σ) (H : Host σ) (wl : wilc) (b : Bus σ)
    (hw : ∀ s num byte addr, (H.sdio_writeb s num byte addr).2 = 0)
    (hr : ∀ s num addr, (H.sdio_readb s num addr).2.2 = 0)
    (hready : ∀ s, (H.sdio_readb s 0 0x3).2.1 = 2) :
    (wilc_sdio_init E H wl b true).2 =
      (1, { init_wl1 E wl with
              bus_data := { (init_wl1 E wl).bus_data with is_init := true } }) ∧
    wilc_sdio_init E H wl b false =
      identify E (init_wl1 E wl) (wilc_sdio_init E H wl b true).1 := by
  have hz := cmd52_ret_zero H hw hr
  unfold wilc_sdio_init wilc_sdio_set_func0_block_size wilc_sdio_set_func1_block_size
  simp only [hz, ne_eq, not_true_eq_false, if_false]
  rw [ior_poll_first_ready H hz hready _ _ rfl rfl rfl 2]
  simp only [hz, ne_eq, not_true_eq_false, if_false]
  simp [identify, init_wl1]

theorem init_plan_ne_short (k : Nat) :
    (init_pre ++ List.replicate k init_poll).map (fun q => (⟨q, 0⟩ : Txn)) ≠
      (init_plan k).map (fun q => (⟨q, 0⟩ : Txn)) := by
  intro h
  have hl := congrArg List.length h
  simp [init_plan, init_pre, init_post] at hl

theorem init_cases {σ : Type} (E : Ext σ) (H : Host σ) (wl : wilc) (b : Bus σ) :
    ∃ (k : Nat) (n : List Txn) (b6 : Bus σ), 1 ≤ k ∧ k ≤ 4 ∧ b6.log = b.log ++ n ∧
      n.map Txn.req <+: init_plan k ∧ (∀ t ∈ n.dropLast, t.ret = 0) ∧
      ((n ≠ (init_plan k).map (fun q => (⟨q, 0⟩ : Txn)) ∧
          ∃ w, (w = init_wl0 E wl ∨ w = init_wl1 E wl) ∧
            ∀ resume, wilc_sdio_init E H wl b resume = (b6, 0, w)) ∨
       (n = (init_plan k).map (fun q => (⟨q, 0⟩ : Txn)) ∧
          ∀ resume, wilc_sdio_init E H wl b resume =
            if resume = true then
              (b6, 1, { init_wl1 E wl with
                          bus_data := { (init_wl1 E wl).bus_data with is_init := true } })
            else identify E (init_wl1 E wl) b6)) := by
  obtain ⟨k, b6, hk1, hk4, hc⟩ := init_spec E H wl b
  rcases hc with ⟨hex, w, hw, hall⟩ | ⟨rfl, hex, hall⟩ | ⟨hex, hall⟩
  · obtain ⟨n, hlog, -, hiff, hdl, hpre, -⟩ := hex.outcome
    refine ⟨k, n, b6, hk1, hk4, hlog, hpre, hdl, Or.inl ⟨?_, w, hw, hall⟩⟩
    intro hn
    have hz : ∀ t ∈ n, t.ret = 0 := by
      rw [hn]
      intro t ht
      obtain ⟨q, -, rfl⟩ := List.mem_map.1 ht
      rfl
    exact absurd (hiff.2 hz) (by norm_num)
  · obtain ⟨n, hlog, -, -, hdl, -, hn⟩ := hex.outcome
    have hn := hn rfl
    refine ⟨4, n, b6, hk1, hk4, hlog, ?_, hdl, Or.inl ⟨?_, _, Or.inr rfl, hall⟩⟩
    · rw [hn, List.map_map]
      have : (Txn.req ∘ fun q => (⟨q, 0⟩ : Txn)) = id := rfl
      rw [this, List.map_id]
      exact init_plan_upto_poll 4 4 (le_refl 4)
    · rw [hn]
      exact init_plan_ne_short 4
  · obtain ⟨n, hlog, -, -, hdl, hpre, hn⟩ := hex.outcome
    exact ⟨k, n, b6, hk1, hk4, hlog, hpre, hdl, Or.inr ⟨hn rfl, hall⟩⟩

theorem identify_bus {σ : Type} (E : Ext σ) (wl : wilc) (b : Bus σ) :
    (identify E wl b).1 = (E.wilc_get_chipid wl b).1 := by
  unfold identify
  split_ifs <;> rfl

theorem identify_ret {σ : Type} (E : Ext σ) (wl : wilc) (b : Bus σ) :
    ((identify E wl b).2.1 = 0 ∧ (identify E wl b).2.2 = wl ∧
        is_wilc3000 (E.wilc_get_chipid wl b).2 = false ∧
        is_wilc1000 (E.wilc_get_chipid wl b).2 = false) ∨
    ((identify E wl b).2.1 = 1 ∧ wilc_sdio_is_init (identify E wl b).2.2 = true ∧
        (is_wilc3000 (E.wilc_get_chipid wl b).2 = true ∨
         is_wilc1000 (E.wilc_get_chipid wl b).2 = true)) := by
  unfold identify
  by_cases h3 : is_wilc3000 (E.wilc_get_chipid wl b).2 = true
  · simp [h3, wilc_sdio_is_init]
  · by_cases h1 : is_wilc1000 (E.wilc_get_chipid wl b).2 = true
    · simp [h3, h1, wilc_sdio_is_init]
    · simp [h3, h1]

/-- C15: when every `sdio_writeb` and `sdio_readb` succeeds, the I/O-ready
register (function 0, address 0x3) reads 0x2 and `wilc_get_chipid` returns
`id`, then `wilc_sdio_init` with `resume = false` returns 1, sets the chip to
WILC_1000 if `(id & 0xfffff000) == 0x100000` and to WILC_3000 if it is
`0x300000`, stores the block size 512 and leaves `wilc_sdio_is_init` true; no
identifier satisfies both `is_wilc1000` and `is_wilc3000`. -/
theorem init_classifies_chip {σ : Type} (E : Ext σ) (H : Host σ) (wl : wilc) (b : Bus σ)
    (id : Nat)
    (hw : ∀ s num byte addr, (H.sdio_writeb s num byte addr).2 = 0)
    (hr : ∀ s num addr, (H.sdio_readb s num addr).2.2 = 0)
    (hready : ∀ s, (H.sdio_readb s 0 0x3).2.1 = 2)
    (hid : ∀ w c, (E.wilc_get_chipid w c).2 = id) :
    ((id &&& 0xfffff000) = 0x100000 →
      (wilc_sdio_init E H wl b false).2.1 = 1 ∧
      (wilc_sdio_init E H wl b false).2.2.chip = wilc_chip_type.WILC_1000 ∧
      (wilc_sdio_init E H wl b false).2.2.bus_data.block_size = 512 ∧
      wilc_sdio_is_init (wilc_sdio_init E H wl b false).2.2 = true) ∧
    ((id &&& 0xfffff000) = 0x300000 →
      (wilc_sdio_init E H wl b false).2.1 = 1 ∧
      (wilc_sdio_init E H wl b false).2.2.chip = wilc_chip_type.WILC_3000 ∧
      (wilc_sdio_init E H wl b false).2.2.bus_data.block_size = 512 ∧
      wilc_sdio_is_init (wilc_sdio_init E H wl b false).2.2 = true) ∧
    ¬ (is_wilc1000 id = true ∧ is_wilc3000 id = true) := by
  obtain ⟨-, h⟩ := init_all_ok E H wl b hw hr hready
  rw [h]
  refine ⟨?_, ?_, ?_⟩
  · intro h1
    simp [identify, hid, is_wilc3000, is_wilc1000, h1, init_wl1, wilc_sdio_is_init,
      WILC_SDIO_BLOCK_SIZE]
  · intro h3
    simp [identify, hid, is_wilc3000, h3, init_wl1, wilc_sdio_is_init,
      WILC_SDIO_BLOCK_SIZE]
  · simp only [is_wilc1000, is_wilc3000, decide_eq_true_eq]
    rintro ⟨h1, h3⟩
    rw [h1] at h3
    exact absurd h3 (by decide)

theorem init_classifies_chip_witness :
    (wilc_sdio_init (idExt 0x1002b0) (regHost (fun _ _ => 2) 0) (fresh_wilc 0) bus0
      false).2.1 = 1 ∧
    (wilc_sdio_init (idExt 0x1002b0) (regHost (fun _ _ => 2) 0) (fresh_wilc 0) bus0
      false).2.2.chip = wilc_chip_type.WILC_1000 ∧
    (wilc_sdio_init (idExt 0x1002b0) (regHost (fun _ _ => 2) 0) (fresh_wilc 0) bus0
      false).2.2.bus_data.block_size = 512 ∧
    wilc_sdio_is_init (wilc_sdio_init (idExt 0x1002b0) (regHost (fun _ _ => 2) 0)
      (fresh_wilc 0) bus0 false).2.2 = true :=
  (init_classifies_chip (idExt 0x1002b0) (regHost (fun _ _ => 2) 0) (fresh_wilc 0) bus0
    0x1002b0 (fun _ _ _ _ => rfl) (fun _ _ _ => rfl) (fun _ => rfl) (fun _ _ => rfl)).1
    (by decide)

/-- C16: if `wilc_get_chipid` returns an identifier `id` for which
`(id & 0xfffff000)` is neither `0x100000` nor `0x300000`, `wilc_sdio_init` with
`resume = false` on a handle whose `is_init` is false returns 0 on every host
(also one on which every transaction succeeds), leaves `chip` unchanged, and
`wilc_sdio_is_init` is false afterwards. -/
theorem init_unsupported_chip_fails {σ : Type} (E : Ext σ) (H : Host σ) (wl : wilc)
    (b : Bus σ) (id : Nat)
    (hid : ∀ w c, (E.wilc_get_chipid w c).2 = id)
    (h1 : (id &&& 0xfffff000) ≠ 0x100000) (h3 : (id &&& 0xfffff000) ≠ 0x300000)
    (hi : wilc_sdio_is_init wl = false) :
    (wilc_sdio_init E H wl b false).2.1 = 0 ∧
    (wilc_sdio_init E H wl b false).2.2.chip = wl.chip ∧
    wilc_sdio_is_init (wilc_sdio_init E H wl b false).2.2 = false := by
  obtain ⟨k, n, b6, -, -, -, -, -, hc⟩ := init_cases E H wl b
  rcases hc with ⟨-, w, hw, hall⟩ | ⟨-, hall⟩
  · rw [hall false]
    rcases hw with rfl | rfl
    · exact ⟨rfl, rfl, hi⟩
    · exact ⟨rfl, rfl, hi⟩
  · rw [hall false]
    have e3 : is_wilc3000 id = false := by simp [is_wilc3000, h3]
    have e1 : is_wilc1000 id = false := by simp [is_wilc1000, h1]
    simp only [Bool.false_eq_true, if_false]
    rcases identify_ret E (init_wl1 E wl) b6 with ⟨h0, hw, -, -⟩ | ⟨-, -, h31⟩
    · rw [h0, hw]
      exact ⟨rfl, rfl, hi⟩
    · rw [hid, e3, e1] at h31
      simp at h31

theorem init_unsupported_chip_fails_witness :
    (wilc_sdio_init (idExt 0x2000d0) (regHost (fun _ _ => 2) 0) (fresh_wilc 0) bus0
      false).2.1 = 0 ∧
    (wilc_sdio_init (idExt 0x2000d0) (regHost (fun _ _ => 2) 0) (fresh_wilc 0) bus0
      false).2.2.chip = (fresh_wilc 0).chip ∧
    wilc_sdio_is_init (wilc_sdio_init (idExt 0x2000d0) (regHost (fun _ _ => 2) 0)
      (fresh_wilc 0) bus0 false).2.2 = false :=
  init_unsupported_chip_fails (idExt 0x2000d0) (regHost (fun _ _ => 2) 0) (fresh_wilc 0) bus0
    0x2000d0 (fun _ _ => rfl) (by decide) (by decide) rfl

/-- C17 (counterexample): `wilc_sdio_init` with `resume = true` on a handle
whose `is_init` is true (the state in which `wilc_sdio_resume` calls it), on a
host on which every primitive fails with `-EIO`, returns 0 after its first
transaction and `wilc_sdio_is_init` is still true. -/
theorem init_failure_leaves_is_init_set :
    wilc_sdio_init (idExt 0x1002b0) (regHost (fun _ _ => 0) (-5))
        (ready_wilc wilc_chip_type.WILC_1000 false) bus0 true =
      ({ host := (),
         log := [⟨Req.cmd52 { read_write := 1, function := 0, raw := 1, address := 0x100,
                              data := 0x80 }, -5⟩] }, 0,
       ready_wilc wilc_chip_type.WILC_1000 false) ∧
    wilc_sdio_is_init (wilc_sdio_init (idExt 0x1002b0) (regHost (fun _ _ => 0) (-5))
        (ready_wilc wilc_chip_type.WILC_1000 false) bus0 true).2.2 = true := by
  exact ⟨rfl, rfl⟩

/-- C17 (amended): whenever `wilc_sdio_init` returns 0, for either value of
`resume` and whichever step failed, `is_init` and `chip` have the values they
had before the call; `wilc_sdio_is_init` is false afterwards if it was false
before. -/
theorem init_failure_keeps_is_init {σ : Type} (E : Ext σ) (H : Host σ) (wl : wilc)
    (b : Bus σ) (resume : Bool) (h : (wilc_sdio_init E H wl b resume).2.1 = 0) :
    wilc_sdio_is_init (wilc_sdio_init E H wl b resume).2.2 = wilc_sdio_is_init wl ∧
    (wilc_sdio_init E H wl b resume).2.2.chip = wl.chip ∧
    (wilc_sdio_is_init wl = false →
      wilc_sdio_is_init (wilc_sdio_init E H wl b resume).2.2 = false) := by
  have key : wilc_sdio_is_init (wilc_sdio_init E H wl b resume).2.2 = wilc_sdio_is_init wl ∧
      (wilc_sdio_init E H wl b resume).2.2.chip = wl.chip := by
    obtain ⟨k, n, b6, -, -, -, -, -, hc⟩ := init_cases E H wl b
    rcases hc with ⟨-, w, hw, hall⟩ | ⟨-, hall⟩
    · rw [hall resume]
      rcases hw with rfl | rfl
      · exact ⟨rfl, rfl⟩
      · exact ⟨rfl, rfl⟩
    · rw [hall resume] at h ⊢
      cases resume
      · simp only [Bool.false_eq_true, if_false] at h ⊢
        rcases identify_ret E (init_wl1 E wl) b6 with ⟨-, hw, -, -⟩ | ⟨h1, -, -⟩
        · rw [hw]
          exact ⟨rfl, rfl⟩
        · rw [h1] at h
          exact absurd h (by norm_num)
      · simp only [if_true] at h
        exact absurd h (by norm_num)
  exact ⟨key.1, key.2, fun hf => key.1.trans hf⟩

theorem init_failure_keeps_is_init_witness :
    (wilc_sdio_init (idExt 0x2000d0) okHost (fresh_wilc 0) bus0 false).2.1 = 0 ∧
    (wilc_sdio_is_init (wilc_sdio_init (idExt 0x2000d0) okHost (fresh_wilc 0) bus0
        false).2.2 = wilc_sdio_is_init (fresh_wilc 0) ∧
      (wilc_sdio_init (idExt 0x2000d0) okHost (fresh_wilc 0) bus0 false).2.2.chip =
        (fresh_wilc 0).chip ∧
      (wilc_sdio_is_init (fresh_wilc 0) = false →
        wilc_sdio_is_init (wilc_sdio_init (idExt 0x2000d0) okHost (fresh_wilc 0) bus0
          false).2.2 = false)) :=
  ⟨rfl, init_failure_keeps_is_init (idExt 0x2000d0) okHost (fresh_wilc 0) bus0 false rfl⟩

/-- The order of the negotiation, with the result of a transaction taken as
`wilc_sdio_cmd52` returns it: every run of `wilc_sdio_init` issues a prefix of
the requests `init_plan k` for some `1 ≤ k ≤ 4`: raw write 0x80 to 0x100, writes 0x00 and
0x02 (512) to 0x10 and 0x11, raw write 0x2 to 0x2, `k` reads of 0x3, writes
0x00 and 0x02 to 0x110 and 0x111, raw write 0x3 to 0x4, all on function 0. All
transactions but the last succeeded. If a transaction failed, or the run
stopped before the end of the plan, the call returns 0 on the bus as that
transaction left it; chip identification runs only when `resume` is false and
the whole plan succeeded; the call returns 1 only if the whole plan succeeded
and, when not resuming, the identifier matched a known chip, and then `is_init`
is true, whereas a call returning 0 leaves `is_init` as it was. -/
theorem init_negotiation_order {σ : Type} (E : Ext σ) (H : Host σ) (wl : wilc) (b : Bus σ)
    (resume : Bool) :
    ∃ (k : Nat) (n : List Txn) (b6 : Bus σ),
      1 ≤ k ∧ k ≤ 4 ∧ b6.log = b.log ++ n ∧ n.map Txn.req <+: init_plan k ∧
      (∀ t ∈ n.dropLast, t.ret = 0) ∧
      ((wilc_sdio_init E H wl b resume).2.1 = 0 ∨ (wilc_sdio_init E H wl b resume).2.1 = 1) ∧
      ((∃ t ∈ n, t.ret ≠ 0) →
        (wilc_sdio_init E H wl b resume).1 = b6 ∧ (wilc_sdio_init E H wl b resume).2.1 = 0) ∧
      (n ≠ (init_plan k).map (fun q => (⟨q, 0⟩ : Txn)) →
        (wilc_sdio_init E H wl b resume).1 = b6 ∧ (wilc_sdio_init E H wl b resume).2.1 = 0) ∧
      (resume = true → (wilc_sdio_init E H wl b resume).1 = b6) ∧
      (resume = false → n = (init_plan k).map (fun q => (⟨q, 0⟩ : Txn)) →
        (wilc_sdio_init E H wl b resume).1 = (E.wilc_get_chipid (init_wl1 E wl) b6).1) ∧
      ((wilc_sdio_init E H wl b resume).2.1 = 1 →
        n = (init_plan k).map (fun q => (⟨q, 0⟩ : Txn)) ∧
        wilc_sdio_is_init (wilc_sdio_init E H wl b resume).2.2 = true ∧
        (resume = false →
          is_wilc3000 (E.wilc_get_chipid (init_wl1 E wl) b6).2 = true ∨
          is_wilc1000 (E.wilc_get_chipid (init_wl1 E wl) b6).2 = true)) ∧
      ((wilc_sdio_init E H wl b resume).2.1 = 0 →
        wilc_sdio_is_init (wilc_sdio_init E H wl b resume).2.2 = wilc_sdio_is_init wl) := by
  obtain ⟨k, n, b6, hk1, hk4, hlog, hpre, hdl, hc⟩ := init_cases E H wl b
  refine ⟨k, n, b6, hk1, hk4, hlog, hpre, hdl, ?_⟩
  rcases hc with ⟨hne, w, hw, hall⟩ | ⟨hn, hall⟩
  · rw [hall resume]
    refine ⟨Or.inl rfl, fun _ => ⟨rfl, rfl⟩, fun _ => ⟨rfl, rfl⟩, fun _ => rfl,
      fun _ h => absurd h hne, fun h => absurd h (by norm_num), fun _ => ?_⟩
    rcases hw with rfl | rfl
    · rfl
    · rfl
  · have hz : ¬ ∃ t ∈ n, t.ret ≠ 0 := by
      rintro ⟨t, ht, hr⟩
      rw [hn] at ht
      obtain ⟨q, -, rfl⟩ := List.mem_map.1 ht
      exact hr rfl
    have ht := hall true
    have hf := hall false
    simp only [if_true] at ht
    simp only [Bool.false_eq_true, if_false] at hf
    cases resume
    · rw [hf]
      refine ⟨?_, fun h => absurd h hz, fun h => absurd hn h, fun h => absurd h (by decide),
        fun _ _ => identify_bus E _ b6, ?_, ?_⟩
      · rcases identify_ret E (init_wl1 E wl) b6 with ⟨h0, -, -, -⟩ | ⟨h1, -, -⟩
        · exact Or.inl h0
        · exact Or.inr h1
      · intro h
        rcases identify_ret E (init_wl1 E wl) b6 with ⟨h0, -, -, -⟩ | ⟨-, hi, h31⟩
        · rw [h0] at h
          exact absurd h (by norm_num)
        · exact ⟨hn, hi, fun _ => h31⟩
      · intro h
        rcases identify_ret E (init_wl1 E wl) b6 with ⟨-, hw, -, -⟩ | ⟨h1, -, -⟩
        · rw [hw]
          rfl
        · rw [h1] at h
          exact absurd h (by norm_num)
    · rw [ht]
      exact ⟨Or.inr rfl, fun h => absurd h hz, fun h => absurd hn h, fun _ => rfl,
        fun h => absurd h (by decide), fun _ => ⟨hn, rfl, fun h => absurd h (by decide)⟩,
        fun h => absurd h (by norm_num)⟩

/-- C19 (divergence): on a device whose I/O-ready register always reads 0,
with every transaction succeeding, `wilc_sdio_init` reads the register
(function 0, address 0x3) four times before it returns 0. -/
theorem init_polls_four_times :
    (wilc_sdio_init (idExt 0x1002b0) okHost (fresh_wilc 0) bus0 false).1.log =
      (init_pre ++ [init_poll, init_poll, init_poll, init_poll]).map
        (fun q => (⟨q, 0⟩ : Txn)) ∧
    (wilc_sdio_init (idExt 0x1002b0) okHost (fresh_wilc 0) bus0 false).2.1 = 0 ∧
    ((wilc_sdio_init (idExt 0x1002b0) okHost (fresh_wilc 0) bus0 false).1.log.filter
      (fun t => decide (t.req = init_poll))).length = 4 := by
  exact ⟨rfl, rfl, by decide⟩

/-! ## Register access -/

theorem write_reg_exec {σ : Type} (be : Bool) (H : Host σ) (wl : wilc) (b : Bus σ)
    (addr data : Nat) (ha : ¬ (addr ≥ 0xf0 ∧ addr ≤ 0xff)) :
    Exec b (wilc_sdio_write_reg be H wl b addr data).1
      (wilc_sdio_write_reg be H wl b addr data).2
      (reg_xfer 1 addr wl.bus_data.block_size) := by
  unfold wilc_sdio_write_reg reg_xfer
  simp only [ha, if_false]
  have hx := set_csa_exec H b addr
  generalize wilc_sdio_set_func0_csa_address H b addr = w at hx ⊢
  by_cases h : w.2 = 0
  · simp only [h, if_true]
    rw [h] at hx
    exact Exec.seq_fail _ hx
  · simp only [h, if_false]
    have h1 : w.2 = 1 := by
      rcases hx.zero_or_one with h0 | h1
      · exact absurd h0 h
      · exact h1
    rw [h1] at hx
    have hy := cmd53_exec H w.1
      { read_write := 1, function := 0, address := 0x10f, block_mode := 0, increment := 1,
        count := 4, buffer := 0, block_size := wl.bus_data.block_size }
      (u32_bytes be (cpu_to_le32 be data))
    generalize wilc_sdio_cmd53 H w.1 _ _ = r at hy ⊢
    by_cases h2 : r.2.1 = 0
    · simp only [h2, ne_eq, not_true_eq_false, if_false] at hy ⊢
      exact hx.seq hy
    · simp only [h2, ne_eq, not_false_eq_true, if_true] at hy ⊢
      exact hx.seq hy

theorem read_reg_exec {σ : Type} (be : Bool) (H : Host σ) (wl : wilc) (b : Bus σ)
    (addr data0 : Nat) (cmd0 : sdio_cmd52) (ha : ¬ (addr ≥ 0xf0 ∧ addr ≤ 0xff)) :
    Exec b (wilc_sdio_read_reg be H wl b addr data0 cmd0).1
      (wilc_sdio_read_reg be H wl b addr data0 cmd0).2.1
      (reg_xfer 0 addr wl.bus_data.block_size) := by
  unfold wilc_sdio_read_reg reg_xfer
  simp only [ha, if_false]
  have hx := set_csa_exec H b addr
  generalize wilc_sdio_set_func0_csa_address H b addr = w at hx ⊢
  by_cases h : w.2 = 0
  · simp only [h, if_true]
    rw [h] at hx
    exact Exec.seq_fail _ hx
  · simp only [h, if_false]
    have h1 : w.2 = 1 := by
      rcases hx.zero_or_one with h0 | h1
      · exact absurd h0 h
      · exact h1
    rw [h1] at hx
    have hy := cmd53_exec H w.1
      { read_write := 0, function := 0, address := 0x10f, block_mode := 0, increment := 1,
        count := 4, buffer := 0, block_size := wl.bus_data.block_size }
      (u32_bytes be data0)
    generalize wilc_sdio_cmd53 H w.1 _ _ = r at hy ⊢
    by_cases h2 : r.2.1 = 0
    · simp only [h2, ne_eq, not_true_eq_false, if_false] at hy ⊢
      exact hx.seq hy
    · simp only [h2, ne_eq, not_false_eq_true, if_true] at hy ⊢
      exact hx.seq hy

theorem cmd53_ret_zero {σ : Type} (H : Host σ)
    (hto : ∀ s num bs addr src cnt, (H.sdio_memcpy_toio s num bs addr src cnt).2 = 0)
    (hfrom : ∀ s num bs dst addr cnt, (H.sdio_memcpy_fromio s num bs dst addr cnt).2.2 = 0)
    (b : Bus σ) (cmd : sdio_cmd53) (buf : Buf) : (wilc_sdio_cmd53 H b cmd buf).2.1 = 0 := by
  unfold wilc_sdio_cmd53
  simp only []
  split_ifs <;> simp [hto, hfrom]

theorem set_csa_ok {σ : Type} (H : Host σ)
    (hw : ∀ s num byte addr, (H.sdio_writeb s num byte addr).2 = 0) (b : Bus σ) (adr : Nat) :
    (wilc_sdio_set_func0_csa_address H b adr).2 = 1 := by
  have hz : ∀ c cmd, cmd.read_write = 1 → cmd.raw = 0 → (wilc_sdio_cmd52 H c cmd).2.1 = 0 := by
    intro c cmd h1 h2
    simp [wilc_sdio_cmd52, h1, h2, hw]
  unfold wilc_sdio_set_func0_csa_address
  simp only [cmd52_write_cmd, ne_eq, one_ne_zero, not_false_eq_true]
  rw [hz _ _ rfl rfl, hz _ _ rfl rfl, hz _ _ rfl rfl]
  simp

theorem write_reg_ok {σ : Type} (be : Bool) (H : Host σ) (wl : wilc) (b : Bus σ)
    (addr data : Nat) (ha : ¬ (addr ≥ 0xf0 ∧ addr ≤ 0xff))
    (hw : ∀ s num byte addr, (H.sdio_writeb s num byte addr).2 = 0)
    (hto : ∀ s num bs addr src cnt, (H.sdio_memcpy_toio s num bs addr src cnt).2 = 0)
    (hfrom : ∀ s num bs dst addr cnt, (H.sdio_memcpy_fromio s num bs dst addr cnt).2.2 = 0) :
    (wilc_sdio_write_reg be H wl b addr data).2 = 1 := by
  unfold wilc_sdio_write_reg
  simp only [ha, if_false, set_csa_ok H hw, cmd53_ret_zero H hto hfrom]
  simp

theorem swab32_lt (v : Nat) : swab32 v < 2 ^ 32 := by
  unfold swab32
  have h0 := Nat.mod_lt v (show 0 < 256 by norm_num)
  have h1 := Nat.mod_lt (v / 2 ^ 8) (show 0 < 256 by norm_num)
  have h2 := Nat.mod_lt (v / 2 ^ 16) (show 0 < 256 by norm_num)
  have h3 := Nat.mod_lt (v / 2 ^ 24) (show 0 < 256 by norm_num)
  generalize v % 256 = a0 at h0 ⊢
  generalize v / 2 ^ 8 % 256 = a1 at h1 ⊢
  generalize v / 2 ^ 16 % 256 = a2 at h2 ⊢
  generalize v / 2 ^ 24 % 256 = a3 at h3 ⊢
  norm_num
  omega

theorem u32_of_bytes_lt (be : Bool) (buf : Buf) : u32_of_bytes be buf < 2 ^ 32 := by
  unfold u32_of_bytes
  have h0 := Nat.mod_lt (buf 0) (show 0 < 256 by norm_num)
  have h1 := Nat.mod_lt (buf 1) (show 0 < 256 by norm_num)
  have h2 := Nat.mod_lt (buf 2) (show 0 < 256 by norm_num)
  have h3 := Nat.mod_lt (buf 3) (show 0 < 256 by norm_num)
  generalize buf 0 % 256 = a0 at h0 ⊢
  generalize buf 1 % 256 = a1 at h1 ⊢
  generalize buf 2 % 256 = a2 at h2 ⊢
  generalize buf 3 % 256 = a3 at h3 ⊢
  cases be <;> norm_num <;> omega

theorem le32_to_cpu_lt (be : Bool) (v : Nat) (h : v < 2 ^ 32) : le32_to_cpu be v < 2 ^ 32 := by
  unfold le32_to_cpu
  cases be
  · simpa using h
  · simpa using swab32_lt v

theorem read_reg_ok {σ : Type} (be : Bool) (H : Host σ) (wl : wilc) (b : Bus σ)
    (addr data0 : Nat) (cmd0 : sdio_cmd52) (ha : ¬ (addr ≥ 0xf0 ∧ addr ≤ 0xff))
    (hw : ∀ s num byte addr, (H.sdio_writeb s num byte addr).2 = 0)
    (hto : ∀ s num bs addr src cnt, (H.sdio_memcpy_toio s num bs addr src cnt).2 = 0)
    (hfrom : ∀ s num bs dst addr cnt, (H.sdio_memcpy_fromio s num bs dst addr cnt).2.2 = 0) :
    (wilc_sdio_read_reg be H wl b addr data0 cmd0).2.1 = 1 ∧
    (wilc_sdio_read_reg be H wl b addr data0 cmd0).2.2 < 2 ^ 32 := by
  unfold wilc_sdio_read_reg
  simp only [ha, if_false, set_csa_ok H hw, cmd53_ret_zero H hto hfrom]
  simp only [one_ne_zero, if_false, ne_eq, not_true_eq_false, true_and]
  exact le32_to_cpu_lt be _ (u32_of_bytes_lt be _)

/-! ## Interrupt line synchronisation -/

theorem u32_or_lt (w c : Nat) (hw : w < 2 ^ 32) (hc : c < 2 ^ 32) :
    u32 (w ||| c) = w ||| c ∧ w ||| c < 2 ^ 32 :=
  ⟨Nat.mod_eq_of_lt (Nat.or_lt_two_pow hw hc), Nat.or_lt_two_pow hw hc⟩

theorem sync_loop_lines (n : Nat) (hn : n ≤ 5) (v : Nat) (hv : v < 2 ^ 32) :
    sync_loop 5 27 5 0 (n : Int) v = (v ||| line_bits n, 0) := by
  obtain ⟨e1, l1⟩ := u32_or_lt v 134217728 hv (by norm_num)
  obtain ⟨e2, l2⟩ := u32_or_lt _ 268435456 l1 (by norm_num)
  obtain ⟨e3, l3⟩ := u32_or_lt _ 536870912 l2 (by norm_num)
  obtain ⟨e4, l4⟩ := u32_or_lt _ 1073741824 l3 (by norm_num)
  obtain ⟨e5, -⟩ := u32_or_lt _ 2147483648 l4 (by norm_num)
  interval_cases n
  · simp [sync_loop, line_bits]
  · simp [sync_loop, line_bits, e1, BIT]
  · simp [sync_loop, line_bits, e1, e2, BIT]
    simp [Nat.or_assoc]
  · simp [sync_loop, line_bits, e1, e2, e3, BIT]
    simp [Nat.or_assoc]
  · simp [sync_loop, line_bits, e1, e2, e3, e4, BIT]
    simp [Nat.or_assoc]
  · simp [sync_loop, line_bits, e1, e2, e3, e4, e5, BIT]
    simp [Nat.or_assoc]

theorem sync_ext_reject {σ : Type} (be : Bool) (H : Host σ) (wl : wilc) (b : Bus σ)
    (nint : Int) (reg0 : Nat) (cmd0 : sdio_cmd52) (h : (MAX_NUM_INT : Int) < nint) :
    wilc_sdio_sync_ext be H wl b nint reg0 cmd0 = (b, 0, wl) := by
  unfold wilc_sdio_sync_ext
  simp only [gt_iff_lt, h, if_true]

theorem line_bits_testBit (n j : Nat) :
    (line_bits n).testBit j = decide (27 ≤ j ∧ j < 27 + n) := by
  unfold line_bits
  rw [Nat.testBit_shiftLeft, Nat.testBit_two_pow_sub_one]
  by_cases h : 27 ≤ j
  · have e : (j - 27 < n) ↔ (j < 27 + n) := by omega
    simp [h, e]
  · simp [h]

theorem bit_testBit (k j : Nat) : (BIT k).testBit j = decide (j = k) := by
  unfold BIT
  rw [Nat.testBit_two_pow]
  by_cases h : k = j
  · simp [h]
  · have h2 : ¬ j = k := fun e => h e.symm
    simp [h, h2]

theorem reg_not_byte :
    ¬ (WILC_MISC ≥ 0xf0 ∧ WILC_MISC ≤ 0xff) ∧
    ¬ (WILC_PIN_MUX_0 ≥ 0xf0 ∧ WILC_PIN_MUX_0 ≤ 0xff) ∧
    ¬ (WILC_INTR_ENABLE ≥ 0xf0 ∧ WILC_INTR_ENABLE ≤ 0xff) ∧
    ¬ (WILC_INTR2_ENABLE ≥ 0xf0 ∧ WILC_INTR2_ENABLE ≤ 0xff) := by
  decide

theorem sync_ext_eq_rmw {σ : Type} (be : Bool) (H : Host σ) (wl : wilc) (b : Bus σ) (n : Nat)
    (reg0 : Nat) (cmd0 : sdio_cmd52) (hn : n ≤ 5) (hg : wl.bus_data.irq_gpio = true)
    (hw : ∀ s num byte addr, (H.sdio_writeb s num byte addr).2 = 0)
    (hto : ∀ s num bs addr src cnt, (H.sdio_memcpy_toio s num bs addr src cnt).2 = 0)
    (hfrom : ∀ s num bs dst addr cnt, (H.sdio_memcpy_fromio s num bs dst addr cnt).2.2 = 0) :
    wilc_sdio_sync_ext be H wl b (n : Int) reg0 cmd0 = sync_ext_rmw be H wl b n reg0 cmd0 := by
  obtain ⟨aM, aP, aE, -⟩ := reg_not_byte
  have rM : ∀ w c d, (wilc_sdio_read_reg be H w c WILC_MISC d cmd0).2.1 = 1 :=
    fun w c d => (read_reg_ok be H w c _ d cmd0 aM hw hto hfrom).1
  have rP : ∀ w c d, (wilc_sdio_read_reg be H w c WILC_PIN_MUX_0 d cmd0).2.1 = 1 :=
    fun w c d => (read_reg_ok be H w c _ d cmd0 aP hw hto hfrom).1
  have rE : ∀ w c d, (wilc_sdio_read_reg be H w c WILC_INTR_ENABLE d cmd0).2.1 = 1 :=
    fun w c d => (read_reg_ok be H w c _ d cmd0 aE hw hto hfrom).1
  have wM : ∀ w c d, (wilc_sdio_write_reg be H w c WILC_MISC d).2 = 1 :=
    fun w c d => write_reg_ok be H w c _ d aM hw hto hfrom
  have wP : ∀ w c d, (wilc_sdio_write_reg be H w c WILC_PIN_MUX_0 d).2 = 1 :=
    fun w c d => write_reg_ok be H w c _ d aP hw hto hfrom
  have wE : ∀ w c d, (wilc_sdio_write_reg be H w c WILC_INTR_ENABLE d).2 = 1 :=
    fun w c d => write_reg_ok be H w c _ d aE hw hto hfrom
  have lP : ∀ w c d, u32 ((wilc_sdio_read_reg be H w c WILC_PIN_MUX_0 d cmd0).2.2 ||| BIT 8) =
      (wilc_sdio_read_reg be H w c WILC_PIN_MUX_0 d cmd0).2.2 ||| BIT 8 :=
    fun w c d => (u32_or_lt _ _ (read_reg_ok be H w c _ d cmd0 aP hw hto hfrom).2
      (by norm_num [BIT])).1
  have lE : ∀ w c d, sync_loop 5 27 5 0 (n : Int)
      (wilc_sdio_read_reg be H w c WILC_INTR_ENABLE d cmd0).2.2 =
      ((wilc_sdio_read_reg be H w c WILC_INTR_ENABLE d cmd0).2.2 ||| line_bits n, 0) :=
    fun w c d => sync_loop_lines n hn _ (read_reg_ok be H w c _ d cmd0 aE hw hto hfrom).2
  have hle : ¬ ((n : Int) > (MAX_NUM_INT : Int)) := by
    simp only [MAX_NUM_INT, gt_iff_lt, not_lt]
    exact_mod_cast hn
  unfold wilc_sdio_sync_ext sync_ext_rmw rmw
  simp only [hle, if_false, hg, if_true, rM, rP, rE, wM, wP, wE, lP, lE, one_ne_zero,
    ne_eq, not_true_eq_false]
  cases wl.chip <;> simp

theorem rmw_exec {σ : Type} (be : Bool) (H : Host σ) (wl : wilc) (b : Bus σ)
    (addr data0 : Nat) (cmd0 : sdio_cmd52) (f : Nat → Nat) (ha : ¬ (addr ≥ 0xf0 ∧ addr ≤ 0xff))
    (hw : ∀ s num byte addr, (H.sdio_writeb s num byte addr).2 = 0)
    (hto : ∀ s num bs addr src cnt, (H.sdio_memcpy_toio s num bs addr src cnt).2 = 0)
    (hfrom : ∀ s num bs dst addr cnt, (H.sdio_memcpy_fromio s num bs dst addr cnt).2.2 = 0) :
    Exec b (rmw be H wl b addr data0 cmd0 f).1 1
      (reg_xfer 0 addr wl.bus_data.block_size ++ reg_xfer 1 addr wl.bus_data.block_size) := by
  have h1 := (read_reg_exec be H wl b addr data0 cmd0 ha).of_eq
    (read_reg_ok be H wl b addr data0 cmd0 ha hw hto hfrom).1
  have h2 := (write_reg_exec be H wl (wilc_sdio_read_reg be H wl b addr data0 cmd0).1 addr
    (f (wilc_sdio_read_reg be H wl b addr data0 cmd0).2.2) ha).of_eq
    (write_reg_ok be H wl _ addr _ ha hw hto hfrom)
  exact h1.seq h2

theorem sync_ext_rmw_exec {σ : Type} (be : Bool) (H : Host σ) (wl : wilc) (b : Bus σ) (n : Nat)
    (reg0 : Nat) (cmd0 : sdio_cmd52)
    (hw : ∀ s num byte addr, (H.sdio_writeb s num byte addr).2 = 0)
    (hto : ∀ s num bs addr src cnt, (H.sdio_memcpy_toio s num bs addr src cnt).2 = 0)
    (hfrom : ∀ s num bs dst addr cnt, (H.sdio_memcpy_fromio s num bs dst addr cnt).2.2 = 0) :
    Exec b (sync_ext_rmw be H wl b n reg0 cmd0).1 1
      (sync_plan wl.chip wl.bus_data.block_size) := by
  obtain ⟨aM, aP, aE, -⟩ := reg_not_byte
  unfold sync_ext_rmw sync_plan
  simp only []
  have hm : Exec b
      (if wl.chip = wilc_chip_type.WILC_3000 then
        rmw be H { wl with bus_data := { wl.bus_data with nint := (n : Int) } } b WILC_MISC reg0
          cmd0 (fun v => v &&& (2 ^ 32 - 1 - BIT 8))
       else (b, reg0)).1 1
      (if wl.chip = wilc_chip_type.WILC_3000 then
        reg_xfer 0 WILC_MISC wl.bus_data.block_size ++
          reg_xfer 1 WILC_MISC wl.bus_data.block_size
       else []) := by
    by_cases hc : wl.chip = wilc_chip_type.WILC_3000
    · simp only [hc, if_true]
      exact rmw_exec be H _ b _ _ _ _ aM hw hto hfrom
    · simp only [hc, if_false]
      exact Exec.refl b
  generalize (if wl.chip = wilc_chip_type.WILC_3000 then
        rmw be H { wl with bus_data := { wl.bus_data with nint := (n : Int) } } b WILC_MISC reg0
          cmd0 (fun v => v &&& (2 ^ 32 - 1 - BIT 8))
       else (b, reg0)) = m at hm ⊢
  have hp := rmw_exec be H { wl with bus_data := { wl.bus_data with nint := (n : Int) } } m.1
    WILC_PIN_MUX_0 m.2 cmd0 (fun v => v ||| BIT 8) aP hw hto hfrom
  generalize rmw be H { wl with bus_data := { wl.bus_data with nint := (n : Int) } } m.1
    WILC_PIN_MUX_0 m.2 cmd0 (fun v => v ||| BIT 8) = p at hp ⊢
  have he := rmw_exec be H { wl with bus_data := { wl.bus_data with nint := (n : Int) } } p.1
    WILC_INTR_ENABLE p.2 cmd0 (fun v => v ||| line_bits n) aE hw hto hfrom
  have h := (hm.seq hp).seq he
  simp only [List.append_assoc] at h ⊢
  exact h

theorem sync_plan_no_intr2 (chip : wilc_chip_type) (bs : Nat) :
    Req.cmd52 { read_write := 1, function := 0, raw := 0, address := 0x10c,
                data := WILC_INTR2_ENABLE % 256 } ∉ sync_plan chip bs := by
  cases chip <;> simp [sync_plan, reg_xfer, window, WILC_INTR2_ENABLE, WILC_INTR_ENABLE,
    WILC_INTR_REG_BASE, WILC_PERIPH_REG_BASE, WILC_PIN_MUX_0, WILC_MISC]

/-- C21: for every requested line count above `MAX_NUM_INT = 5`, on every host,
for every handle (both chips, both IRQ modes), `wilc_sdio_sync_ext` returns 0,
leaves the bus as it was (no transaction is added to the log, the device state
is untouched) and leaves the handle, in particular the stored line count
`nint`, unchanged. -/
theorem sync_ext_rejects_above_max {σ : Type} (be : Bool) (H : Host σ) (wl : wilc)
    (b : Bus σ) (nint : Int) (reg0 : Nat) (cmd0 : sdio_cmd52)
    (h : (MAX_NUM_INT : Int) < nint) :
    (wilc_sdio_sync_ext be H wl b nint reg0 cmd0).2.1 = 0 ∧
    (wilc_sdio_sync_ext be H wl b nint reg0 cmd0).1 = b ∧
    (wilc_sdio_sync_ext be H wl b nint reg0 cmd0).1.log = b.log ∧
    (wilc_sdio_sync_ext be H wl b nint reg0 cmd0).2.2 = wl ∧
    (wilc_sdio_sync_ext be H wl b nint reg0 cmd0).2.2.bus_data.nint = wl.bus_data.nint := by
  rw [sync_ext_reject be H wl b nint reg0 cmd0 h]
  exact ⟨rfl, rfl, rfl, rfl, rfl⟩

theorem sync_ext_rejects_above_max_witness :
    (wilc_sdio_sync_ext false okHost (ready_wilc wilc_chip_type.WILC_3000 false) bus0 6 0
      { read_write := 0, function := 0, raw := 0, address := 0, data := 0 }).2.1 = 0 ∧
    (wilc_sdio_sync_ext false okHost (ready_wilc wilc_chip_type.WILC_3000 false) bus0 6 0
      { read_write := 0, function := 0, raw := 0, address := 0, data := 0 }).1.log = [] :=
  ⟨(sync_ext_rejects_above_max false okHost (ready_wilc wilc_chip_type.WILC_3000 false) bus0 6 0
      { read_write := 0, function := 0, raw := 0, address := 0, data := 0 } (by decide)).1,
   (sync_ext_rejects_above_max false okHost (ready_wilc wilc_chip_type.WILC_3000 false) bus0 6 0
      { read_write := 0, function := 0, raw := 0, address := 0, data := 0 }
      (by decide)).2.2.1⟩

/-- C22 (counterexample): in GPIO mode with every transaction succeeding,
`wilc_sdio_sync_ext` with the line count 7 returns 0 and issues no
transaction: nothing is programmed into either enable register. -/
theorem sync_ext_seven_rejected :
    wilc_sdio_sync_ext false okHost (ready_wilc wilc_chip_type.WILC_1000 true) bus0 7 0
      { read_write := 0, function := 0, raw := 0, address := 0, data := 0 } =
      (bus0, 0, ready_wilc wilc_chip_type.WILC_1000 true) ∧
    (wilc_sdio_sync_ext false okHost (ready_wilc wilc_chip_type.WILC_1000 true) bus0 7 0
      { read_write := 0, function := 0, raw := 0, address := 0, data := 0 }).1.log = [] := by
  exact ⟨rfl, rfl⟩

/-- C22 (amended): for every requested line count `n` with `5 < n ≤ 8` in GPIO
mode, on every host, `wilc_sdio_sync_ext` returns 0 without a transaction (the
log and the device state are as before), so that no line bit is programmed
into `WILC_INTR_ENABLE` or `WILC_INTR2_ENABLE`, and the stored line count is
unchanged. -/
theorem sync_ext_six_to_eight_rejected {σ : Type} (be : Bool) (H : Host σ) (wl : wilc)
    (b : Bus σ) (n : Int) (reg0 : Nat) (cmd0 : sdio_cmd52) (h5 : 5 < n) (_h8 : n ≤ 8)
    (_hg : wl.bus_data.irq_gpio = true) :
    (wilc_sdio_sync_ext be H wl b n reg0 cmd0).2.1 = 0 ∧
    (wilc_sdio_sync_ext be H wl b n reg0 cmd0).1.log = b.log ∧
    (wilc_sdio_sync_ext be H wl b n reg0 cmd0).1.host = b.host ∧
    (wilc_sdio_sync_ext be H wl b n reg0 cmd0).2.2.bus_data.nint = wl.bus_data.nint := by
  rw [sync_ext_reject be H wl b n reg0 cmd0 (by simpa [MAX_NUM_INT] using h5)]
  exact ⟨rfl, rfl, rfl, rfl⟩

theorem sync_ext_six_to_eight_rejected_witness :
    (wilc_sdio_sync_ext true mockHost (ready_wilc wilc_chip_type.WILC_3000 true) mock0 8 0
      { read_write := 0, function := 0, raw := 0, address := 0, data := 0 }).2.1 = 0 ∧
    (wilc_sdio_sync_ext true mockHost (ready_wilc wilc_chip_type.WILC_3000 true) mock0 8 0
      { read_write := 0, function := 0, raw := 0, address := 0, data := 0 }).1.log =
      mock0.log :=
  ⟨(sync_ext_six_to_eight_rejected true mockHost (ready_wilc wilc_chip_type.WILC_3000 true)
      mock0 8 0 { read_write := 0, function := 0, raw := 0, address := 0, data := 0 }
      (by decide) (by decide) rfl).1,
   (sync_ext_six_to_eight_rejected true mockHost (ready_wilc wilc_chip_type.WILC_3000 true)
      mock0 8 0 { read_write := 0, function := 0, raw := 0, address := 0, data := 0 }
      (by decide) (by decide) rfl).2.1⟩

theorem mockHost_ok :
    (∀ s num byte addr, (mockHost.sdio_writeb s num byte addr).2 = 0) ∧
    (∀ s num bs addr src cnt, (mockHost.sdio_memcpy_toio s num bs addr src cnt).2 = 0) ∧
    (∀ s num bs dst addr cnt, (mockHost.sdio_memcpy_fromio s num bs dst addr cnt).2.2 = 0) := by
  refine ⟨?_, ?_, ?_⟩
  · intro s num byte addr
    simp only [mockHost]
    split_ifs <;> rfl
  · intro s num bs addr src cnt
    simp only [mockHost]
    split_ifs <;> rfl
  · intro s num bs dst addr cnt
    simp only [mockHost]
    split_ifs <;> rfl

/-- C23: for every line count `n` of `0 .. 5` in GPIO mode, on every host on
which all byte writes and block transfers succeed, for both chips and both
byte orders of the CPU, `wilc_sdio_sync_ext` returns 1, stores `n` as the line
count, and is the sequence of read-modify-write updates `sync_ext_rmw`: the
value written to `WILC_PIN_MUX_0` is the value read or-ed with bit 8, the value
written to `WILC_INTR_ENABLE` is the value read or-ed with `line_bits n`, whose
set bits are exactly `27 .. 27 + n - 1`, so that every other bit is as read.
The requests issued are exactly those of `sync_plan`, all successful; the
window is never programmed with the address of `WILC_INTR2_ENABLE`. -/
theorem sync_ext_read_modify_write {σ : Type} (be : Bool) (H : Host σ) (wl : wilc)
    (b : Bus σ) (n : Nat) (reg0 : Nat) (cmd0 : sdio_cmd52) (hn : n ≤ 5)
    (hg : wl.bus_data.irq_gpio = true)
    (hw : ∀ s num byte addr, (H.sdio_writeb s num byte addr).2 = 0)
    (hto : ∀ s num bs addr src cnt, (H.sdio_memcpy_toio s num bs addr src cnt).2 = 0)
    (hfrom : ∀ s num bs dst addr cnt, (H.sdio_memcpy_fromio s num bs dst addr cnt).2.2 = 0) :
    wilc_sdio_sync_ext be H wl b (n : Int) reg0 cmd0 = sync_ext_rmw be H wl b n reg0 cmd0 ∧
    (wilc_sdio_sync_ext be H wl b (n : Int) reg0 cmd0).2.1 = 1 ∧
    (wilc_sdio_sync_ext be H wl b (n : Int) reg0 cmd0).2.2.bus_data.nint = (n : Int) ∧
    (∀ v j, (v ||| BIT 8).testBit j = (v.testBit j || decide (j = 8))) ∧
    (∀ v j, (v ||| line_bits n).testBit j =
      (v.testBit j || decide (27 ≤ j ∧ j < 27 + n))) ∧
    (wilc_sdio_sync_ext be H wl b (n : Int) reg0 cmd0).1.log =
      b.log ++ (sync_plan wl.chip wl.bus_data.block_size).map (fun q => (⟨q, 0⟩ : Txn)) ∧
    Req.cmd52 { read_write := 1, function := 0, raw := 0, address := 0x10c,
                data := WILC_INTR2_ENABLE % 256 } ∉
      sync_plan wl.chip wl.bus_data.block_size := by
  have heq := sync_ext_eq_rmw be H wl b n reg0 cmd0 hn hg hw hto hfrom
  have hex := sync_ext_rmw_exec be H wl b n reg0 cmd0 hw hto hfrom
  obtain ⟨t, hlog, -, -, -, -, ht⟩ := hex.outcome
  rw [heq]
  refine ⟨rfl, rfl, rfl, ?_, ?_, ?_, sync_plan_no_intr2 _ _⟩
  · intro v j
    rw [Nat.testBit_or, bit_testBit]
  · intro v j
    rw [Nat.testBit_or, line_bits_testBit]
  · rw [hlog, ht rfl]

theorem sync_ext_read_modify_write_witness :
    wilc_sdio_sync_ext false mockHost (ready_wilc wilc_chip_type.WILC_1000 true)
        (mock_regs 0x55 0x40000001 0x6) 3 0
        { read_write := 0, function := 0, raw := 0, address := 0, data := 0 } =
      sync_ext_rmw false mockHost (ready_wilc wilc_chip_type.WILC_1000 true)
        (mock_regs 0x55 0x40000001 0x6) 3 0
        { read_write := 0, function := 0, raw := 0, address := 0, data := 0 } ∧
    (wilc_sdio_sync_ext false mockHost (ready_wilc wilc_chip_type.WILC_1000 true)
        (mock_regs 0x55 0x40000001 0x6) 3 0
        { read_write := 0, function := 0, raw := 0, address := 0, data := 0 }).1.host.word
      WILC_PIN_MUX_0 = 0x155 ∧
    (wilc_sdio_sync_ext false mockHost (ready_wilc wilc_chip_type.WILC_1000 true)
        (mock_regs 0x55 0x40000001 0x6) 3 0
        { read_write := 0, function := 0, raw := 0, address := 0, data := 0 }).1.host.word
      WILC_INTR_ENABLE = 0x78000001 ∧
    (wilc_sdio_sync_ext false mockHost (ready_wilc wilc_chip_type.WILC_1000 true)
        (mock_regs 0x55 0x40000001 0x6) 3 0
        { read_write := 0, function := 0, raw := 0, address := 0, data := 0 }).1.host.word
      WILC_INTR2_ENABLE = 0x6 :=
  ⟨(sync_ext_read_modify_write false mockHost (ready_wilc wilc_chip_type.WILC_1000 true)
      (mock_regs 0x55 0x40000001 0x6) 3 0
      { read_write := 0, function := 0, raw := 0, address := 0, data := 0 } (by decide) rfl
      mockHost_ok.1 mockHost_ok.2.1 mockHost_ok.2.2).1,
   by decide, by decide, by decide⟩

/-! ## Reset, de-initialisation and the interrupt callback -/

/-- C24 (counterexample): the request that `wilc_sdio_reset` issues has the raw
flag clear: on a host on which everything succeeds the log is the single
request `{write, function 0, raw = 0, address 0x6, data 0x8}`, not the one with
`raw = 1`. -/
theorem reset_request_not_raw :
    (wilc_sdio_reset okHost bus0).1.log =
      [⟨Req.cmd52 { read_write := 1, function := 0, raw := 0, address := 0x6, data := 0x8 },
        0⟩] ∧
    (wilc_sdio_reset okHost bus0).1.log ≠
      [⟨Req.cmd52 { read_write := 1, function := 0, raw := 1, address := 0x6, data := 0x8 },
        0⟩] := by
  decide

/-- C24 (amended): on every host `wilc_sdio_reset` issues exactly one
transaction, the plain (not raw) single-byte write of 0x8 to register 0x6 of
function 0: the bus is claimed, `sdio_writeb` is called once, nothing is read
back, the bus is released; the call returns the error code of that write and
does not retry. -/
theorem reset_single_plain_write {σ : Type} (H : Host σ) (b : Bus σ) :
    (wilc_sdio_reset H b).1.log = b.log ++
      [⟨Req.cmd52 { read_write := 1, function := 0, raw := 0, address := 0x6, data := 0x8 },
        (wilc_sdio_reset H b).2⟩] ∧
    (wilc_sdio_reset H b).2 = (H.sdio_writeb (H.sdio_claim_host b.host) 0 0x8 0x6).2 ∧
    (wilc_sdio_reset H b).1.host =
      H.sdio_release_host (H.sdio_writeb (H.sdio_claim_host b.host) 0 0x8 0x6).1 := by
  exact ⟨rfl, rfl, rfl⟩

/-- C25 (counterexample): `wilc_sdio_reset` on an initialised handle, with the
transaction succeeding, leaves `wilc_sdio_is_init` true. -/
theorem reset_leaves_is_init_set :
    (hif_step false (idExt 0x1002b0) okHost HifOp.hif_reset
      ⟨ready_wilc wilc_chip_type.WILC_1000 false, bus0⟩).map
        (fun s => wilc_sdio_is_init s.wl) = some true := by
  rfl

/-- C25 (amended): after `wilc_sdio_deinit` the flag is clear,
`wilc_sdio_is_init` returns false for every handle state, and no transaction
was issued (the bus is as before); `wilc_sdio_reset` does not write the
handle, so `wilc_sdio_is_init` returns afterwards what it returned before. -/
theorem deinit_clears_reset_keeps_is_init {σ : Type} (be : Bool) (E : Ext σ) (H : Host σ)
    (s : HifState σ) :
    (∃ t, hif_step be E H HifOp.hif_deinit s = some t ∧ wilc_sdio_is_init t.wl = false ∧
      t.bus = s.bus) ∧
    (wilc_sdio_deinit s.wl).1 = 1 ∧
    (∃ t, hif_step be E H HifOp.hif_reset s = some t ∧ t.wl = s.wl ∧
      wilc_sdio_is_init t.wl = wilc_sdio_is_init s.wl ∧
      t.bus = (wilc_sdio_reset H s.bus).1) := by
  exact ⟨⟨_, rfl, rfl, rfl⟩, rfl, ⟨_, rfl, rfl, rfl, rfl⟩⟩

/-- C26: `wilc_sdio_interrupt` as a sequential step. Entered with the lock
`WILC_SDIO_HOST_DIS_TAKEN` it changes nothing: no release of the bus, no
dispatch, the lock stays as it is. Entered otherwise it sets the lock to
`WILC_SDIO_HOST_IRQ_TAKEN`, releases the bus, calls `wilc_handle_isr` exactly
once (with the lock at `WILC_SDIO_HOST_IRQ_TAKEN`), claims the bus again, and
ends with the lock `WILC_SDIO_HOST_NO_TAKEN` and a wake-up of the waiters. So
it dispatches exactly when the lock on entry is not
`WILC_SDIO_HOST_DIS_TAKEN`. -/
theorem interrupt_dispatches_unless_disabled {σ : Type} (H : Host σ)
    (wilc_handle_isr : σ → σ) (s : IrqState σ) :
    (s.sdio_intr_lock = sdio_host_lock.WILC_SDIO_HOST_DIS_TAKEN →
      wilc_sdio_interrupt H wilc_handle_isr s = s) ∧
    (s.sdio_intr_lock ≠ sdio_host_lock.WILC_SDIO_HOST_DIS_TAKEN →
      (wilc_sdio_interrupt H wilc_handle_isr s).sdio_intr_lock =
        sdio_host_lock.WILC_SDIO_HOST_NO_TAKEN ∧
      (wilc_sdio_interrupt H wilc_handle_isr s).events = s.events ++
        [IrqEvent.release_host,
         IrqEvent.handle_isr sdio_host_lock.WILC_SDIO_HOST_IRQ_TAKEN,
         IrqEvent.claim_host, IrqEvent.wake_up] ∧
      (wilc_sdio_interrupt H wilc_handle_isr s).host =
        H.sdio_claim_host (wilc_handle_isr (H.sdio_release_host s.host))) ∧
    ((∃ l, IrqEvent.handle_isr l ∈
        (wilc_sdio_interrupt H wilc_handle_isr s).events.drop s.events.length) ↔
      s.sdio_intr_lock ≠ sdio_host_lock.WILC_SDIO_HOST_DIS_TAKEN) := by
  by_cases h : s.sdio_intr_lock = sdio_host_lock.WILC_SDIO_HOST_DIS_TAKEN
  · have e : wilc_sdio_interrupt H wilc_handle_isr s = s := by
      simp [wilc_sdio_interrupt, h]
    refine ⟨fun _ => e, fun h2 => absurd h h2, ?_⟩
    rw [e]
    simp [h]
  · have e : wilc_sdio_interrupt H wilc_handle_isr s =
        { sdio_intr_lock := sdio_host_lock.WILC_SDIO_HOST_NO_TAKEN,
          host := H.sdio_claim_host (wilc_handle_isr (H.sdio_release_host s.host)),
          events := s.events ++
            [IrqEvent.release_host,
             IrqEvent.handle_isr sdio_host_lock.WILC_SDIO_HOST_IRQ_TAKEN,
             IrqEvent.claim_host, IrqEvent.wake_up] } := by
      simp [wilc_sdio_interrupt, h]
    refine ⟨fun h2 => absurd h2 h, fun _ => ?_, ?_⟩
    · rw [e]
      exact ⟨rfl, rfl, rfl⟩
    · rw [e]
      simp [h]

/-! ## Error reporting of the command encoder -/

/-- C28 (divergence): a raw write request on a host whose `sdio_writeb` fails
with `-EIO` while `sdio_readb` succeeds: `wilc_sdio_cmd52` returns 0 (success),
because the result of the read-back overwrites the result of the write; the
same request without the raw flag returns `-EIO`. -/
theorem cmd52_raw_write_error_lost :
    (wfailHost.sdio_writeb () 0 0x80 0x100).2 = -5 ∧
    (wilc_sdio_cmd52 wfailHost bus0
      { read_write := 1, function := 0, raw := 1, address := 0x100, data := 0x80 }).2.1 = 0 ∧
    (wilc_sdio_cmd52 wfailHost bus0
      { read_write := 1, function := 0, raw := 0, address := 0x100, data := 0x80 }).2.1 = -5 := by
  decide

/-! ## The polling loop of `wilc_sdio_init` -/

/-- C29 (divergence): on a device whose I/O-ready register reads 0x2 on the
fourth poll, with every transaction succeeding, the polling loop of
`wilc_sdio_init` leaves with the ready value in `cmd.data` and `loop = 0`, and
`wilc_sdio_init` returns 0 after the four polls without going on to the
function-1 block size; with the ready value on the third poll it returns 1. -/
theorem init_rejects_ready_on_last_poll :
    (ior_poll lateReadyHost 3 ⟨0, []⟩
      { read_write := 0, function := 0, raw := 0, address := 0x3, data := 0 }).cmd.data = 0x2 ∧
    (ior_poll lateReadyHost 3 ⟨0, []⟩
      { read_write := 0, function := 0, raw := 0, address := 0x3, data := 0 }).failed = false ∧
    (ior_poll lateReadyHost 3 ⟨0, []⟩
      { read_write := 0, function := 0, raw := 0, address := 0x3, data := 0 }).loop = 0 ∧
    (wilc_sdio_init (lateReadyExt 0x1002b0) lateReadyHost (fresh_wilc 0) ⟨0, []⟩ false).2.1 = 0 ∧
    (wilc_sdio_init (lateReadyExt 0x1002b0) lateReadyHost (fresh_wilc 0) ⟨0, []⟩ false).1.log =
      (init_pre ++ [init_poll, init_poll, init_poll, init_poll]).map
        (fun q => (⟨q, 0⟩ : Txn)) ∧
    (wilc_sdio_init (lateReadyExt 0x1002b0) lateReadyHost (fresh_wilc 0) ⟨1, []⟩ false).2.1 = 1 := by
  decide

/-! ## The invariant of the handle -/

theorem identify_handle {σ : Type} (E : Ext σ) (wl : wilc) (b : Bus σ) :
    (identify E wl b).2.2.bus_data.block_size = wl.bus_data.block_size ∧
    (wilc_sdio_is_init (identify E wl b).2.2 = true ∨ (identify E wl b).2.2 = wl) := by
  unfold identify
  split_ifs
  · exact ⟨rfl, Or.inl rfl⟩
  · exact ⟨rfl, Or.inl rfl⟩
  · exact ⟨rfl, Or.inr rfl⟩

theorem init_inv {σ : Type} (E : Ext σ) (H : Host σ) (wl : wilc) (b : Bus σ) (resume : Bool)
    (h : hif_inv wl) : hif_inv (wilc_sdio_init E H wl b resume).2.2 := by
  obtain ⟨k, n, b6, -, -, -, -, -, hc⟩ := init_cases E H wl b
  rcases hc with ⟨-, w, hw, hall⟩ | ⟨-, hall⟩
  · rw [hall resume]
    rcases hw with rfl | rfl
    · exact h
    · exact fun _ => rfl
  · have ht := hall true
    have hf := hall false
    simp only [if_true] at ht
    simp only [Bool.false_eq_true, if_false] at hf
    cases resume
    · rw [hf]
      intro _
      exact (identify_handle E (init_wl1 E wl) b6).1
    · rw [ht]
      exact fun _ => rfl

theorem ite_pred {α : Type} (P : α → Prop) (c : Prop) [Decidable c] (a b : α)
    (ha : P a) (hb : P b) : P (if c then a else b) := by
  split_ifs
  · exact ha
  · exact hb

theorem sync_ext_handle {σ : Type} (be : Bool) (H : Host σ) (wl : wilc) (b : Bus σ)
    (nint : Int) (reg0 : Nat) (cmd0 : sdio_cmd52) :
    (wilc_sdio_sync_ext be H wl b nint reg0 cmd0).2.2 = wl ∨
    (wilc_sdio_sync_ext be H wl b nint reg0 cmd0).2.2 =
      { wl with bus_data := { wl.bus_data with nint := nint } } := by
  unfold wilc_sdio_sync_ext
  simp only []
  repeat' first
    | exact Or.inl rfl
    | exact Or.inr rfl
    | refine ite_pred (fun x : Bus σ × Int × wilc => x.2.2 = wl ∨
        x.2.2 = { wl with bus_data := { wl.bus_data with nint := nint } }) _ _ _ ?_ ?_

theorem hif_step_block_size {σ : Type} (be : Bool) (E : Ext σ) (H : Host σ) (op : HifOp)
    (s t : HifState σ) (hop : ∀ resume, op ≠ HifOp.hif_init resume)
    (hst : hif_step be E H op s = some t) :
    t.wl.bus_data.block_size = s.wl.bus_data.block_size ∧
    (op ≠ HifOp.hif_deinit → t.wl.bus_data.is_init = s.wl.bus_data.is_init) ∧
    (op = HifOp.hif_deinit → t.wl.bus_data.is_init = false) := by
  cases op with
  | hif_init resume => exact absurd rfl (hop resume)
  | hif_deinit =>
    simp only [hif_step, Option.some.injEq] at hst
    subst hst
    exact ⟨rfl, fun h => absurd rfl h, fun _ => rfl⟩
  | hif_block_rx addr buf size =>
    simp only [hif_step, Option.map_eq_some'] at hst
    obtain ⟨r, -, rfl⟩ := hst
    exact ⟨rfl, fun _ => rfl, fun h => by cases h⟩
  | hif_block_tx addr buf size =>
    simp only [hif_step, Option.map_eq_some'] at hst
    obtain ⟨r, -, rfl⟩ := hst
    exact ⟨rfl, fun _ => rfl, fun h => by cases h⟩
  | hif_sync_ext nint reg0 cmd0 =>
    simp only [hif_step, Option.some.injEq] at hst
    subst hst
    have key : (wilc_sdio_sync_ext be H s.wl s.bus nint reg0 cmd0).2.2.bus_data.block_size =
          s.wl.bus_data.block_size ∧
        (wilc_sdio_sync_ext be H s.wl s.bus nint reg0 cmd0).2.2.bus_data.is_init =
          s.wl.bus_data.is_init := by
      rcases sync_ext_handle be H s.wl s.bus nint reg0 cmd0 with e | e
      · rw [e]
        exact ⟨rfl, rfl⟩
      · rw [e]
        exact ⟨rfl, rfl⟩
    exact ⟨key.1, fun _ => key.2, fun h => by cases h⟩
  | hif_reset =>
    simp only [hif_step, Option.some.injEq] at hst
    subst hst
    exact ⟨rfl, fun _ => rfl, fun h => by cases h⟩
  | hif_is_init =>
    simp only [hif_step, Option.some.injEq] at hst
    subst hst
    exact ⟨rfl, fun _ => rfl, fun h => by cases h⟩
  | hif_read_reg addr data0 cmd0 =>
    simp only [hif_step, Option.some.injEq] at hst
    subst hst
    exact ⟨rfl, fun _ => rfl, fun h => by cases h⟩
  | hif_write_reg addr data =>
    simp only [hif_step, Option.some.injEq] at hst
    subst hst
    exact ⟨rfl, fun _ => rfl, fun h => by cases h⟩
  | hif_read_int cmd0 =>
    simp only [hif_step, Option.some.injEq] at hst
    subst hst
    exact ⟨rfl, fun _ => rfl, fun h => by cases h⟩
  | hif_read_size =>
    simp only [hif_step, Option.some.injEq] at hst
    subst hst
    exact ⟨rfl, fun _ => rfl, fun h => by cases h⟩
  | hif_clear_int_ext val =>
    simp only [hif_step, Option.some.injEq] at hst
    subst hst
    exact ⟨rfl, fun _ => rfl, fun h => by cases h⟩

theorem hif_step_inv {σ : Type} (be : Bool) (E : Ext σ) (H : Host σ) (op : HifOp)
    (s t : HifState σ) (h : hif_inv s.wl) (hst : hif_step be E H op s = some t) :
    hif_inv t.wl := by
  by_cases hop : ∃ resume, op = HifOp.hif_init resume
  · obtain ⟨resume, rfl⟩ := hop
    simp only [hif_step, Option.some.injEq] at hst
    subst hst
    exact init_inv E H s.wl s.bus resume h
  · have hop2 : ∀ resume, op ≠ HifOp.hif_init resume := fun r e => hop ⟨r, e⟩
    obtain ⟨hb, hk, hd⟩ := hif_step_block_size be E H op s t hop2 hst
    intro hi
    rw [hb]
    by_cases hde : op = HifOp.hif_deinit
    · rw [hd hde] at hi
      exact absurd hi (by decide)
    · rw [hk hde] at hi
      exact h hi

theorem hif_run_inv {σ : Type} (be : Bool) (E : Ext σ) (H : Host σ) (ops : List HifOp) :
    ∀ s t : HifState σ, hif_inv s.wl → hif_run be E H ops s = some t → hif_inv t.wl := by
  induction ops with
  | nil =>
    intro s t h hr
    simp only [hif_run, Option.some.injEq] at hr
    subst hr
    exact h
  | cons op ops ih =>
    intro s t h hr
    simp only [hif_run] at hr
    cases hs : hif_step be E H op s with
    | none => rw [hs] at hr; exact absurd hr (by simp)
    | some u =>
      rw [hs] at hr
      exact ih u t (hif_step_inv be E H op s u h hs) hr

/-- C30: the predicate `hif_inv` ("initialised implies block size 512") holds
for a freshly allocated handle, is preserved by every call of an interface
operation (`hif_step`) and hence holds after every sequence of calls on a
fresh handle; a call of an operation other than `wilc_sdio_init` leaves
`block_size` as it was. On a handle that satisfies the predicate and is
initialised, `wilc_sdio_write` and `wilc_sdio_read` return a result: the
division and the modulo by `block_size` do not divide by zero. -/
theorem initialised_implies_block_size {σ : Type} (be : Bool) (E : Ext σ) (H : Host σ) :
    (∀ io_type, hif_inv (fresh_wilc io_type)) ∧
    (∀ op (s t : HifState σ), hif_inv s.wl → hif_step be E H op s = some t → hif_inv t.wl) ∧
    (∀ op (s t : HifState σ), (∀ resume, op ≠ HifOp.hif_init resume) →
      hif_step be E H op s = some t → t.wl.bus_data.block_size = s.wl.bus_data.block_size) ∧
    (∀ ops io_type (b : Bus σ) (t : HifState σ),
      hif_run be E H ops ⟨fresh_wilc io_type, b⟩ = some t → hif_inv t.wl) ∧
    (∀ (wl : wilc) (b : Bus σ) addr buf size, hif_inv wl → wilc_sdio_is_init wl = true →
      wl.bus_data.block_size ≠ 0 ∧
      (wilc_sdio_write H wl b addr buf size).isSome = true ∧
      (wilc_sdio_read H wl b addr buf size).isSome = true) := by
  refine ⟨?_, ?_, ?_, ?_, ?_⟩
  · intro io_type hi
    exact absurd hi (by simp [fresh_wilc])
  · exact fun op s t => hif_step_inv be E H op s t
  · exact fun op s t hop hst => (hif_step_block_size be E H op s t hop hst).1
  · intro ops io_type b t hr
    exact hif_run_inv be E H ops _ t (fun hi => absurd hi (by simp [fresh_wilc])) hr
  · intro wl b addr buf size hinv hi
    have hbs : wl.bus_data.block_size ≠ 0 := by
      rw [hinv hi]
      decide
    obtain ⟨c, r, hw, -⟩ := write_exec H wl b addr buf size hbs
    obtain ⟨c2, r2, out, hr, -⟩ := read_exec H wl b addr buf size hbs
    rw [hw, hr]
    exact ⟨hbs, rfl, rfl⟩

/-! ## Block read against block write -/

theorem window_dir (rw adr : Nat) : (window adr).map (Req.dir rw) = window adr := rfl

theorem xfer_plan_dir (rw rw2 addr size block_size : Nat) :
    (xfer_plan rw addr size block_size).map (Req.dir rw2) = xfer_plan rw2 addr size block_size := by
  unfold xfer_plan
  simp only [List.map_append]
  congr 1
  · split_ifs <;> simp [Req.dir, window_dir]
  · split_ifs <;> simp [Req.dir, window_dir]

theorem Run.same_outcomes (f : Req → Req) {p : List Req} {n : List Txn} {o : Bool}
    (h : Run p n o) :
    ∀ {n2 : List Txn} {o2 : Bool}, Run (p.map f) n2 o2 →
      (n.map Txn.ret <+: n2.map Txn.ret ∨ n2.map Txn.ret <+: n.map Txn.ret) →
      n2 = n.map (fun t => (⟨f t.req, t.ret⟩ : Txn)) ∧ o2 = o := by
  induction h with
  | done =>
    intro n2 o2 h2 _
    cases h2
    exact ⟨rfl, rfl⟩
  | @ok r p n o _ ih =>
    intro n2 o2 h2 hag
    cases h2 with
    | @ok _ _ n3 _ h3 =>
      simp only [List.map_cons, List.cons_prefix_cons, true_and] at hag
      obtain ⟨e1, e2⟩ := ih h3 hag
      exact ⟨by rw [e1]; rfl, e2⟩
    | @fail _ _ ret2 hr =>
      simp only [List.map_cons, List.cons_prefix_cons, List.map_nil] at hag
      rcases hag with h | h
      · exact absurd h.1.symm hr
      · exact absurd h.1 hr
  | @fail r p ret hr =>
    intro n2 o2 h2 hag
    cases h2 with
    | @ok _ _ n3 _ h3 =>
      simp only [List.map_cons, List.cons_prefix_cons, List.map_nil] at hag
      rcases hag with h | h
      · exact absurd h.1 hr
      · exact absurd h.1.symm hr
    | @fail _ _ ret2 hr2 =>
      simp only [List.map_cons, List.cons_prefix_cons, List.map_nil] at hag
      have e : ret = ret2 := by
        rcases hag with h | h
        · exact h.1
        · exact h.1.symm
      subst e
      exact ⟨rfl, rfl⟩

theorem map_fixed {α : Type} (f : α → α) :
    ∀ l : List α, l.map f = l → ∀ a ∈ l, f a = a
  | [], _, a, ha => by cases ha
  | x :: l, h, a, ha => by
    simp only [List.map_cons, List.cons.injEq] at h
    rcases List.mem_cons.1 ha with rfl | h2
    · exact h.1
    · exact map_fixed f l h.2 a h2

theorem Run.reqs_fixed (f : Req → Req) {p : List Req} {n : List Txn} {o : Bool}
    (h : Run p n o) (hp : p.map f = p) : ∀ t ∈ n, t.req = f t.req := by
  intro t ht
  have hm : t.req ∈ p := h.reqs_le.subset (List.mem_map_of_mem Txn.req ht)
  exact (map_fixed f p hp _ hm).symm

/-- C31: for every address, size, handle (block size) and every pair of hosts,
`wilc_sdio_write` and `wilc_sdio_read` both have no result when the block size
is 0; otherwise both return a result, the block requests of the write carry
direction 1 and those of the read direction 0, and if the error codes of their
transactions agree as far as both run (the same sequence of transport
outcomes), the transactions of the read are those of the write with the
direction bit of the block requests cleared - same window bytes, function,
address, block-mode flag, count, buffer offset, same error codes - and the two
calls return the same value. -/
theorem read_write_same_transactions {σ τ : Type} (H : Host σ) (H2 : Host τ) (wl : wilc)
    (b : Bus σ) (b2 : Bus τ) (addr : Nat) (buf buf2 : Buf) (size : Nat) :
    (wl.bus_data.block_size = 0 →
      wilc_sdio_write H wl b addr buf size = none ∧
      wilc_sdio_read H2 wl b2 addr buf2 size = none) ∧
    (wl.bus_data.block_size ≠ 0 →
      ∃ (c : Bus σ) (r : Int) (c2 : Bus τ) (r2 : Int) (out : Buf) (n n2 : List Txn),
        wilc_sdio_write H wl b addr buf size = some (c, r) ∧
        wilc_sdio_read H2 wl b2 addr buf2 size = some (c2, r2, out) ∧
        c.log = b.log ++ n ∧ c2.log = b2.log ++ n2 ∧
        (∀ t ∈ n, t.req = Req.dir 1 t.req) ∧ (∀ t ∈ n2, t.req = Req.dir 0 t.req) ∧
        ((n.map Txn.ret <+: n2.map Txn.ret ∨ n2.map Txn.ret <+: n.map Txn.ret) →
          n2 = n.map (fun t => (⟨Req.dir 0 t.req, t.ret⟩ : Txn)) ∧
          n.map Txn.ret = n2.map Txn.ret ∧ r2 = r)) := by
  constructor
  · intro h0
    simp [wilc_sdio_write, wilc_sdio_read, h0]
  · intro hbs
    obtain ⟨c, r, hw, n, o, hlog, hr, hrun⟩ := write_exec H wl b addr buf size hbs
    obtain ⟨c2, r2, out, hrd, n2, o2, hlog2, hr2, hrun2⟩ := read_exec H2 wl b2 addr buf2 size hbs
    refine ⟨c, r, c2, r2, out, n, n2, hw, hrd, hlog, hlog2,
      hrun.reqs_fixed _ (xfer_plan_dir 1 1 _ _ _), hrun2.reqs_fixed _ (xfer_plan_dir 0 0 _ _ _),
      ?_⟩
    intro hag
    rw [← xfer_plan_dir 1 0] at hrun2
    obtain ⟨e1, e2⟩ := hrun.same_outcomes (Req.dir 0) hrun2 hag
    refine ⟨e1, ?_, ?_⟩
    · rw [e1, List.map_map]
      rfl
    · rw [hr, hr2, e2]

theorem read_write_same_transactions_witness :
    (∃ (c : Bus Unit) (r : Int) (c2 : Bus Unit) (r2 : Int) (out : Buf) (n n2 : List Txn),
      wilc_sdio_write okHost (ready_wilc wilc_chip_type.WILC_1000 false) bus0 0x1000
        (fun _ => 0) 1000 = some (c, r) ∧
      wilc_sdio_read okHost (ready_wilc wilc_chip_type.WILC_1000 false) bus0 0x1000
        (fun _ => 0) 1000 = some (c2, r2, out) ∧
      c.log = bus0.log ++ n ∧ c2.log = bus0.log ++ n2 ∧
      (∀ t ∈ n, t.req = Req.dir 1 t.req) ∧ (∀ t ∈ n2, t.req = Req.dir 0 t.req) ∧
      ((n.map Txn.ret <+: n2.map Txn.ret ∨ n2.map Txn.ret <+: n.map Txn.ret) →
        n2 = n.map (fun t => (⟨Req.dir 0 t.req, t.ret⟩ : Txn)) ∧
        n.map Txn.ret = n2.map Txn.ret ∧ r2 = r)) ∧
    (wilc_sdio_write okHost (ready_wilc wilc_chip_type.WILC_1000 false) bus0 0x1000
        (fun _ => 0) 1000).map (fun x => x.1.log.map Txn.ret) =
      some [0, 0, 0, 0, 0, 0, 0, 0] ∧
    (wilc_sdio_read okHost (ready_wilc wilc_chip_type.WILC_1000 false) bus0 0x1000
        (fun _ => 0) 1000).map (fun x => x.1.log.map Txn.ret) =
      some [0, 0, 0, 0, 0, 0, 0, 0] :=
  ⟨(read_write_same_transactions okHost okHost (ready_wilc wilc_chip_type.WILC_1000 false)
      bus0 bus0 0x1000 (fun _ => 0) (fun _ => 0) 1000).2 (by decide),
   by decide, by decide⟩

/-! ## Register access routing -/

theorem swab32_bytes (a0 a1 a2 a3 : Nat) (h0 : a0 < 256) (h1 : a1 < 256) (h2 : a2 < 256)
    (h3 : a3 < 256) :
    (a0 * 2 ^ 24 + a1 * 2 ^ 16 + a2 * 2 ^ 8 + a3) % 256 = a3 ∧
    (a0 * 2 ^ 24 + a1 * 2 ^ 16 + a2 * 2 ^ 8 + a3) / 2 ^ 8 % 256 = a2 ∧
    (a0 * 2 ^ 24 + a1 * 2 ^ 16 + a2 * 2 ^ 8 + a3) / 2 ^ 16 % 256 = a1 ∧
    (a0 * 2 ^ 24 + a1 * 2 ^ 16 + a2 * 2 ^ 8 + a3) / 2 ^ 24 % 256 = a0 := by
  norm_num
  omega

theorem u32_bytes_le (be : Bool) (v : Nat) : u32_bytes be (cpu_to_le32 be v) = le_bytes v := by
  funext i
  cases be
  · unfold u32_bytes cpu_to_le32 le_bytes
    simp only [Bool.false_eq_true, if_false]
    by_cases h0 : i = 0
    · subst h0; simp
    by_cases h1 : i = 1
    · subst h1; simp
    by_cases h2 : i = 2
    · subst h2; simp
    by_cases h3 : i = 3
    · subst h3; simp
    have h4 : ¬ i < 4 := by omega
    simp [h0, h1, h2, h3, h4]
  · obtain ⟨e3, e2, e1, e0⟩ := swab32_bytes (v % 256) (v / 2 ^ 8 % 256) (v / 2 ^ 16 % 256)
      (v / 2 ^ 24 % 256) (Nat.mod_lt _ (by norm_num)) (Nat.mod_lt _ (by norm_num))
      (Nat.mod_lt _ (by norm_num)) (Nat.mod_lt _ (by norm_num))
    unfold u32_bytes cpu_to_le32 le_bytes swab32
    simp only [if_true]
    by_cases h0 : i = 0
    · subst h0; simp only [if_true]; rw [e0]; simp
    by_cases h1 : i = 1
    · subst h1; simp only [one_ne_zero, if_false, if_true]; rw [e1]; simp
    by_cases h2 : i = 2
    · subst h2; simp only [OfNat.ofNat_ne_zero, OfNat.ofNat_ne_one, if_false, if_true]
      rw [e2]; simp
    by_cases h3 : i = 3
    · subst h3
      simp only [OfNat.ofNat_ne_zero, OfNat.ofNat_ne_one, if_false, if_true]
      rw [e3]; simp
    have h4 : ¬ i < 4 := by omega
    simp [h0, h1, h2, h3, h4]

theorem le32_word (be : Bool) (buf : Buf) : le32_to_cpu be (u32_of_bytes be buf) = le_word buf := by
  cases be
  · unfold le32_to_cpu u32_of_bytes le_word
    simp only [Bool.false_eq_true, if_false]
    ring
  · obtain ⟨e3, e2, e1, e0⟩ := swab32_bytes (buf 0 % 256) (buf 1 % 256) (buf 2 % 256)
      (buf 3 % 256) (Nat.mod_lt _ (by norm_num)) (Nat.mod_lt _ (by norm_num))
      (Nat.mod_lt _ (by norm_num)) (Nat.mod_lt _ (by norm_num))
    unfold le32_to_cpu u32_of_bytes le_word swab32
    simp only [if_true]
    rw [e0, e1, e2, e3]
    ring

theorem Exec.report {σ : Type} {b c : Bus σ} {r : Int} {p : List Req} (h : Exec b c r p) :
    ∃ n, c.log = b.log ++ n ∧ n.map Txn.req <+: p ∧ (∀ t ∈ n.dropLast, t.ret = 0) ∧
      (r = 1 ↔ ∀ t ∈ n, t.ret = 0) ∧ (r = 1 → n.map Txn.req = p) ∧ (r = 0 ∨ r = 1) := by
  obtain ⟨n, hlog, h01, hiff, hdl, hpre, hn⟩ := h.outcome
  refine ⟨n, hlog, hpre, hdl, hiff, ?_, h01⟩
  intro h1
  rw [hn h1, List.map_map]
  exact List.map_id _

theorem write_reg_byte {σ : Type} (H : Host σ) (wl : wilc) (b : Bus σ) (addr data : Nat)
    (ha : addr ≥ 0xf0 ∧ addr ≤ 0xff) :
    wilc_sdio_write_reg false H wl b addr data =
      (⟨H.sdio_release_host (H.sdio_writeb (H.sdio_claim_host b.host) 0 (data % 256) addr).1,
        b.log ++ [⟨Req.cmd52 { read_write := 1, function := 0, raw := 0, address := addr,
                               data := data % 256 },
                   (H.sdio_writeb (H.sdio_claim_host b.host) 0 (data % 256) addr).2⟩]⟩,
       if (H.sdio_writeb (H.sdio_claim_host b.host) 0 (data % 256) addr).2 ≠ 0 then 0 else 1) := by
  unfold wilc_sdio_write_reg wilc_sdio_cmd52 cpu_to_le32
  simp only [ha, and_self, if_true, Bool.false_eq_true, if_false, ne_eq, one_ne_zero,
    not_false_eq_true, not_true_eq_false]
  split_ifs <;> rfl

theorem read_reg_byte {σ : Type} (H : Host σ) (wl : wilc) (b : Bus σ) (addr data0 : Nat)
    (cmd0 : sdio_cmd52) (ha : addr ≥ 0xf0 ∧ addr ≤ 0xff) :
    wilc_sdio_read_reg false H wl b addr data0 cmd0 =
      (⟨H.sdio_release_host (H.sdio_readb (H.sdio_claim_host b.host) 0 addr).1,
        b.log ++ [⟨Req.cmd52 { cmd0 with read_write := 0, function := 0, raw := 0,
                                         address := addr },
                   (H.sdio_readb (H.sdio_claim_host b.host) 0 addr).2.2⟩]⟩,
       if (H.sdio_readb (H.sdio_claim_host b.host) 0 addr).2.2 ≠ 0 then 0 else 1,
       if (H.sdio_readb (H.sdio_claim_host b.host) 0 addr).2.2 ≠ 0 then data0
       else (H.sdio_readb (H.sdio_claim_host b.host) 0 addr).2.1 % 256) := by
  unfold wilc_sdio_read_reg wilc_sdio_cmd52 le32_to_cpu
  simp only [ha, and_self, if_true, Bool.false_eq_true, if_false, ne_eq,
    not_true_eq_false]
  split_ifs <;> rfl

theorem write_reg_window {σ : Type} (be : Bool) (H : Host σ) (wl : wilc) (b : Bus σ)
    (addr data : Nat) (ha : ¬ (addr ≥ 0xf0 ∧ addr ≤ 0xff)) :
    wilc_sdio_write_reg be H wl b addr data =
      if (wilc_sdio_set_func0_csa_address H b addr).2 = 0 then
        ((wilc_sdio_set_func0_csa_address H b addr).1, 0)
      else
        ((wilc_sdio_cmd53 H (wilc_sdio_set_func0_csa_address H b addr).1
            (reg_cmd53 1 wl.bus_data.block_size) (le_bytes data)).1,
         if (wilc_sdio_cmd53 H (wilc_sdio_set_func0_csa_address H b addr).1
            (reg_cmd53 1 wl.bus_data.block_size) (le_bytes data)).2.1 ≠ 0 then 0 else 1) := by
  unfold wilc_sdio_write_reg reg_cmd53
  simp only [ha, if_false, u32_bytes_le]
  split_ifs <;> rfl

theorem read_reg_window {σ : Type} (be : Bool) (H : Host σ) (wl : wilc) (b : Bus σ)
    (addr data0 : Nat) (cmd0 : sdio_cmd52) (ha : ¬ (addr ≥ 0xf0 ∧ addr ≤ 0xff)) :
    (wilc_sdio_read_reg be H wl b addr data0 cmd0).2.1 = 1 →
    (wilc_sdio_read_reg be H wl b addr data0 cmd0).2.2 =
      le_word (wilc_sdio_cmd53 H (wilc_sdio_set_func0_csa_address H b addr).1
        (reg_cmd53 0 wl.bus_data.block_size) (u32_bytes be data0)).2.2 := by
  unfold wilc_sdio_read_reg reg_cmd53
  simp only [ha, if_false]
  split_ifs with h1 h2
  · intro h
    exact absurd h (by norm_num)
  · intro h
    exact absurd h (by norm_num)
  · intro _
    exact le32_word be _

theorem le_word_lt (buf : Buf) : le_word buf < 2 ^ 32 := by
  unfold le_word
  have h0 := Nat.mod_lt (buf 0) (show 0 < 256 by norm_num)
  have h1 := Nat.mod_lt (buf 1) (show 0 < 256 by norm_num)
  have h2 := Nat.mod_lt (buf 2) (show 0 < 256 by norm_num)
  have h3 := Nat.mod_lt (buf 3) (show 0 < 256 by norm_num)
  generalize buf 0 % 256 = a0 at h0 ⊢
  generalize buf 1 % 256 = a1 at h1 ⊢
  generalize buf 2 % 256 = a2 at h2 ⊢
  generalize buf 3 % 256 = a3 at h3 ⊢
  norm_num
  omega

/-- Register access routing. For an address in `0xf0 .. 0xff` (on a CPU
whose byte order is little-endian, where `cpu_to_le32s` / `le32_to_cpus` are
the identity), `wilc_sdio_write_reg` issues exactly one transaction, the
non-raw single-byte write on function 0 at that address with the low 8 bits of
the word (one `sdio_writeb`, no read-back), and `wilc_sdio_read_reg` exactly
one single-byte read (one `sdio_readb`), returning on success the byte read,
a value below 256; each returns 1 exactly when its transaction succeeded. For
every other address, for both byte orders of the CPU, each issues a prefix of
the requests `reg_xfer`: the three window bytes of the address, then one
byte-mode block request of 4 bytes on function 0 at 0x10f; all transactions but
the last succeeded, the call returns 1 exactly when all of them succeeded, and
then the whole plan was issued. The buffer of the block write is `le_bytes` of
the word, and the word read is `le_word` of the buffer of the block read:
little-endian byte order. -/
theorem reg_access_routing {σ : Type} (be : Bool) (H : Host σ) (wl : wilc) (b : Bus σ)
    (addr data data0 : Nat) (cmd0 : sdio_cmd52) :
    (addr ≥ 0xf0 ∧ addr ≤ 0xff → be = false →
      (wilc_sdio_write_reg be H wl b addr data).1.log = b.log ++
        [⟨Req.cmd52 { read_write := 1, function := 0, raw := 0, address := addr,
                      data := data % 256 },
          (H.sdio_writeb (H.sdio_claim_host b.host) 0 (data % 256) addr).2⟩] ∧
      (wilc_sdio_write_reg be H wl b addr data).1.host =
        H.sdio_release_host (H.sdio_writeb (H.sdio_claim_host b.host) 0 (data % 256) addr).1 ∧
      ((wilc_sdio_write_reg be H wl b addr data).2 = 1 ↔
        (H.sdio_writeb (H.sdio_claim_host b.host) 0 (data % 256) addr).2 = 0) ∧
      ((wilc_sdio_write_reg be H wl b addr data).2 = 0 ∨
        (wilc_sdio_write_reg be H wl b addr data).2 = 1) ∧
      (wilc_sdio_read_reg be H wl b addr data0 cmd0).1.log = b.log ++
        [⟨Req.cmd52 { cmd0 with read_write := 0, function := 0, raw := 0, address := addr },
          (H.sdio_readb (H.sdio_claim_host b.host) 0 addr).2.2⟩] ∧
      (wilc_sdio_read_reg be H wl b addr data0 cmd0).1.host =
        H.sdio_release_host (H.sdio_readb (H.sdio_claim_host b.host) 0 addr).1 ∧
      ((wilc_sdio_read_reg be H wl b addr data0 cmd0).2.1 = 1 ↔
        (H.sdio_readb (H.sdio_claim_host b.host) 0 addr).2.2 = 0) ∧
      ((wilc_sdio_read_reg be H wl b addr data0 cmd0).2.1 = 0 ∨
        (wilc_sdio_read_reg be H wl b addr data0 cmd0).2.1 = 1) ∧
      ((wilc_sdio_read_reg be H wl b addr data0 cmd0).2.1 = 1 →
        (wilc_sdio_read_reg be H wl b addr data0 cmd0).2.2 =
          (H.sdio_readb (H.sdio_claim_host b.host) 0 addr).2.1 % 256 ∧
        (wilc_sdio_read_reg be H wl b addr data0 cmd0).2.2 < 256)) ∧
    (¬ (addr ≥ 0xf0 ∧ addr ≤ 0xff) →
      (∃ n, (wilc_sdio_write_reg be H wl b addr data).1.log = b.log ++ n ∧
        n.map Txn.req <+: reg_xfer 1 addr wl.bus_data.block_size ∧
        (∀ t ∈ n.dropLast, t.ret = 0) ∧
        ((wilc_sdio_write_reg be H wl b addr data).2 = 1 ↔ ∀ t ∈ n, t.ret = 0) ∧
        ((wilc_sdio_write_reg be H wl b addr data).2 = 1 →
          n.map Txn.req = reg_xfer 1 addr wl.bus_data.block_size) ∧
        ((wilc_sdio_write_reg be H wl b addr data).2 = 0 ∨
          (wilc_sdio_write_reg be H wl b addr data).2 = 1)) ∧
      ((wilc_sdio_set_func0_csa_address H b addr).2 ≠ 0 →
        (wilc_sdio_write_reg be H wl b addr data).1 =
          (wilc_sdio_cmd53 H (wilc_sdio_set_func0_csa_address H b addr).1
            (reg_cmd53 1 wl.bus_data.block_size) (le_bytes data)).1) ∧
      (∃ n, (wilc_sdio_read_reg be H wl b addr data0 cmd0).1.log = b.log ++ n ∧
        n.map Txn.req <+: reg_xfer 0 addr wl.bus_data.block_size ∧
        (∀ t ∈ n.dropLast, t.ret = 0) ∧
        ((wilc_sdio_read_reg be H wl b addr data0 cmd0).2.1 = 1 ↔ ∀ t ∈ n, t.ret = 0) ∧
        ((wilc_sdio_read_reg be H wl b addr data0 cmd0).2.1 = 1 →
          n.map Txn.req = reg_xfer 0 addr wl.bus_data.block_size) ∧
        ((wilc_sdio_read_reg be H wl b addr data0 cmd0).2.1 = 0 ∨
          (wilc_sdio_read_reg be H wl b addr data0 cmd0).2.1 = 1)) ∧
      ((wilc_sdio_read_reg be H wl b addr data0 cmd0).2.1 = 1 →
        (wilc_sdio_read_reg be H wl b addr data0 cmd0).2.2 =
          le_word (wilc_sdio_cmd53 H (wilc_sdio_set_func0_csa_address H b addr).1
            (reg_cmd53 0 wl.bus_data.block_size) (u32_bytes be data0)).2.2 ∧
        (wilc_sdio_read_reg be H wl b addr data0 cmd0).2.2 < 2 ^ 32)) := by
  constructor
  · intro ha hbe
    subst hbe
    rw [write_reg_byte H wl b addr data ha, read_reg_byte H wl b addr data0 cmd0 ha]
    generalize (H.sdio_writeb (H.sdio_claim_host b.host) 0 (data % 256) addr) = w
    generalize (H.sdio_readb (H.sdio_claim_host b.host) 0 addr) = rd
    refine ⟨rfl, rfl, ?_, ?_, rfl, rfl, ?_, ?_, ?_⟩
    · by_cases h : w.2 = 0 <;> simp [h]
    · by_cases h : w.2 = 0 <;> simp [h]
    · by_cases h : rd.2.2 = 0 <;> simp [h]
    · by_cases h : rd.2.2 = 0 <;> simp [h]
    · by_cases h : rd.2.2 = 0
      · simp only [h, ne_eq, not_true_eq_false, if_false]
        exact fun _ => ⟨trivial, Nat.mod_lt _ (by norm_num)⟩
      · simp [h]
  · intro ha
    refine ⟨(write_reg_exec be H wl b addr data ha).report, ?_,
      (read_reg_exec be H wl b addr data0 cmd0 ha).report, ?_⟩
    · intro hc
      rw [write_reg_window be H wl b addr data ha]
      simp only [hc, if_false]
    · intro h1
      have e := read_reg_window be H wl b addr data0 cmd0 ha h1
      exact ⟨e, by rw [e]; exact le_word_lt _⟩

theorem reg_access_routing_witness :
    ((wilc_sdio_write_reg false mockHost (ready_wilc wilc_chip_type.WILC_1000 false)
        (mock_regs 0 0 0) 0xf8 0x1234).1.log =
      [⟨Req.cmd52 { read_write := 1, function := 0, raw := 0, address := 0xf8,
                    data := 0x1234 % 256 }, 0⟩]) ∧
    (wilc_sdio_write_reg true mockHost (ready_wilc wilc_chip_type.WILC_1000 false)
        (mock_regs 0 0 0) 0x1000 0x11223344).1.host.word 0x1000 = 0x11223344 ∧
    (wilc_sdio_write_reg true mockHost (ready_wilc wilc_chip_type.WILC_1000 false)
        (mock_regs 0 0 0) 0x1000 0x11223344).1.host.mem 0x1000 = 0x44 ∧
    (wilc_sdio_read_reg true mockHost (ready_wilc wilc_chip_type.WILC_1000 false)
        (mock_regs 0x55 0x40000001 0x6) WILC_INTR_ENABLE 0
        { read_write := 0, function := 0, raw := 0, address := 0, data := 0 }).2 =
      (1, 0x40000001) :=
  ⟨((reg_access_routing false mockHost (ready_wilc wilc_chip_type.WILC_1000 false)
      (mock_regs 0 0 0) 0xf8 0x1234 0
      { read_write := 0, function := 0, raw := 0, address := 0, data := 0 }).1
      (by decide) rfl).1,
   by decide, by decide, by decide⟩

/-! ## The effective size of a transfer -/

theorem xfer_plan_split (rw addr size block_size : Nat) :
    xfer_plan rw addr size block_size = split_plan rw addr (word_align size) block_size := rfl

/-- C7 (amended): for every size up to 0xFFFFFFFC the effective size
`word_align size` used by `wilc_sdio_write` / `wilc_sdio_read` is `round_up4
size`, the least multiple of 4 at or above `size` (a multiple of 4 is
unchanged), and it is this value of which the block/remainder split is taken,
in both branches (address 0 or not) and on every host: with a block size other
than 0 the call returns a result and its transactions are a run of
`split_plan` for the effective size `round_up4 size`; with the block size 512
and `size ≤ 262140` a successful call carried `round_up4 size / 512` blocks and
`round_up4 size % 512` remaining bytes. The call behaves exactly as the call
with that multiple as its size. -/
theorem word_align_least_multiple (size : Nat) (h : size ≤ 0xFFFFFFFC) :
    word_align size % 4 = 0 ∧ size ≤ word_align size ∧
    (∀ m, m % 4 = 0 → size ≤ m → word_align size ≤ m) ∧
    (size % 4 = 0 → word_align size = size) ∧
    (∀ {σ : Type} (H : Host σ) (wl : wilc) (b : Bus σ) (addr : Nat) (buf : Buf),
      wilc_sdio_write H wl b addr buf size = wilc_sdio_write H wl b addr buf (word_align size) ∧
      wilc_sdio_read H wl b addr buf size = wilc_sdio_read H wl b addr buf (word_align size)) ∧
    word_align size = round_up4 size ∧
    (∀ {σ : Type} (H : Host σ) (wl : wilc) (b : Bus σ) (addr : Nat) (buf : Buf),
      wl.bus_data.block_size ≠ 0 →
      (∃ c r, wilc_sdio_write H wl b addr buf size = some (c, r) ∧
        Exec b c r (split_plan 1 addr (round_up4 size) wl.bus_data.block_size)) ∧
      (∃ c r out, wilc_sdio_read H wl b addr buf size = some (c, r, out) ∧
        Exec b c r (split_plan 0 addr (round_up4 size) wl.bus_data.block_size))) ∧
    (∀ {σ : Type} (H : Host σ) (wl : wilc) (b : Bus σ) (addr : Nat) (buf : Buf),
      wl.bus_data.block_size = 512 → size ≤ 262140 →
      (∀ c, wilc_sdio_write H wl b addr buf size = some (c, 1) →
        ∃ n, c.log = b.log ++ n ∧ block_count n = round_up4 size / 512 ∧
          byte_count n = round_up4 size % 512 ∧
          block_count n * 512 + byte_count n = round_up4 size) ∧
      (∀ c out, wilc_sdio_read H wl b addr buf size = some (c, 1, out) →
        ∃ n, c.log = b.log ++ n ∧ block_count n = round_up4 size / 512 ∧
          byte_count n = round_up4 size % 512 ∧
          block_count n * 512 + byte_count n = round_up4 size)) := by
  have e := word_align_of_le h
  have er : word_align size = round_up4 size := e
  refine ⟨by omega, by omega, fun m h1 h2 => by omega, fun h1 => by omega, ?_, er, ?_, ?_⟩
  · intro σ H wl b addr buf
    constructor
    · unfold wilc_sdio_write
      simp only [word_align_idem]
    · unfold wilc_sdio_read
      simp only [word_align_idem]
  · intro σ H wl b addr buf hbs
    obtain ⟨c, r, hw, hx⟩ := write_exec H wl b addr buf size hbs
    obtain ⟨c2, r2, out, hr, hx2⟩ := read_exec H wl b addr buf size hbs
    rw [xfer_plan_split, er] at hx hx2
    exact ⟨⟨c, r, hw, hx⟩, ⟨c2, r2, out, hr, hx2⟩⟩
  · intro σ H wl b addr buf hbs hsz
    have hbs0 : wl.bus_data.block_size ≠ 0 := by rw [hbs]; decide
    obtain ⟨c, r, hw, hx⟩ := write_exec H wl b addr buf size hbs0
    obtain ⟨c2, r2, out, hr, hx2⟩ := read_exec H wl b addr buf size hbs0
    rw [hbs] at hx hx2
    constructor
    · intro c' h'
      rw [hw] at h'
      obtain ⟨rfl, rfl⟩ := Prod.mk.inj (Option.some.inj h')
      obtain ⟨n, hlog, hsum, -, hb, hy⟩ := counts_of_exec 1 hsz hx
      rw [er] at hsum hb hy
      exact ⟨n, hlog, hb, hy, hsum⟩
    · intro c' out' h'
      rw [hr] at h'
      obtain ⟨rfl, h2⟩ := Prod.mk.inj (Option.some.inj h')
      obtain ⟨rfl, rfl⟩ := Prod.mk.inj h2
      obtain ⟨n, hlog, hsum, -, hb, hy⟩ := counts_of_exec 0 hsz hx2
      rw [er] at hsum hb hy
      exact ⟨n, hlog, hb, hy, hsum⟩

theorem word_align_least_multiple_witness :
    word_align 10 = round_up4 10 ∧ round_up4 10 = 12 ∧ round_up4 12 = 12 ∧
    (∃ n, (⟨(), [⟨Req.cmd53 { read_write := 1, function := 1, address := 0, block_mode := 0,
                              increment := 1, count := 12, buffer := 0, block_size := 512 },
                  0⟩]⟩ : Bus Unit).log = bus0.log ++ n ∧
      block_count n = round_up4 10 / 512 ∧ byte_count n = round_up4 10 % 512 ∧
      block_count n * 512 + byte_count n = round_up4 10) ∧
    (∃ c r, wilc_sdio_write okHost (ready_wilc wilc_chip_type.WILC_1000 false) bus0 0x30000
        (fun _ => 0) 10 = some (c, r) ∧
      Exec bus0 c r (split_plan 1 0x30000 (round_up4 10)
        (ready_wilc wilc_chip_type.WILC_1000 false).bus_data.block_size)) :=
  ⟨(word_align_least_multiple 10 (by decide)).2.2.2.2.2.1, by decide, by decide,
   ((word_align_least_multiple 10 (by decide)).2.2.2.2.2.2.2 okHost
      (ready_wilc wilc_chip_type.WILC_1000 false) bus0 0 (fun _ => 0) rfl (by decide)).1 _ rfl,
   ((word_align_least_multiple 10 (by decide)).2.2.2.2.2.2.1 okHost
      (ready_wilc wilc_chip_type.WILC_1000 false) bus0 0x30000 (fun _ => 0) (by decide)).1⟩

/-! ## Re-initialisation on resume -/

theorem init_all_ok_log {σ : Type} (E : Ext σ) (H : Host σ) (wl : wilc) (b : Bus σ)
    (hw : ∀ s num byte addr, (H.sdio_writeb s num byte addr).2 = 0)
    (hr : ∀ s num addr, (H.sdio_readb s num addr).2.2 = 0)
    (hready : ∀ s, (H.sdio_readb s 0 0x3).2.1 = 2) :
    (wilc_sdio_init E H wl b true).1.log =
      b.log ++ (init_plan 1).map (fun q => (⟨q, 0⟩ : Txn)) := by
  have hz := cmd52_ret_zero H hw hr
  unfold wilc_sdio_init wilc_sdio_set_func0_block_size wilc_sdio_set_func1_block_size
  simp only [hz, ne_eq, not_true_eq_false, if_false]
  rw [ior_poll_first_ready H hz hready _ _ rfl rfl rfl 2]
  simp only [hz, ne_eq, not_true_eq_false, if_false, Bool.not_true, Bool.false_eq_true,
    one_ne_zero]
  simp only [cmd52_write_cmd, ne_eq, one_ne_zero, not_false_eq_true]
  simp [init_plan, init_pre, init_poll, init_post, WILC_SDIO_BLOCK_SIZE, cmd52_log, hz]

theorem init_resume_frame {σ : Type} (E : Ext σ) (H : Host σ) (wl : wilc)
    (b : Bus σ) :
    (∀ E2 : Ext σ, E2.WILC_HIF_SDIO_GPIO_IRQ = E.WILC_HIF_SDIO_GPIO_IRQ →
      wilc_sdio_init E2 H wl b true = wilc_sdio_init E H wl b true) ∧
    (wilc_sdio_init E H wl b true).2.2.chip = wl.chip ∧
    ((wilc_sdio_init E H wl b true).2.1 = 0 ∨ (wilc_sdio_init E H wl b true).2.1 = 1) ∧
    ((wilc_sdio_init E H wl b true).2.1 = 0 →
      wilc_sdio_init E H wl b false = wilc_sdio_init E H wl b true) ∧
    ((wilc_sdio_init E H wl b true).2.1 = 1 →
      wilc_sdio_is_init (wilc_sdio_init E H wl b true).2.2 = true ∧
      wilc_sdio_init E H wl b false =
        identify E (init_wl1 E wl) (wilc_sdio_init E H wl b true).1) ∧
    (∃ (k : Nat) (n : List Txn), 1 ≤ k ∧ k ≤ 4 ∧
      (wilc_sdio_init E H wl b true).1.log = b.log ++ n ∧
      n.map Txn.req <+: init_plan k ∧
      ((wilc_sdio_init E H wl b true).2.1 = 1 ↔
        n = (init_plan k).map (fun q => (⟨q, 0⟩ : Txn)))) := by
  refine ⟨?_, ?_⟩
  · intro E2 hE
    unfold wilc_sdio_init
    simp only [hE, Bool.not_true, Bool.false_eq_true, if_false]
  · obtain ⟨k, n, b6, hk1, hk4, hlog, hpre, -, hc⟩ := init_cases E H wl b
    rcases hc with ⟨hne, w, hw, hall⟩ | ⟨hn, hall⟩
    · rw [hall true, hall false]
      refine ⟨?_, Or.inl rfl, fun _ => rfl, fun h => absurd h (by norm_num),
        k, n, hk1, hk4, hlog, hpre, ⟨fun h => absurd h (by norm_num), fun h => absurd h hne⟩⟩
      rcases hw with rfl | rfl
      · rfl
      · rfl
    · have ht := hall true
      have hf := hall false
      simp only [if_true] at ht
      simp only [Bool.false_eq_true, if_false] at hf
      rw [ht, hf]
      exact ⟨rfl, Or.inr rfl, fun h => absurd h (by norm_num), fun _ => ⟨rfl, rfl⟩,
        k, n, hk1, hk4, hlog, hpre, ⟨fun _ => hn, fun _ => rfl⟩⟩

theorem init_resume_run {σ : Type} (E : Ext σ) (H : Host σ) (wl : wilc) (b : Bus σ) :
    ∃ (k : Nat) (b6 : Bus σ), 1 ≤ k ∧ k ≤ 4 ∧ (wilc_sdio_init E H wl b true).1 = b6 ∧
      ((Exec b b6 0 (init_plan k) ∧ (wilc_sdio_init E H wl b true).2.1 = 0) ∨
       (k = 4 ∧ Exec b b6 1 (init_pre ++ List.replicate 4 init_poll) ∧
          (wilc_sdio_init E H wl b true).2.1 = 0) ∨
       (Exec b b6 1 (init_plan k) ∧ (wilc_sdio_init E H wl b true).2.1 = 1 ∧
          wilc_sdio_is_init (wilc_sdio_init E H wl b true).2.2 = true)) := by
  obtain ⟨k, b6, hk1, hk4, hc⟩ := init_spec E H wl b
  refine ⟨k, b6, hk1, hk4, ?_⟩
  rcases hc with ⟨hex, w, -, hall⟩ | ⟨rfl, hex, hall⟩ | ⟨hex, hall⟩
  · rw [hall true]
    exact ⟨rfl, Or.inl ⟨hex, rfl⟩⟩
  · rw [hall true]
    exact ⟨rfl, Or.inr (Or.inl ⟨rfl, hex, rfl⟩)⟩
  · have ht := hall true
    simp only [if_true] at ht
    rw [ht]
    exact ⟨rfl, Or.inr (Or.inr ⟨hex, rfl, rfl⟩)⟩

/-- C20: `wilc_sdio_init` with `resume = true` does not depend on
`wilc_get_chipid` and leaves `chip` unchanged; it returns 0 or 1. Its
transactions are a prefix of `init_plan k` for some `1 ≤ k ≤ 4`, and it
returns 1 exactly when the whole plan succeeded, in which case `is_init` is
true. `wilc_sdio_init` with `resume = false` on the same host issues the same
transactions: it returns the same result if the call with `resume = true`
fails, and otherwise continues with chip identification on the bus that call
left. Every call is a run of the plan: it stops with 0 at a failed
transaction, or with 0 after four successful polls, or completes the plan and
returns 1 with `is_init` true. On a device on which every byte operation
succeeds and the I/O-ready register reads 0x2, the call issues the whole plan
with one poll, every transaction successful, returns 1, sets `is_init` and
leaves `chip` as it was. -/
theorem init_resume_skips_identification {σ : Type} (E : Ext σ) (H : Host σ) (wl : wilc)
    (b : Bus σ) :
    (∀ E2 : Ext σ, E2.WILC_HIF_SDIO_GPIO_IRQ = E.WILC_HIF_SDIO_GPIO_IRQ →
      wilc_sdio_init E2 H wl b true = wilc_sdio_init E H wl b true) ∧
    (wilc_sdio_init E H wl b true).2.2.chip = wl.chip ∧
    ((wilc_sdio_init E H wl b true).2.1 = 0 ∨ (wilc_sdio_init E H wl b true).2.1 = 1) ∧
    ((wilc_sdio_init E H wl b true).2.1 = 0 →
      wilc_sdio_init E H wl b false = wilc_sdio_init E H wl b true) ∧
    ((wilc_sdio_init E H wl b true).2.1 = 1 →
      wilc_sdio_is_init (wilc_sdio_init E H wl b true).2.2 = true ∧
      wilc_sdio_init E H wl b false =
        identify E (init_wl1 E wl) (wilc_sdio_init E H wl b true).1) ∧
    (∃ (k : Nat) (n : List Txn), 1 ≤ k ∧ k ≤ 4 ∧
      (wilc_sdio_init E H wl b true).1.log = b.log ++ n ∧
      n.map Txn.req <+: init_plan k ∧
      ((wilc_sdio_init E H wl b true).2.1 = 1 ↔
        n = (init_plan k).map (fun q => (⟨q, 0⟩ : Txn)))) ∧
    (∃ (k : Nat) (b6 : Bus σ), 1 ≤ k ∧ k ≤ 4 ∧ (wilc_sdio_init E H wl b true).1 = b6 ∧
      ((Exec b b6 0 (init_plan k) ∧ (wilc_sdio_init E H wl b true).2.1 = 0) ∨
       (k = 4 ∧ Exec b b6 1 (init_pre ++ List.replicate 4 init_poll) ∧
          (wilc_sdio_init E H wl b true).2.1 = 0) ∨
       (Exec b b6 1 (init_plan k) ∧ (wilc_sdio_init E H wl b true).2.1 = 1 ∧
          wilc_sdio_is_init (wilc_sdio_init E H wl b true).2.2 = true))) ∧
    ((∀ s num byte addr, (H.sdio_writeb s num byte addr).2 = 0) →
      (∀ s num addr, (H.sdio_readb s num addr).2.2 = 0) →
      (∀ s, (H.sdio_readb s 0 0x3).2.1 = 2) →
      (wilc_sdio_init E H wl b true).2.1 = 1 ∧
      wilc_sdio_is_init (wilc_sdio_init E H wl b true).2.2 = true ∧
      (wilc_sdio_init E H wl b true).2.2.chip = wl.chip ∧
      (wilc_sdio_init E H wl b true).2.2.bus_data.block_size = 512 ∧
      (wilc_sdio_init E H wl b true).1.log =
        b.log ++ (init_plan 1).map (fun q => (⟨q, 0⟩ : Txn)) ∧
      wilc_sdio_init E H wl b false =
        identify E (init_wl1 E wl) (wilc_sdio_init E H wl b true).1) := by
  obtain ⟨f1, f2, f3, f4, f5, f6⟩ := init_resume_frame E H wl b
  refine ⟨f1, f2, f3, f4, f5, f6, init_resume_run E H wl b, ?_⟩
  intro hw hr hready
  obtain ⟨h1, h2⟩ := init_all_ok E H wl b hw hr hready
  have hlog := init_all_ok_log E H wl b hw hr hready
  have e : wilc_sdio_init E H wl b true =
      ((wilc_sdio_init E H wl b true).1, 1,
        { init_wl1 E wl with
            bus_data := { (init_wl1 E wl).bus_data with is_init := true } }) :=
    Prod.ext rfl h1
  refine ⟨?_, ?_, ?_, ?_, hlog, h2⟩
  · rw [e]
  · rw [e]; rfl
  · rw [e]; rfl
  · rw [e]; rfl

theorem init_resume_skips_identification_witness :
    ((wilc_sdio_init (idExt 0x1002b0) (regHost (fun _ _ => 2) 0)
        (ready_wilc wilc_chip_type.WILC_3000 false) bus0 true).2.1 = 1 ∧
      wilc_sdio_is_init (wilc_sdio_init (idExt 0x1002b0) (regHost (fun _ _ => 2) 0)
        (ready_wilc wilc_chip_type.WILC_3000 false) bus0 true).2.2 = true ∧
      (wilc_sdio_init (idExt 0x1002b0) (regHost (fun _ _ => 2) 0)
        (ready_wilc wilc_chip_type.WILC_3000 false) bus0 true).2.2.chip =
        (ready_wilc wilc_chip_type.WILC_3000 false).chip ∧
      (wilc_sdio_init (idExt 0x1002b0) (regHost (fun _ _ => 2) 0)
        (ready_wilc wilc_chip_type.WILC_3000 false) bus0 true).2.2.bus_data.block_size = 512 ∧
      (wilc_sdio_init (idExt 0x1002b0) (regHost (fun _ _ => 2) 0)
        (ready_wilc wilc_chip_type.WILC_3000 false) bus0 true).1.log =
        bus0.log ++ (init_plan 1).map (fun q => (⟨q, 0⟩ : Txn)) ∧
      wilc_sdio_init (idExt 0x1002b0) (regHost (fun _ _ => 2) 0)
          (ready_wilc wilc_chip_type.WILC_3000 false) bus0 false =
        identify (idExt 0x1002b0) (init_wl1 (idExt 0x1002b0)
            (ready_wilc wilc_chip_type.WILC_3000 false))
          (wilc_sdio_init (idExt 0x1002b0) (regHost (fun _ _ => 2) 0)
            (ready_wilc wilc_chip_type.WILC_3000 false) bus0 true).1) ∧
    (wilc_sdio_init (lateReadyExt 0x1002b0) lateReadyHost (fresh_wilc 0) ⟨2, []⟩ true).2.1 = 1 ∧
    (wilc_sdio_init (lateReadyExt 0x1002b0) lateReadyHost (fresh_wilc 0) ⟨2, []⟩ true).1.log =
      (init_plan 2).map (fun q => (⟨q, 0⟩ : Txn)) ∧
    (wilc_sdio_init (lateReadyExt 0x1002b0) lateReadyHost (fresh_wilc 0) ⟨1, []⟩ true).2.1 = 1 ∧
    (wilc_sdio_init (lateReadyExt 0x1002b0) lateReadyHost (fresh_wilc 0) ⟨1, []⟩ true).1.log =
      (init_plan 3).map (fun q => (⟨q, 0⟩ : Txn)) :=
  ⟨(init_resume_skips_identification (idExt 0x1002b0) (regHost (fun _ _ => 2) 0)
      (ready_wilc wilc_chip_type.WILC_3000 false) bus0).2.2.2.2.2.2.2
      (fun _ _ _ _ => rfl) (fun _ _ _ => rfl) (fun _ => rfl),
   by decide, by decide, by decide, by decide⟩

/-! ## Failures that `wilc_sdio_init` does not see -/

/-- C18 (divergence): on a host whose byte write to 0x100 fails with `-EIO`
while every other primitive succeeds, the first step of `wilc_sdio_init` (the
raw write of 0x80 to 0x100, window enable) fails on the bus, yet the call goes
on to issue all the later steps, returns 1 and sets `is_init`: the raw mode of
`wilc_sdio_cmd52` returns the result of the read-back. On a host whose every
byte write fails, the call stops with 0 at the second step, a plain write,
after the failed first step went unnoticed. -/
theorem init_succeeds_after_failed_window_enable :
    (rawFailHost.sdio_writeb () 0 0x80 0x100).2 = -5 ∧
    (wilc_sdio_init (idExt 0x1002b0) rawFailHost (fresh_wilc 0) bus0 true).2.1 = 1 ∧
    wilc_sdio_is_init
      (wilc_sdio_init (idExt 0x1002b0) rawFailHost (fresh_wilc 0) bus0 true).2.2 = true ∧
    (wilc_sdio_init (idExt 0x1002b0) rawFailHost (fresh_wilc 0) bus0 true).1.log =
      (init_plan 1).map (fun q => (⟨q, 0⟩ : Txn)) ∧
    (wilc_sdio_init (idExt 0x1002b0) rawFailHost (fresh_wilc 0) bus0 false).2.1 = 1 ∧
    wilc_sdio_is_init
      (wilc_sdio_init (idExt 0x1002b0) rawFailHost (fresh_wilc 0) bus0 false).2.2 = true ∧
    (wfailHost.sdio_writeb () 0 0x80 0x100).2 = -5 ∧
    (wilc_sdio_init (idExt 0x1002b0) wfailHost (fresh_wilc 0) bus0 true).2.1 = 0 ∧
    (wilc_sdio_init (idExt 0x1002b0) wfailHost (fresh_wilc 0) bus0 true).1.log =
      [⟨Req.cmd52 { read_write := 1, function := 0, raw := 1, address := 0x100,
                    data := 0x80 }, 0⟩,
       ⟨Req.cmd52 { read_write := 1, function := 0, raw := 0, address := 0x10,
                    data := 0x00 }, -5⟩] := by
  decide

/-! ## Register access on a big-endian CPU -/

/-- C32 (divergence): on a CPU whose byte order is big-endian,
`wilc_sdio_write_reg` at address 0xf8 with the word 0x12345678 issues its
single-byte write with the data byte 0x12, the high 8 bits of the word, where
the low 8 bits are 0x78; and `wilc_sdio_read_reg` at 0xf8 of a register holding
0xab returns 0xab000000. On a little-endian CPU the same calls carry 0x78 and
return 0xab. Through the window the big-endian CPU does transfer the word in
little-endian order: written to 0x1000 its low byte 0x78 lands at 0x1000 and
the little-endian word there is 0x12345678. -/
theorem reg_byte_path_big_endian :
    (wilc_sdio_write_reg true okHost (ready_wilc wilc_chip_type.WILC_1000 false) bus0
        0xf8 0x12345678).1.log =
      [⟨Req.cmd52 { read_write := 1, function := 0, raw := 0, address := 0xf8,
                    data := 0x12 }, 0⟩] ∧
    (wilc_sdio_write_reg true okHost (ready_wilc wilc_chip_type.WILC_1000 false) bus0
        0xf8 0x12345678).2 = 1 ∧
    0x12345678 % 256 = 0x78 ∧
    (wilc_sdio_read_reg true (regHost (fun _ _ => 0xab) 0)
        (ready_wilc wilc_chip_type.WILC_1000 false) bus0 0xf8 0
        { read_write := 0, function := 0, raw := 0, address := 0, data := 0 }).2 =
      (1, 0xab000000) ∧
    (wilc_sdio_write_reg false okHost (ready_wilc wilc_chip_type.WILC_1000 false) bus0
        0xf8 0x12345678).1.log =
      [⟨Req.cmd52 { read_write := 1, function := 0, raw := 0, address := 0xf8,
                    data := 0x78 }, 0⟩] ∧
    (wilc_sdio_write_reg false okHost (ready_wilc wilc_chip_type.WILC_1000 false) bus0
        0xf8 0x12345678).2 = 1 ∧
    (wilc_sdio_read_reg false (regHost (fun _ _ => 0xab) 0)
        (ready_wilc wilc_chip_type.WILC_1000 false) bus0 0xf8 0
        { read_write := 0, function := 0, raw := 0, address := 0, data := 0 }).2 =
      (1, 0xab) ∧
    (wilc_sdio_write_reg true mockHost (ready_wilc wilc_chip_type.WILC_1000 false)
        (mock_regs 0 0 0) 0x1000 0x12345678).1.host.mem 0x1000 = 0x78 ∧
    (wilc_sdio_write_reg true mockHost (ready_wilc wilc_chip_type.WILC_1000 false)
        (mock_regs 0 0 0) 0x1000 0x12345678).1.host.word 0x1000 = 0x12345678 := by
  decide

end WilcSdio
